import Mathlib

/-!
# Shenandoah control thread: mode selection, cycle driver and request surface

A shallow embedding of `src/hotspot/share/gc/shenandoah/shenandoahControlThread.cpp`.

* Shared fields of `ShenandoahControlThread` and the part of `ShenandoahHeap` the control
  thread reads or writes are record fields; every member function becomes a function on
  that record.
* `assert` is checked only in debug builds (`Flags.ASSERT`); `fatal`, `ShouldNotReachHere`
  and a NULL dereference stop the VM in every build.  All of them are values of `Fault`.
* Collaborators (`ShenandoahConcurrentGC`, `ShenandoahOldGC`, `ShenandoahDegenGC`,
  `ShenandoahFullGC`), heuristics and the clock are not part of the embedded file: their
  answers are inputs of an iteration (`IterationInput`).
* Other threads act on the shared state only through the public request surface of the
  control thread (`ThreadOp`); what happens while a collaborator runs is a list of such
  operations, interleaved with the collaborator's own updates of the heap flags.
* Calls whose order matters to a reader of the file (collaborator invocations, waiter
  notifications, waits) are appended to a ghost trace `VM.trace`.
* A `size_t` is a natural number reduced modulo `2 ^ 64` where the source increments it;
  `os::elapsedTime()` and the shrink period are `double`s: rationals, with every operation
  on them rounded as IEEE 754 binary64 rounds it.
* `CgroupUtil::processor_count` of `src/hotspot/os/linux/cgroupUtil_linux.cpp` is embedded
  as well, with its `float` arithmetic as rounding on the rationals.
-/

namespace Shenandoah

/-! ## Data model -/

/-- Generation tag (`GenerationMode`). -/
inductive GenerationMode where
  | YOUNG
  | OLD
  | GLOBAL
  deriving DecidableEq, Repr

/-- The control thread's `GCMode`. -/
inductive GCMode where
  | none
  | concurrent_normal
  | stw_degenerated
  | stw_full
  | marking_old
  deriving DecidableEq, Repr

/-- The enumeration `ShenandoahGC::ShenandoahDegenPoint`: where the last in-flight cycle was
cancelled. -/
inductive ShenandoahDegenPoint where
  | degenerated_unset
  | degenerated_outside_cycle
  | degenerated_mark
  | degenerated_evac
  | degenerated_updaterefs
  deriving DecidableEq, Repr

/-- Modelled from the spec: `GCCause::Cause` is declared in `gcCause.hpp`, which is not among
the sources.  The constructors are the closed taxonomy of the spec's data model
(user_requested, serviceability, metadata_clear_softrefs, wb_breakpoint, wb_full, alloc_alot,
scavenge_alot, allocation_failure, alloc_failure_evac, shenandoah_concurrent_gc, no_cause);
the three "no cause" constants the control thread names (`_no_gc`, `_no_cause_specified`,
`_last_gc_cause`) are kept apart, as in the source. -/
inductive Cause where
  | user_requested
  | serviceability
  | metadata_GC_clear_soft_refs
  | wb_breakpoint
  | wb_full_gc
  | full_gc_alot
  | scavenge_alot
  | allocation_failure
  | shenandoah_allocation_failure_evac
  | shenandoah_concurrent_gc
  | no_gc
  | no_cause_specified
  | last_gc_cause
  deriving DecidableEq, Repr

/-- Modelled from the spec: `GCCause::is_user_requested_gc` (declared in `gcCause.hpp`): the
cause is user-originated. -/
def is_user_requested_gc (cause : Cause) : Bool :=
  cause == Cause.user_requested

/-- Modelled from the spec: `GCCause::is_serviceability_requested_gc` (declared in
`gcCause.hpp`): the cause is serviceability-originated. -/
def is_serviceability_requested_gc (cause : Cause) : Bool :=
  cause == Cause.serviceability

/-- Ways the VM stops inside the control thread. -/
inductive Fault where
  | null_degen_generation
  | assert_degen_generation
  | assert_gc_cause_set
  | assert_expected_old
  | assert_old_already_in_progress
  | assert_old_mark_or_prep
  | assert_must_have_been_cancelled
  | assert_old_takes_different_path
  | assert_degen_point_not_set_yet
  | assert_only_young_may_preempt
  | assert_degen_point_set
  | assert_only_unload_during_global
  | fatal_cancel_reason
  | should_not_reach_here
  | assert_only_requested_gcs
  | assert_pacing_enabled
  deriving DecidableEq, Repr

/-- Events of the ghost trace. -/
inductive Event where
  | concurrent_collect (generation : GenerationMode) (do_old_gc_bootstrap : Bool)
      (cause : Cause) (completed : Bool)
  | old_collect (cause : Cause) (completed : Bool)
  | degen_collect (point : ShenandoahDegenPoint) (generation : GenerationMode) (cause : Cause)
  | full_collect (cause : Cause)
  | notify_gc_waiters
  | notify_alloc_failure_waiters
  | notify_control_thread
  | entry_uncommit (shrink_before : ℚ) (shrink_until : Nat)
  | control_wait
  deriving DecidableEq, Repr

/-- The fields of `ShenandoahControlThread` (the locks and periodic tasks apart).
`degen_generation` is the pointer `_degen_generation`: `none` is NULL, `some g` the heap's
generation object whose `generation_mode()` is `g`. -/
structure ShenandoahControlThread where
  alloc_failure_gc : Bool
  gc_requested : Bool
  preemption_requested : Bool
  graceful_shutdown : Bool
  allow_old_preemption : Bool
  do_counters_update : Bool
  force_counters_update : Bool
  requested_gc_cause : Cause
  requested_generation : GenerationMode
  degen_point : ShenandoahDegenPoint
  degen_generation : Option GenerationMode
  allocs_seen : Nat
  mode : GCMode
  gc_id : Nat
  should_terminate : Bool
  deriving DecidableEq, Repr

/-- A heap region as far as `service_uncommit` looks at it. -/
structure ShenandoahHeapRegion where
  is_empty_committed : Bool
  empty_time : ℚ
  deriving DecidableEq, Repr

/-- The part of `ShenandoahHeap` the control thread reads or writes. -/
structure ShenandoahHeap where
  cancelled_gc : Bool
  oom_evac_handler : Bool
  old_evacuation_failure : Bool
  concurrent_old_mark_in_progress : Bool
  concurrent_prep_for_mixed_evacuation_in_progress : Bool
  is_generational : Bool
  unload_classes : Bool
  aging_cycle : Bool
  should_clear_all_soft_refs : Bool
  soft_max_capacity : Nat
  min_capacity : Nat
  max_capacity : Nat
  committed : Nat
  regions : List ShenandoahHeapRegion
  deriving DecidableEq, Repr

/-- Shared state: the control thread, the heap, and the ghost trace. -/
structure VM where
  ct : ShenandoahControlThread
  heap : ShenandoahHeap
  trace : List Event
  deriving DecidableEq, Repr

/-- Configuration flags read by the control thread.  `ASSERT` is true in a debug build. -/
structure Flags where
  ASSERT : Bool
  ShenandoahDegeneratedGC : Bool
  ExplicitGCInvokesConcurrent : Bool
  ShenandoahImplicitGCInvokesConcurrent : Bool
  ShenandoahAlwaysClearSoftRefs : Bool
  DisableExplicitGC : Bool
  ShenandoahUncommit : Bool
  ShenandoahPacing : Bool
  ShenandoahUncommitDelay : Nat
  ShenandoahAgingCyclePeriod : Nat
  deriving DecidableEq, Repr

/-- Answers of the heuristics during one iteration: `should_degenerate_cycle` of the
heuristics of each generation, and the global heuristics' class-unloading answers. -/
structure Heuristics where
  should_degenerate_cycle : GenerationMode → Bool
  can_unload_classes : Bool
  should_unload_classes : Bool

/-- Variables of `run_service` declared before the `while` loop, so carried from one
iteration to the next. -/
structure Locals where
  generation : GenerationMode
  last_shrink_time : ℚ
  age_period : Nat
  deriving DecidableEq, Repr

/-- Variables of one iteration that outlive the mode selection. -/
structure Snapshot where
  alloc_failure_pending : Bool
  is_gc_requested : Bool
  requested_gc_cause : Cause
  explicit_gc_requested : Bool
  implicit_gc_requested : Bool
  deriving DecidableEq, Repr

/-- What the selection block leaves in the iteration's local variables. -/
structure Selection where
  cause : Cause
  generation : GenerationMode
  degen_point : ShenandoahDegenPoint
  deriving DecidableEq, Repr

/-! ## Small members -/

/-- A heap with nothing in progress: 2 GiB minimum, 16 GiB maximum, 8 GiB soft maximum and
committed, generational mode, no regions listed. -/
def ShenandoahHeap.idle : ShenandoahHeap :=
  { cancelled_gc := false
    oom_evac_handler := false
    old_evacuation_failure := false
    concurrent_old_mark_in_progress := false
    concurrent_prep_for_mixed_evacuation_in_progress := false
    is_generational := true
    unload_classes := false
    aging_cycle := false
    should_clear_all_soft_refs := false
    soft_max_capacity := 8 * 2 ^ 30
    min_capacity := 2 * 2 ^ 30
    max_capacity := 16 * 2 ^ 30
    committed := 8 * 2 ^ 30
    regions := [] }


/-- An `assert(cond, ...)`: checked in debug builds only. -/
def check (fl : Flags) (cond : Bool) (f : Fault) : Except Fault Unit :=
  if fl.ASSERT && !cond then Except.error f else Except.ok ()

/-- The constructor `ShenandoahControlThread::ShenandoahControlThread`, `reset_gc_id`
included. -/
def ShenandoahControlThread.init : ShenandoahControlThread :=
  { alloc_failure_gc := false
    gc_requested := false
    preemption_requested := false
    graceful_shutdown := false
    allow_old_preemption := false
    do_counters_update := false
    force_counters_update := false
    requested_gc_cause := Cause.no_cause_specified
    requested_generation := GenerationMode.GLOBAL
    degen_point := ShenandoahDegenPoint.degenerated_outside_cycle
    degen_generation := none
    allocs_seen := 0
    mode := GCMode.none
    gc_id := 0
    should_terminate := false }

/-- Member `ShenandoahControlThread::is_explicit_gc`. -/
def is_explicit_gc (cause : Cause) : Bool :=
  is_user_requested_gc cause || is_serviceability_requested_gc cause

/-- Member `ShenandoahControlThread::is_implicit_gc`. -/
def is_implicit_gc (cause : Cause) : Bool :=
  !is_explicit_gc cause && cause != Cause.shenandoah_concurrent_gc

/-- Member `ShenandoahControlThread::set_gc_mode` (the log line apart). -/
def set_gc_mode (new_mode : GCMode) (vm : VM) : VM :=
  if vm.ct.mode ≠ new_mode then { vm with ct := { vm.ct with mode := new_mode } } else vm

/-- Member `ShenandoahControlThread::get_gc_id`. -/
def get_gc_id (vm : VM) : Nat :=
  vm.ct.gc_id

/-- Member `ShenandoahControlThread::update_gc_id`: `Atomic::inc` on a `size_t`. -/
def update_gc_id (vm : VM) : VM :=
  { vm with ct := { vm.ct with gc_id := (vm.ct.gc_id + 1) % 2 ^ 64 } }

/-- The call `heap->set_unload_classes(b)`. -/
def set_unload_classes (b : Bool) (vm : VM) : VM :=
  { vm with heap := { vm.heap with unload_classes := b } }

/-- Append an event to the ghost trace. -/
def emit (e : Event) (vm : VM) : VM :=
  { vm with trace := vm.trace ++ [e] }

/-! ## Mode selection (`run_service`, the snapshot and the selection block) -/

/-- The reads at the top of an iteration: "Figure out if we have pending requests". -/
def take_snapshot (vm : VM) : Snapshot :=
  { alloc_failure_pending := vm.ct.alloc_failure_gc
    is_gc_requested := vm.ct.gc_requested
    requested_gc_cause := vm.ct.requested_gc_cause
    explicit_gc_requested := vm.ct.gc_requested && is_explicit_gc vm.ct.requested_gc_cause
    implicit_gc_requested := vm.ct.gc_requested && is_implicit_gc vm.ct.requested_gc_cause }

/-- The allocation-failure branch of the selection block. -/
def select_alloc_failure (fl : Flags) (hs : Heuristics) (vm : VM) :
    Except Fault (Selection × VM) := do
  let cause := Cause.allocation_failure
  -- Consume the degen point, and seed it with default value
  let degen_point := vm.ct.degen_point
  let vm := { vm with ct := { vm.ct with
    degen_point := ShenandoahDegenPoint.degenerated_outside_cycle } }
  let seed : GenerationMode :=
    if vm.heap.is_generational then GenerationMode.YOUNG else GenerationMode.GLOBAL
  let vm ←
    if degen_point = ShenandoahDegenPoint.degenerated_outside_cycle then
      pure { vm with ct := { vm.ct with degen_generation := some seed } }
    else do
      check fl vm.ct.degen_generation.isSome Fault.assert_degen_generation
      pure vm
  match vm.ct.degen_generation with
  | none => Except.error Fault.null_degen_generation
  | some g =>
    let generation := g
    -- heap->clear_old_evacuation_failure(): reads the pending old-evacuation failure and
    -- clears it
    let old_gen_evacuation_failed := vm.heap.old_evacuation_failure
    let vm := { vm with heap := { vm.heap with old_evacuation_failure := false } }
    -- Do not bother with degenerated cycle if old generation evacuation failed.
    if fl.ShenandoahDegeneratedGC && hs.should_degenerate_cycle g
        && !old_gen_evacuation_failed then
      pure ({ cause := cause, generation := generation, degen_point := degen_point },
            set_gc_mode GCMode.stw_degenerated vm)
    else
      pure ({ cause := cause, generation := GenerationMode.GLOBAL, degen_point := degen_point },
            set_gc_mode GCMode.stw_full vm)

/-- The explicit and implicit branches share their shape: `concurrent` is the flag that
gates the branch (`ExplicitGCInvokesConcurrent`, `ShenandoahImplicitGCInvokesConcurrent`). -/
def select_requested (concurrent : Bool) (hs : Heuristics) (snap : Snapshot) (vm : VM) :
    Selection × VM :=
  let sel : Selection :=
    { cause := snap.requested_gc_cause
      generation := GenerationMode.GLOBAL
      degen_point := ShenandoahDegenPoint.degenerated_unset }
  if concurrent then
    -- default_mode is concurrent_normal; "Unload and clean up everything"
    (sel, set_unload_classes hs.can_unload_classes (set_gc_mode GCMode.concurrent_normal vm))
  else
    (sel, set_gc_mode GCMode.stw_full vm)

/-- The last branch of the selection block: a request of the regulator, an old-generation
mark to resume, or nothing; it ends by clearing `_requested_gc_cause`. -/
def select_regulator (generation : GenerationMode) (vm : VM) (hs : Heuristics) :
    Selection × VM :=
  let clear (vm : VM) : VM :=
    { vm with ct := { vm.ct with requested_gc_cause := Cause.no_gc } }
  if vm.ct.requested_gc_cause = Cause.shenandoah_concurrent_gc then
    let generation := vm.ct.requested_generation
    let vm := set_gc_mode GCMode.concurrent_normal vm
    -- Don't start a new old marking if there is one already in progress.
    let vm :=
      if generation = GenerationMode.OLD && vm.heap.concurrent_old_mark_in_progress then
        set_gc_mode GCMode.marking_old vm
      else vm
    let vm :=
      if generation = GenerationMode.GLOBAL then set_unload_classes hs.should_unload_classes vm
      else set_unload_classes false vm
    ({ cause := Cause.shenandoah_concurrent_gc, generation := generation,
       degen_point := ShenandoahDegenPoint.degenerated_unset }, clear vm)
  else if vm.heap.concurrent_old_mark_in_progress
      || vm.heap.concurrent_prep_for_mixed_evacuation_in_progress then
    ({ cause := Cause.shenandoah_concurrent_gc, generation := GenerationMode.OLD,
       degen_point := ShenandoahDegenPoint.degenerated_unset },
     clear (set_gc_mode GCMode.marking_old vm))
  else
    ({ cause := Cause.last_gc_cause, generation := generation,
       degen_point := ShenandoahDegenPoint.degenerated_unset }, clear vm)

/-- The selection block of `run_service`: "Choose which GC mode to run in".  `generation` is
the value the loop-carried local has on entry; the chosen mode is `_mode` of the result. -/
def select_mode (fl : Flags) (hs : Heuristics) (snap : Snapshot) (generation : GenerationMode)
    (vm : VM) : Except Fault (Selection × VM) :=
  let vm := set_gc_mode GCMode.none vm
  if snap.alloc_failure_pending then
    select_alloc_failure fl hs vm
  else if snap.explicit_gc_requested then
    pure (select_requested fl.ExplicitGCInvokesConcurrent hs snap vm)
  else if snap.implicit_gc_requested then
    pure (select_requested fl.ShenandoahImplicitGCInvokesConcurrent hs snap vm)
  else
    pure (select_regulator generation vm hs)

/-- The selector as one step: snapshot, then selection. -/
def selector (fl : Flags) (hs : Heuristics) (generation : GenerationMode) (vm : VM) :
    Except Fault (Selection × VM) :=
  select_mode fl hs (take_snapshot vm) generation vm

/-! ## Heap members used by the control thread -/

/-- Modelled from the spec: `ShenandoahHeap::cancel_gc` sets the heap's single-bit
cancellation flag (the heap is not among the sources). -/
def cancel_gc (_cause : Cause) (vm : VM) : VM :=
  { vm with heap := { vm.heap with cancelled_gc := true } }

/-- Modelled from the spec: `ShenandoahHeap::clear_cancelled_gc(clear_oom_handler)` clears the
cancellation flag, and the OOM state only when asked to. -/
def clear_cancelled_gc (clear_oom_handler : Bool) (vm : VM) : VM :=
  { vm with heap := { vm.heap with
      cancelled_gc := false
      oom_evac_handler := if clear_oom_handler then false else vm.heap.oom_evac_handler } }

/-! ## Public request surface -/

/-- Member `ShenandoahControlThread::notify_control_thread`. -/
def notify_control_thread (vm : VM) : VM :=
  emit Event.notify_control_thread vm

/-- Member `ShenandoahControlThread::is_alloc_failure_gc`. -/
def is_alloc_failure_gc (vm : VM) : Bool :=
  vm.ct.alloc_failure_gc

/-- Member `ShenandoahControlThread::in_graceful_shutdown`. -/
def in_graceful_shutdown (vm : VM) : Bool :=
  vm.ct.graceful_shutdown

/-- Member `ShenandoahControlThread::try_set_alloc_failure_gc`: `ShenandoahSharedFlag::try_set`
sets the flag if it is clear and reports whether this call set it ("Only report the first
allocation failure"). -/
def try_set_alloc_failure_gc (vm : VM) : Bool × VM :=
  if vm.ct.alloc_failure_gc then (false, vm)
  else (true, { vm with ct := { vm.ct with alloc_failure_gc := true } })

/-- Member `ShenandoahControlThread::preempt_old_marking`: `try_unset` clears the flag if it is
set and reports whether this call cleared it; it is not evaluated for another generation. -/
def preempt_old_marking (generation : GenerationMode) (vm : VM) : Bool × VM :=
  if generation = GenerationMode.YOUNG then
    if vm.ct.allow_old_preemption then
      (true, { vm with ct := { vm.ct with allow_old_preemption := false } })
    else (false, vm)
  else (false, vm)

/-- Member `ShenandoahControlThread::request_concurrent_gc`. -/
def request_concurrent_gc (generation : GenerationMode) (vm : VM) : Bool × VM :=
  if vm.ct.preemption_requested || vm.ct.gc_requested || vm.heap.cancelled_gc then
    -- ignore subsequent requests from the heuristics
    (false, vm)
  else if vm.ct.mode = GCMode.none then
    let vm := { vm with ct := { vm.ct with
      requested_gc_cause := Cause.shenandoah_concurrent_gc
      requested_generation := generation } }
    (true, notify_control_thread vm)
  else
    let (preempted, vm) := preempt_old_marking generation vm
    if preempted then
      let vm := { vm with ct := { vm.ct with
        requested_gc_cause := Cause.shenandoah_concurrent_gc
        requested_generation := generation
        preemption_requested := true } }
      let vm := cancel_gc Cause.shenandoah_concurrent_gc vm
      (true, notify_control_thread vm)
    else (false, vm)

/-- The body of the loop of `handle_requested_gc` up to the wait: store the cause, set
`_gc_requested`, wake the control thread. -/
def post_requested_gc (cause : Cause) (vm : VM) : VM :=
  let vm := { vm with ct := { vm.ct with requested_gc_cause := cause } }
  let vm := { vm with ct := { vm.ct with gc_requested := true } }
  notify_control_thread vm

/-- Member `ShenandoahControlThread::handle_alloc_failure` up to the wait on the
allocation-failure waiters. -/
def handle_alloc_failure (vm : VM) : VM :=
  let (first, vm) := try_set_alloc_failure_gc vm
  if first then
    -- Now that alloc failure GC is scheduled, we can abort everything else
    cancel_gc Cause.allocation_failure vm
  else vm

/-- Member `ShenandoahControlThread::handle_alloc_failure_evac`. -/
def handle_alloc_failure_evac (vm : VM) : VM :=
  let (_, vm) := try_set_alloc_failure_gc vm
  -- Forcefully report allocation failure
  cancel_gc Cause.shenandoah_allocation_failure_evac vm

/-- Member `ShenandoahControlThread::notify_alloc_failure_waiters`. -/
def notify_alloc_failure_waiters (vm : VM) : VM :=
  emit Event.notify_alloc_failure_waiters
    { vm with ct := { vm.ct with alloc_failure_gc := false } }

/-- Member `ShenandoahControlThread::notify_gc_waiters`. -/
def notify_gc_waiters (vm : VM) : VM :=
  emit Event.notify_gc_waiters { vm with ct := { vm.ct with gc_requested := false } }

/-- Member `ShenandoahControlThread::handle_counters_update` (the monitoring call apart). -/
def handle_counters_update (vm : VM) : VM :=
  if vm.ct.do_counters_update then
    { vm with ct := { vm.ct with do_counters_update := false } }
  else vm

/-- Member `ShenandoahControlThread::handle_force_counters_update` (the monitoring call
apart). -/
def handle_force_counters_update (vm : VM) : VM :=
  if vm.ct.force_counters_update then
    { vm with ct := { vm.ct with do_counters_update := false } }
  else vm

/-- Member `ShenandoahControlThread::notify_heap_changed`. -/
def notify_heap_changed (vm : VM) : VM :=
  if !vm.ct.do_counters_update then
    { vm with ct := { vm.ct with do_counters_update := true } }
  else vm

/-- Member `ShenandoahControlThread::pacing_notify_alloc`: the assertion "should only call
when pacing is enabled", then `Atomic::add` on a `size_t`. -/
def pacing_notify_alloc (fl : Flags) (words : Nat) (vm : VM) : Except Fault VM := do
  check fl fl.ShenandoahPacing Fault.assert_pacing_enabled
  pure { vm with ct := { vm.ct with allocs_seen := (vm.ct.allocs_seen + words) % 2 ^ 64 } }

/-- Member `ShenandoahControlThread::set_forced_counters_update`. -/
def set_forced_counters_update (value : Bool) (vm : VM) : VM :=
  { vm with ct := { vm.ct with force_counters_update := value } }

/-- Member `ShenandoahControlThread::prepare_for_graceful_shutdown`. -/
def prepare_for_graceful_shutdown (vm : VM) : VM :=
  { vm with ct := { vm.ct with graceful_shutdown := true } }

/-- What another thread, or the collaborator that is running, does to the shared state at
one point of an interleaving.  The first seven are members of the control thread; `stop` is
`ConcurrentGCThread::stop`; a collaborator may update the heap it works on, and
`ShenandoahOldGC` holds `_allow_old_preemption` by reference.  An operation is a call that
has returned: a call of `pacing_notify_alloc` whose assertion fails stops the VM in the
caller and is no step of a run. -/
inductive ThreadOp where
  | post_requested_gc (cause : Cause)
  | request_concurrent_gc (generation : GenerationMode)
  | handle_alloc_failure
  | handle_alloc_failure_evac
  | prepare_for_graceful_shutdown
  | notify_heap_changed
  | pacing_notify_alloc (words : Nat)
  | stop
  | heap_update (f : ShenandoahHeap → ShenandoahHeap)
  | set_allow_old_preemption (value : Bool)

/-- Effect of one `ThreadOp` on the shared state. -/
def apply_op (op : ThreadOp) (vm : VM) : VM :=
  match op with
  | ThreadOp.post_requested_gc cause => post_requested_gc cause vm
  | ThreadOp.request_concurrent_gc generation => (request_concurrent_gc generation vm).2
  | ThreadOp.handle_alloc_failure => handle_alloc_failure vm
  | ThreadOp.handle_alloc_failure_evac => handle_alloc_failure_evac vm
  | ThreadOp.prepare_for_graceful_shutdown => prepare_for_graceful_shutdown vm
  | ThreadOp.notify_heap_changed => notify_heap_changed vm
  | ThreadOp.pacing_notify_alloc words =>
    -- the state a call of `pacing_notify_alloc` returns
    { vm with ct := { vm.ct with allocs_seen := (vm.ct.allocs_seen + words) % 2 ^ 64 } }
  | ThreadOp.stop => { vm with ct := { vm.ct with should_terminate := true } }
  | ThreadOp.heap_update f => { vm with heap := f vm.heap }
  | ThreadOp.set_allow_old_preemption value =>
    { vm with ct := { vm.ct with allow_old_preemption := value } }

/-- A sequence of operations of other threads, in the order they take effect. -/
def apply_ops (ops : List ThreadOp) (vm : VM) : VM :=
  ops.foldl (fun vm op => apply_op op vm) vm

/-! ## Blocking requests -/

/-- Outcome of a call of `handle_requested_gc` against a finite run of the other threads:
the shared state right after each post of the request, the number of calls of `ml.wait()`,
and the state on return (`none`: the call is still in its loop when the run ends). -/
structure RequestOutcome where
  posts : List VM
  waits : Nat
  returned : Option VM

/-- The `while (current_gc_id < required_gc_id)` loop of `handle_requested_gc`.  Each element
of `others` is what the rest of the VM does between one post and the following read of
`gc_id`: during `ml.wait()` when the caller waits, and in the gap between the two
statements when it does not. -/
def handle_requested_gc_loop (cause : Cause) (required_gc_id : Nat) (current_gc_id : Nat) :
    List (VM → VM) → VM → RequestOutcome
  | [], vm =>
    if current_gc_id < required_gc_id then { posts := [], waits := 0, returned := none }
    else { posts := [], waits := 0, returned := some vm }
  | other :: others, vm =>
    if current_gc_id < required_gc_id then
      let posted := post_requested_gc cause vm
      let waited := if cause ≠ Cause.wb_breakpoint then 1 else 0
      let vm := other posted
      let rest := handle_requested_gc_loop cause required_gc_id (get_gc_id vm) others vm
      { posts := posted :: rest.posts, waits := waited + rest.waits, returned := rest.returned }
    else { posts := [], waits := 0, returned := some vm }

/-- Member `ShenandoahControlThread::handle_requested_gc`; `required_gc_id` is a `size_t`. -/
def handle_requested_gc (cause : Cause) (others : List (VM → VM)) (vm : VM) : RequestOutcome :=
  let current_gc_id := get_gc_id vm
  let required_gc_id := (current_gc_id + 1) % 2 ^ 64
  handle_requested_gc_loop cause required_gc_id current_gc_id others vm

/-- The causes the assertion at the head of `request_gc` lets through ("only requested GCs
here"). -/
def is_requested_gc (cause : Cause) : Bool :=
  is_user_requested_gc cause ||
  is_serviceability_requested_gc cause ||
  cause == Cause.metadata_GC_clear_soft_refs ||
  cause == Cause.full_gc_alot ||
  cause == Cause.wb_full_gc ||
  cause == Cause.wb_breakpoint ||
  cause == Cause.scavenge_alot

/-- A call that returns at once, leaving the shared state as it found it. -/
def RequestOutcome.untouched (vm : VM) : RequestOutcome :=
  { posts := [], waits := 0, returned := some vm }

/-- Member `ShenandoahControlThread::request_gc`, against the same finite run of the other
threads as `handle_requested_gc`. -/
def request_gc (fl : Flags) (cause : Cause) (others : List (VM → VM)) (vm : VM) :
    Except Fault RequestOutcome := do
  check fl (is_requested_gc cause) Fault.assert_only_requested_gcs
  if is_explicit_gc cause then
    if !fl.DisableExplicitGC then
      pure (handle_requested_gc cause others vm)
    else
      pure (RequestOutcome.untouched vm)
  else
    pure (handle_requested_gc cause others vm)

/-- Outcome of a call of `handle_alloc_failure` against a finite run of the other threads:
the shared state right after the allocation failure has been scheduled, the number of calls
of `ml.wait()`, and the state on return (`none`: the caller is still in its loop when the run
ends). -/
structure AllocFailureOutcome where
  scheduled : VM
  waits : Nat
  returned : Option VM

/-- The loop `while (is_alloc_failure_gc()) ml.wait()` of `handle_alloc_failure`.  Each
element of `others` is what the rest of the VM does during one wait. -/
def alloc_failure_wait_loop : List (VM → VM) → VM → Nat × Option VM
  | [], vm => if is_alloc_failure_gc vm then (0, none) else (0, some vm)
  | other :: others, vm =>
    if is_alloc_failure_gc vm then
      let rest := alloc_failure_wait_loop others (other vm)
      (rest.1 + 1, rest.2)
    else (0, some vm)

/-- Member `ShenandoahControlThread::handle_alloc_failure` with its wait on the
allocation-failure waiters, against a finite run of the other threads. -/
def handle_alloc_failure_and_wait (others : List (VM → VM)) (vm : VM) : AllocFailureOutcome :=
  let vm := handle_alloc_failure vm
  let r := alloc_failure_wait_loop others vm
  { scheduled := vm, waits := r.1, returned := r.2 }

/-! ## Cycle driver -/

/-- One run of `ShenandoahConcurrentGC::collect`: what happens to the shared state while it
runs, its result, and `gc.degen_point()`. -/
structure ConcurrentGCRun where
  during : List ThreadOp
  completed : Bool
  degen_point : ShenandoahDegenPoint

/-- One run of `ShenandoahOldGC::collect`. -/
structure OldGCRun where
  during : List ThreadOp
  completed : Bool

/-- One run of `ShenandoahDegenGC::collect`, and `gc.upgraded_to_full()`. -/
structure DegenGCRun where
  during : List ThreadOp
  upgraded_to_full : Bool

/-- One run of `ShenandoahFullGC::collect`. -/
structure FullGCRun where
  during : List ThreadOp

/-- Everything one iteration of the loop of `run_service` takes from outside the control
thread. -/
structure IterationInput where
  heuristics : Heuristics
  SoftMaxHeapSize : Nat
  before_cycle : List ThreadOp
  concurrent_gc : ConcurrentGCRun
  old_gc : OldGCRun
  degen_gc : DegenGCRun
  full_gc : FullGCRun
  current : ℚ
  during_wait : List ThreadOp

/-- Member `ShenandoahControlThread::check_cancellation_or_degen`. -/
def check_cancellation_or_degen (fl : Flags) (point : ShenandoahDegenPoint) (vm : VM) :
    Except Fault (Bool × VM) :=
  if !vm.heap.cancelled_gc then
    pure (false, vm)
  else if in_graceful_shutdown vm then
    pure (true, vm)
  else do
    check fl (vm.ct.degen_point == ShenandoahDegenPoint.degenerated_outside_cycle)
      Fault.assert_degen_point_not_set_yet
    if is_alloc_failure_gc vm then
      pure (true, { vm with ct := { vm.ct with degen_point := point } })
    else if vm.ct.preemption_requested then do
      check fl (vm.ct.requested_generation == GenerationMode.YOUNG)
        Fault.assert_only_young_may_preempt
      -- _preemption_requested.unset(); _degen_point = point; clear_cancelled_gc(false)
      pure (true, clear_cancelled_gc false
        { vm with ct := { vm.ct with preemption_requested := false, degen_point := point } })
    else
      Except.error Fault.fatal_cancel_reason

/-- Member `ShenandoahControlThread::service_concurrent_cycle`, on the generation object whose
mode is `generation`. -/
def service_concurrent_cycle (fl : Flags) (generation : GenerationMode) (cause : Cause)
    (do_old_gc_bootstrap : Bool) (run : ConcurrentGCRun) (vm : VM) : Except Fault VM := do
  let r ← check_cancellation_or_degen fl ShenandoahDegenPoint.degenerated_outside_cycle vm
  if r.1 then
    pure r.2
  else
    -- gc.collect(cause)
    let vm := emit (Event.concurrent_collect generation do_old_gc_bootstrap cause run.completed)
      (apply_ops run.during r.2)
    if run.completed then
      -- Cycle is complete
      pure vm
    else do
      check fl vm.heap.cancelled_gc Fault.assert_must_have_been_cancelled
      let r ← check_cancellation_or_degen fl run.degen_point vm
      check fl (generation != GenerationMode.OLD) Fault.assert_old_takes_different_path
      pure { r.2 with ct := { r.2.ct with degen_generation := some generation } }

/-- Member `ShenandoahControlThread::resume_concurrent_old_cycle`. -/
def resume_concurrent_old_cycle (fl : Flags) (cause : Cause) (run : OldGCRun) (vm : VM) :
    Except Fault VM := do
  check fl (vm.heap.concurrent_old_mark_in_progress
      || vm.heap.concurrent_prep_for_mixed_evacuation_in_progress)
    Fault.assert_old_mark_or_prep
  -- gc.collect(cause)
  let vm := emit (Event.old_collect cause run.completed) (apply_ops run.during vm)
  if vm.heap.cancelled_gc then do
    let r ← check_cancellation_or_degen fl ShenandoahDegenPoint.degenerated_outside_cycle vm
    pure r.2
  else
    pure vm

/-- Member `ShenandoahControlThread::service_concurrent_old_cycle` (the assertion on the old
mark queues apart). -/
def service_concurrent_old_cycle (fl : Flags) (cause : Cause) (inp : IterationInput) (vm : VM) :
    Except Fault VM := do
  check fl (!vm.heap.concurrent_old_mark_in_progress) Fault.assert_old_already_in_progress
  let vm ← service_concurrent_cycle fl GenerationMode.YOUNG cause true inp.concurrent_gc vm
  if !vm.heap.cancelled_gc then
    -- Reset the degenerated point.
    resume_concurrent_old_cycle fl cause inp.old_gc
      (set_gc_mode GCMode.marking_old
        { vm with ct := { vm.ct with
            degen_point := ShenandoahDegenPoint.degenerated_outside_cycle } })
  else
    pure vm

/-- Member `ShenandoahControlThread::service_concurrent_normal_cycle`. -/
def service_concurrent_normal_cycle (fl : Flags) (generation : GenerationMode) (cause : Cause)
    (inp : IterationInput) (vm : VM) : Except Fault VM :=
  match generation with
  | GenerationMode.YOUNG =>
    service_concurrent_cycle fl GenerationMode.YOUNG cause false inp.concurrent_gc vm
  | GenerationMode.GLOBAL =>
    service_concurrent_cycle fl GenerationMode.GLOBAL cause false inp.concurrent_gc vm
  | GenerationMode.OLD =>
    service_concurrent_old_cycle fl cause inp vm

/-- Member `ShenandoahControlThread::service_stw_full_cycle`. -/
def service_stw_full_cycle (cause : Cause) (run : FullGCRun) (vm : VM) : VM :=
  emit (Event.full_collect cause) (apply_ops run.during vm)

/-- Member `ShenandoahControlThread::service_stw_degenerated_cycle`; `_degen_generation` is
dereferenced. -/
def service_stw_degenerated_cycle (fl : Flags) (cause : Cause) (point : ShenandoahDegenPoint)
    (run : DegenGCRun) (vm : VM) : Except Fault (Bool × VM) := do
  check fl (point != ShenandoahDegenPoint.degenerated_unset) Fault.assert_degen_point_set
  match vm.ct.degen_generation with
  | none => Except.error Fault.null_degen_generation
  | some g =>
    -- gc.collect(cause); return !gc.upgraded_to_full()
    pure (!run.upgraded_to_full,
      emit (Event.degen_collect point g cause) (apply_ops run.during vm))

/-! ## Floating-point numbers

A `double` is an IEEE 754 binary64 number: 53 significant bits, results rounded to nearest,
ties to even.  Its values are rationals here, and every conversion and arithmetic operation
of the source is the exact operation followed by rounding.  Overflow and subnormal numbers
are not modelled. -/

/-- The integer nearest to `m`, the even one of two that are equally near. -/
def round_half_even (m : ℚ) : ℤ :=
  if m - ⌊m⌋ < 1 / 2 then ⌊m⌋
  else if 1 / 2 < m - ⌊m⌋ then ⌊m⌋ + 1
  else if ⌊m⌋ % 2 = 0 then ⌊m⌋ else ⌊m⌋ + 1

/-- The `double` nearest to a positive rational `x`: with `2 ^ e ≤ x < 2 ^ (e + 1)`, the
multiple of `2 ^ (e - 52)` nearest to `x`, ties to the even multiple. -/
def to_double_pos (x : ℚ) : ℚ :=
  round_half_even (x / 2 ^ (Int.log 2 x - 52)) * 2 ^ (Int.log 2 x - 52)

/-- The `double` nearest to a rational: the result of a conversion `(double)n` and of a
`double` operation whose exact result is `x`. -/
def to_double (x : ℚ) : ℚ :=
  if 0 < x then to_double_pos x else if x < 0 then -to_double_pos (-x) else 0

/-! ## The control loop -/

/-- Member `ShenandoahControlThread::check_soft_max_changed`; the argument is the value loaded
from `SoftMaxHeapSize`. -/
def check_soft_max_changed (SoftMaxHeapSize : Nat) (vm : VM) : Bool × VM :=
  let new_soft_max := SoftMaxHeapSize
  let old_soft_max := vm.heap.soft_max_capacity
  if new_soft_max ≠ old_soft_max then
    let new_soft_max := max vm.heap.min_capacity new_soft_max
    let new_soft_max := min vm.heap.max_capacity new_soft_max
    if new_soft_max ≠ old_soft_max then
      (true, { vm with heap := { vm.heap with soft_max_capacity := new_soft_max } })
    else (false, vm)
  else (false, vm)

/-- Member `ShenandoahControlThread::service_uncommit`. -/
def service_uncommit (shrink_before : ℚ) (shrink_until : Nat) (vm : VM) : VM :=
  if vm.heap.committed ≤ shrink_until then vm
  else
    let has_work := vm.heap.regions.any
      (fun r => r.is_empty_committed && decide (r.empty_time < shrink_before))
    if has_work then emit (Event.entry_uncommit shrink_before shrink_until) vm else vm

/-- The values of the loop-carried locals when `run_service` enters its loop;
`start` is `os::elapsedTime()` at that moment. -/
def Locals.init (start : ℚ) : Locals :=
  { generation := GenerationMode.GLOBAL, last_shrink_time := start, age_period := 0 }

/-- The `age_period` bookkeeping at the head of the `concurrent_normal` case:
`(generation == YOUNG) && (age_period-- == 0)` on a `uint`, then
`age_period = ShenandoahAgingCyclePeriod - 1`. -/
def update_aging (fl : Flags) (generation : GenerationMode) (age_period : Nat) (vm : VM) :
    Nat × VM :=
  if generation = GenerationMode.YOUNG then
    if age_period = 0 then
      ((fl.ShenandoahAgingCyclePeriod + 2 ^ 64 - 1) % 2 ^ 32,
       { vm with heap := { vm.heap with aging_cycle := true } })
    else (age_period - 1, vm)
  else (age_period, vm)

/-- The `switch (_mode)` of `run_service`; returns the locals `generation` and `age_period`
with the state. -/
def dispatch_cycle (fl : Flags) (inp : IterationInput) (sel : Selection) (age_period : Nat)
    (vm : VM) : Except Fault (GenerationMode × Nat × VM) :=
  match vm.ct.mode with
  | GCMode.concurrent_normal => do
    let a := update_aging fl sel.generation age_period vm
    let vm ← service_concurrent_normal_cycle fl sel.generation sel.cause inp a.2
    pure (sel.generation, a.1, vm)
  | GCMode.stw_degenerated => do
    let r ← service_stw_degenerated_cycle fl sel.cause sel.degen_point inp.degen_gc vm
    -- The degenerated GC was upgraded to a Full GC
    pure (if r.1 then sel.generation else GenerationMode.GLOBAL, age_period, r.2)
  | GCMode.stw_full =>
    pure (sel.generation, age_period, service_stw_full_cycle sel.cause inp.full_gc vm)
  | GCMode.marking_old => do
    check fl (sel.generation == GenerationMode.OLD) Fault.assert_expected_old
    let vm ← resume_concurrent_old_cycle fl sel.cause inp.old_gc vm
    pure (sel.generation, age_period, vm)
  | GCMode.none => Except.error Fault.should_not_reach_here

/-- The updates that follow the `switch (_mode)`: notify the waiters of a requested and of an
allocation-failure cycle, stop the forced counter updates, retract the soft-reference
policy. -/
def notify_and_retract (snap : Snapshot) (vm : VM) : VM :=
  -- If this was the requested GC cycle, notify waiters about it
  let vm :=
    if snap.explicit_gc_requested || snap.implicit_gc_requested then notify_gc_waiters vm
    else vm
  -- If this was the allocation failure GC cycle, notify waiters about it
  let vm := if snap.alloc_failure_pending then notify_alloc_failure_waiters vm else vm
  -- Disable forced counters update, and update counters one more time
  let vm := set_forced_counters_update false (handle_force_counters_update vm)
  -- Retract forceful part of soft refs policy
  { vm with heap := { vm.heap with should_clear_all_soft_refs := false } }

/-- The end of the `if (gc_requested)` block: `notify_and_retract`, then the assertion on
class unloading ("Clear metaspace oom flag, if current cycle unloaded classes"). -/
def finish_cycle (fl : Flags) (snap : Snapshot) (generation : GenerationMode) (vm : VM) :
    Except Fault VM :=
  if (notify_and_retract snap vm).heap.unload_classes then do
    check fl (generation == GenerationMode.GLOBAL) Fault.assert_only_unload_during_global
    pure (notify_and_retract snap vm)
  else
    pure (notify_and_retract snap vm)

/-- The `if (gc_requested)` block of `run_service`: bump the id, dispatch on the mode, notify
the waiters, retract the per-cycle settings.  Returns the locals `generation` and
`age_period` with the state. -/
def run_cycle (fl : Flags) (inp : IterationInput) (snap : Snapshot) (sel : Selection)
    (age_period : Nat) (vm : VM) : Except Fault (GenerationMode × Nat × VM) := do
  -- GC is starting, bump the internal ID
  let vm := update_gc_id vm
  let vm := set_forced_counters_update true vm
  let vm := { vm with heap := { vm.heap with aging_cycle := false } }
  let r ← dispatch_cycle fl inp sel age_period vm
  let vm ← finish_cycle fl snap r.1 r.2.2
  pure (r.1, r.2.1, vm)

/-- The local `shrink_period` of `run_service`, computed before the loop:
`(double)ShenandoahUncommitDelay / 1000 / 10`, two divisions of `double`s. -/
def shrink_period (fl : Flags) : ℚ :=
  to_double (to_double (to_double fl.ShenandoahUncommitDelay / 1000) / 10)

/-- The heap-shrink step at the end of an iteration; returns the new `last_shrink_time`.
`current` is the `double` read from `os::elapsedTime()`; the differences
`current - last_shrink_time` and `current - (ShenandoahUncommitDelay / 1000.0)` are computed
in `double`. -/
def run_shrink (fl : Flags) (snap : Snapshot) (soft_max_changed : Bool) (current : ℚ)
    (last_shrink_time : ℚ) (vm : VM) : ℚ × VM :=
  if fl.ShenandoahUncommit && (snap.explicit_gc_requested || soft_max_changed
      || decide (to_double (current - last_shrink_time) > shrink_period fl)) then
    let shrink_before : ℚ :=
      if snap.explicit_gc_requested || soft_max_changed then current
      else to_double (current - to_double (to_double fl.ShenandoahUncommitDelay / 1000))
    let shrink_until : Nat :=
      if soft_max_changed then vm.heap.soft_max_capacity else vm.heap.min_capacity
    (current, service_uncommit shrink_before shrink_until vm)
  else (last_shrink_time, vm)

/-- What the head of an iteration leaves behind: the snapshot, `soft_max_changed`, the locals
set by the selection block, and the state, whose `_mode` is the mode chosen. -/
structure Selected where
  snap : Snapshot
  soft_max_changed : Bool
  sel : Selection
  vm : VM

/-- The head of an iteration: the snapshot of the pending requests, the read-and-reset of the
allocation tally, the soft-max check, and the selection block. -/
def run_selection (fl : Flags) (inp : IterationInput) (loc : Locals) (vm : VM) :
    Except Fault Selected := do
  -- Figure out if we have pending requests.
  let snap := take_snapshot vm
  -- This control loop iteration have seen this much allocations.
  let vm := { vm with ct := { vm.ct with allocs_seen := 0 } }
  -- Check if we have seen a new target for soft max heap size.
  let c := check_soft_max_changed inp.SoftMaxHeapSize vm
  -- Choose which GC mode to run in.
  let r ← select_mode fl inp.heuristics snap loc.generation c.2
  pure { snap := snap, soft_max_changed := c.1, sel := r.1, vm := r.2 }

/-- The bounded wait that ends an iteration, skipped when an allocation failure is pending,
and what the other threads do until the next iteration starts. -/
def end_of_iteration (inp : IterationInput) (vm : VM) : VM :=
  -- Don't wait around if there was an allocation failure - start the next cycle immediately.
  let vm := if !is_alloc_failure_gc vm then emit Event.control_wait vm else vm
  apply_ops inp.during_wait vm

/-- The soft-reference policy for the cycle: "Blow all soft references on this cycle, if
handling allocation failure, either implicit or explicit GC request, or we are requested to
do so unconditionally". -/
def blow_soft_refs (fl : Flags) (snap : Snapshot) (sel : Selection) (vm : VM) : VM :=
  if sel.generation = GenerationMode.GLOBAL && (snap.alloc_failure_pending
      || snap.implicit_gc_requested || snap.explicit_gc_requested
      || fl.ShenandoahAlwaysClearSoftRefs) then
    { vm with heap := { vm.heap with should_clear_all_soft_refs := true } }
  else vm

/-- The rest of an iteration, from the soft-reference policy to the bounded wait. -/
def run_remainder (fl : Flags) (inp : IterationInput) (loc : Locals) (snap : Snapshot)
    (soft_max_changed : Bool) (sel : Selection) (vm : VM) : Except Fault (Locals × VM) := do
  let vm := blow_soft_refs fl snap sel (apply_ops inp.before_cycle vm)
  let gc_requested := vm.ct.mode != GCMode.none
  check fl (!gc_requested || sel.cause != Cause.last_gc_cause) Fault.assert_gc_cause_set
  let r ← (if gc_requested then run_cycle fl inp snap sel loc.age_period vm
           else pure (sel.generation, loc.age_period, vm))
  let s := run_shrink fl snap soft_max_changed inp.current loc.last_shrink_time r.2.2
  pure ({ generation := r.1, last_shrink_time := s.1, age_period := r.2.1 },
        end_of_iteration inp s.2)

/-- One iteration of the `while` loop of `run_service`. -/
def run_service_iteration (fl : Flags) (inp : IterationInput) (loc : Locals) (vm : VM) :
    Except Fault (Locals × VM) := do
  let s ← run_selection fl inp loc vm
  run_remainder fl inp loc s.snap s.soft_max_changed s.sel s.vm

/-- The loop of `run_service` over a finite run of inputs, one per iteration. -/
def run_service : Flags → List IterationInput → Locals → VM → Except Fault (Locals × VM)
  | _, [], loc, vm => pure (loc, vm)
  | fl, inp :: inps, loc, vm =>
    if !in_graceful_shutdown vm && !vm.ct.should_terminate then do
      let r ← run_service_iteration fl inp loc vm
      run_service fl inps r.1 r.2
    else pure (loc, vm)

/-! ## Container CPU count (`CgroupUtil::processor_count`, `os/linux/cgroupUtil_linux.cpp`)

The function computes in `float`.  A `float` is an IEEE 754 binary32 number: 24 significant
bits, results rounded to nearest, ties to even.  Its values are rationals here; overflow and
subnormal numbers are not modelled, and none arises from `int` operands (every value is 0 or
has a magnitude between `2 ^ (-31)` and `2 ^ 31`). -/

/-- What a `CgroupCpuController` reports through `cpu_quota()` and `cpu_period()`, both
`int`. -/
structure CgroupCpuController where
  cpu_quota : Int
  cpu_period : Int
  deriving DecidableEq, Repr

/-- Ways `processor_count` fails to return a value: its assertion (debug builds), and the
conversion of a `float` that is out of the range of `int`, which is undefined. -/
inductive CgroupFault where
  | assert_host_cpus_positive
  | float_to_int_out_of_range
  deriving DecidableEq, Repr

/-- The `float` nearest to a positive rational `x`: with `2 ^ e ≤ x < 2 ^ (e + 1)`, the
multiple of `2 ^ (e - 23)` nearest to `x`, ties to the even multiple. -/
def to_float_pos (x : ℚ) : ℚ :=
  round_half_even (x / 2 ^ (Int.log 2 x - 23)) * 2 ^ (Int.log 2 x - 23)

/-- The `float` nearest to a rational: the result of a conversion `(float)n` and of a
`float` operation whose exact result is `x`. -/
def to_float (x : ℚ) : ℚ :=
  if 0 < x then to_float_pos x else if x < 0 then -to_float_pos (-x) else 0

/-- The library function `ceilf`: the result is an integer, so a `float` (exact). -/
def ceilf (x : ℚ) : ℚ :=
  (⌈x⌉ : ℤ)

/-- The conversion of a `float` to `int`: the fractional part is discarded; the behaviour is
undefined when the truncated value is not an `int`. -/
def float_to_int (x : ℚ) : Except CgroupFault Int :=
  let t : Int := if 0 ≤ x then ⌊x⌋ else ⌈x⌉
  if -2 ^ 31 ≤ t ∧ t < 2 ^ 31 then Except.ok t
  else Except.error CgroupFault.float_to_int_out_of_range

/-- Member `CgroupUtil::processor_count` (the log lines apart). -/
def CgroupUtil.processor_count (fl : Flags) (cpu_ctrl : CgroupCpuController) (host_cpus : Int) :
    Except CgroupFault Int :=
  if fl.ASSERT && !decide (host_cpus > 0) then
    Except.error CgroupFault.assert_host_cpus_positive
  else
    let limit_count := host_cpus
    let quota := cpu_ctrl.cpu_quota
    let period := cpu_ctrl.cpu_period
    (if quota > -1 ∧ period > 0 then
        float_to_int (ceilf (to_float (to_float quota / to_float period)))
      else pure 0) >>= fun quota_count =>
    -- Use quotas
    let limit_count := if quota_count ≠ 0 then quota_count else limit_count
    pure (min host_cpus limit_count)

/-! ## Concrete inputs -/

/-- A configuration: debug build, degenerated GC on, explicit GC concurrent, implicit GC
stop-the-world, uncommit on with a delay of five minutes, aging period one. -/
def Flags.sample : Flags :=
  { ASSERT := true
    ShenandoahDegeneratedGC := true
    ExplicitGCInvokesConcurrent := true
    ShenandoahImplicitGCInvokesConcurrent := false
    ShenandoahAlwaysClearSoftRefs := false
    DisableExplicitGC := false
    ShenandoahUncommit := true
    ShenandoahPacing := false
    ShenandoahUncommitDelay := 300000
    ShenandoahAgingCyclePeriod := 1 }

/-- Heuristics that approve degeneration for every generation and allow class unloading on
request only. -/
def Heuristics.sample : Heuristics :=
  { should_degenerate_cycle := fun _ => true
    can_unload_classes := true
    should_unload_classes := false }

/-- An iteration in which no other thread acts, the soft max is left at 8 GiB, and every
collaborator that is invoked runs to completion. -/
def IterationInput.quiet : IterationInput :=
  { heuristics := Heuristics.sample
    SoftMaxHeapSize := 8 * 2 ^ 30
    before_cycle := []
    concurrent_gc := { during := [], completed := true,
                       degen_point := ShenandoahDegenPoint.degenerated_unset }
    old_gc := { during := [], completed := true }
    degen_gc := { during := [], upgraded_to_full := false }
    full_gc := { during := [] }
    current := 1
    during_wait := [] }

/-- The machine right after the constructor of the control thread, on an idle heap. -/
def VM.init : VM :=
  { ct := ShenandoahControlThread.init, heap := ShenandoahHeap.idle, trace := [] }

/-- The sample configuration with uncommit switched off. -/
def Flags.no_uncommit : Flags :=
  { Flags.sample with ShenandoahUncommit := false }

/-- An iteration that bootstraps an old cycle: the young collaborator starts old marking and
completes, then the old collaborator completes. -/
def IterationInput.bootstrap : IterationInput :=
  { IterationInput.quiet with
    concurrent_gc :=
      { during := [ThreadOp.heap_update
          (fun h => { h with concurrent_old_mark_in_progress := true })]
        completed := true
        degen_point := ShenandoahDegenPoint.degenerated_unset } }

/-- One iteration of the control loop as a requester sees it: the state the iteration
leaves, or the state untouched when the VM stops inside it. -/
def iteration_state (fl : Flags) (inp : IterationInput) (loc : Locals) (vm : VM) : VM :=
  match run_service_iteration fl inp loc vm with
  | Except.ok r => r.2
  | Except.error _ => vm

/-- An iteration whose concurrent cycle is cancelled: while the collaborator runs, a mutator
fails to allocate and calls `handle_alloc_failure`; the collaborator returns false with the
degen point after marking. -/
def IterationInput.cancelled_by_alloc_failure : IterationInput :=
  { IterationInput.quiet with
    concurrent_gc :=
      { during := [ThreadOp.handle_alloc_failure]
        completed := false
        degen_point := ShenandoahDegenPoint.degenerated_mark } }

/-- Collaborator invocations that ran to completion, among the events of a trace. -/
def completed_collect : Event → Bool
  | Event.concurrent_collect _ _ _ completed => completed
  | Event.old_collect _ completed => completed
  | Event.degen_collect _ _ _ => true
  | Event.full_collect _ => true
  | _ => false

/-- The machine while old marking is in flight and may be preempted: mode marking_old, old
concurrent mark in progress, `_allow_old_preemption` set by the old collaborator. -/
def VM.old_marking_armed : VM :=
  { VM.init with
    ct := { VM.init.ct with mode := GCMode.marking_old, allow_old_preemption := true }
    heap := { VM.init.heap with concurrent_old_mark_in_progress := true } }

/-- The idle machine after a requester posted cause user_requested and a mutator then failed
to allocate and called `handle_alloc_failure`. -/
def VM.request_and_alloc_failure : VM :=
  apply_ops [ThreadOp.post_requested_gc Cause.user_requested, ThreadOp.handle_alloc_failure]
    VM.init

/-- The idle machine on a heap whose soft max is 1 GiB, below its minimum capacity of
2 GiB. -/
def VM.soft_max_below_min : VM :=
  { VM.init with heap := { VM.init.heap with soft_max_capacity := 2 ^ 30 } }

/-- The idle machine on a heap of 8 GiB committed with two regions, one empty and committed
since time 5 and one in use. -/
def VM.with_empty_region : VM :=
  { VM.init with
    heap := { VM.init.heap with
      regions := [{ is_empty_committed := true, empty_time := 5 },
                  { is_empty_committed := false, empty_time := 0 }] } }

/-- The machine of `VM.old_marking_armed`, with the heap's OOM-during-evacuation state set,
right after the regulator has called `request_concurrent_gc(YOUNG)`: the preemption is
requested and the heap is cancelled. -/
def VM.old_marking_preempted : VM :=
  (request_concurrent_gc GenerationMode.YOUNG
    { VM.old_marking_armed with
      heap := { VM.old_marking_armed.heap with oom_evac_handler := true } }).2

/-- The idle machine after the regulator has asked for a young cycle. -/
def VM.young_requested : VM :=
  (request_concurrent_gc GenerationMode.YOUNG VM.init).2

/-- An iteration in which the old collaborator is cancelled: while it runs, a mutator fails
to allocate and calls `handle_alloc_failure`; the collaborator returns false. -/
def IterationInput.old_cancelled_by_alloc_failure : IterationInput :=
  { IterationInput.quiet with
    old_gc := { during := [ThreadOp.handle_alloc_failure], completed := false } }

/-- The idle machine on a heap whose old-generation concurrent mark is in progress. -/
def VM.old_mark_in_progress : VM :=
  { VM.init with heap := { VM.init.heap with concurrent_old_mark_in_progress := true } }

/-- The idle machine after the regulator has asked for an old cycle. -/
def VM.old_requested : VM :=
  (request_concurrent_gc GenerationMode.OLD VM.init).2

/-- An iteration that bootstraps an old cycle and whose old marking is then cancelled: the
young collaborator starts old marking and completes; while the old collaborator runs, a
mutator fails to allocate and calls `handle_alloc_failure`; the old collaborator returns
false. -/
def IterationInput.bootstrap_old_cancelled : IterationInput :=
  { IterationInput.bootstrap with
    old_gc := { during := [ThreadOp.handle_alloc_failure], completed := false } }

/-- An iteration whose degenerated collaborator clears the heap's cancellation flag while it
runs and is not upgraded to a full cycle. -/
def IterationInput.degenerated_clears_cancellation : IterationInput :=
  { IterationInput.quiet with
    degen_gc :=
      { during := [ThreadOp.heap_update (fun h => { h with cancelled_gc := false })]
        upgraded_to_full := false } }

/-- An iteration in which old marking is preempted and then hit by an allocation failure:
while the old collaborator runs it arms `_allow_old_preemption`, the regulator calls
`request_concurrent_gc(YOUNG)`, and a mutator then fails to allocate and calls
`handle_alloc_failure`; the collaborator returns false. -/
def IterationInput.old_preempted_then_alloc_failure : IterationInput :=
  { IterationInput.quiet with
    old_gc :=
      { during := [ThreadOp.set_allow_old_preemption true,
                   ThreadOp.request_concurrent_gc GenerationMode.YOUNG,
                   ThreadOp.handle_alloc_failure]
        completed := false } }

/-- The sample configuration with an uncommit delay of one second. -/
def Flags.uncommit_after_a_second : Flags :=
  { Flags.sample with ShenandoahUncommitDelay := 1000 }

/-- The `double` nearest to one tenth, the value of the literal `0.1`. -/
def double_tenth : ℚ :=
  3602879701896397 / 36028797018963968

/-! ## Predicates used to state the claims -/

/-- Events of the trace that record a run of a collaborator. -/
def is_collect : Event → Bool
  | Event.concurrent_collect _ _ _ _ => true
  | Event.old_collect _ _ => true
  | Event.degen_collect _ _ _ => true
  | Event.full_collect _ => true
  | _ => false

/-- The runs of the collaborators recorded so far, in order. -/
def collector_runs (vm : VM) : List Event :=
  vm.trace.filter is_collect

/-- How many times the control thread has called `notify_alloc_failure_waiters`, the only
member that clears `_alloc_failure_gc`. -/
def alloc_failure_notifications (vm : VM) : Nat :=
  vm.trace.count Event.notify_alloc_failure_waiters

/-- The generation on which an iteration in mode concurrent_normal runs the concurrent
collaborator: the requested one for YOUNG and GLOBAL, and the young generation for OLD,
whose cycle starts with a young bootstrap cycle. -/
def concurrent_generation (generation : GenerationMode) : GenerationMode :=
  match generation with
  | GenerationMode.OLD => GenerationMode.YOUNG
  | g => g

/-- The state in which the `switch (_mode)` of an iteration is entered, given what the head
of the iteration left: the other threads have acted, the soft-reference policy is decided,
`gc_id` is bumped, the counters are forced and the aging flag is reset. -/
def cycle_entry (fl : Flags) (inp : IterationInput) (s : Selected) : VM :=
  let vm := blow_soft_refs fl s.snap s.sel (apply_ops inp.before_cycle s.vm)
  let vm := update_gc_id vm
  let vm := set_forced_counters_update true vm
  { vm with heap := { vm.heap with aging_cycle := false } }

/-- The state in which `ShenandoahConcurrentGC::collect` returns, in an iteration that runs a
concurrent cycle on YOUNG or GLOBAL and finds the heap not cancelled when it starts. -/
def collect_exit (fl : Flags) (inp : IterationInput) (loc : Locals) (s : Selected) : VM :=
  apply_ops inp.concurrent_gc.during
    (update_aging fl s.sel.generation loc.age_period (cycle_entry fl inp s)).2

/-- One iteration of a run of `run_service`, as far as its cycle is concerned: the input of
the iteration, the loop-carried locals on entry, and what the head of the iteration left. -/
structure IterationEntry where
  inp : IterationInput
  loc : Locals
  s : Selected

/-- The heap's aging flag with which the cycle of the iteration runs: its value when the
service routine of the chosen mode is called. -/
def IterationEntry.aging_cycle (fl : Flags) (e : IterationEntry) : Bool :=
  match (cycle_entry fl e.inp e.s).ct.mode with
  | GCMode.concurrent_normal =>
    (update_aging fl e.s.sel.generation e.loc.age_period
      (cycle_entry fl e.inp e.s)).2.heap.aging_cycle
  | _ => (cycle_entry fl e.inp e.s).heap.aging_cycle

/-- The shrink subtask is due, in the words of the specification: uncommit is enabled, and an
explicit GC was requested, or the soft max changed, or more than one tenth of the uncommit
delay (given in milliseconds, the clock counting seconds) has elapsed since the last
shrink. -/
def shrink_due (fl : Flags) (explicit_gc_requested soft_max_changed : Bool)
    (now last_shrink : ℚ) : Prop :=
  fl.ShenandoahUncommit = true
    ∧ (explicit_gc_requested = true ∨ soft_max_changed = true
        ∨ (fl.ShenandoahUncommitDelay : ℚ) / 1000 / 10 < now - last_shrink)

/-- The shrink subtask is due as `run_service` tests it: uncommit is enabled, and an explicit
GC was requested, or the soft max changed, or the `double` difference of the clock and the
time of the last shrink exceeds `shrink_period`. -/
def shrink_due_rounded (fl : Flags) (explicit_gc_requested soft_max_changed : Bool)
    (now last_shrink : ℚ) : Prop :=
  fl.ShenandoahUncommit = true
    ∧ (explicit_gc_requested = true ∨ soft_max_changed = true
        ∨ shrink_period fl < to_double (now - last_shrink))

/-- The rational is a `double`: rounding leaves it as it is. -/
def is_double (x : ℚ) : Prop :=
  to_double x = x

/-- No assertion of `check_cancellation_or_degen` fails in this state: the build is a product
build, or the asserted conditions hold where the function evaluates them ("Should not be set
yet", "Only young GCs may preempt old."). -/
def cancellation_asserts_hold (fl : Flags) (vm : VM) : Prop :=
  fl.ASSERT = true → vm.heap.cancelled_gc = true → vm.ct.graceful_shutdown = false →
    vm.ct.degen_point = ShenandoahDegenPoint.degenerated_outside_cycle
    ∧ (vm.ct.alloc_failure_gc = false → vm.ct.preemption_requested = true →
        vm.ct.requested_generation = GenerationMode.YOUNG)

/-- The shared state after the first `k` rounds of a run of the other threads. -/
def after_rounds (k : Nat) (others : List (VM → VM)) (vm : VM) : VM :=
  (others.take k).foldl (fun v other => other v) vm

/-- A value clamped to the interval from `lo` to `hi`, in the words of the specification. -/
def clamp_to (lo hi n : Nat) : Nat :=
  if n < lo then lo else if hi < n then hi else n

/-- The heap's uncommit has been invoked with these arguments by the last step. -/
def uncommit_invoked (shrink_before : ℚ) (shrink_until : Nat) (before after : VM) : Prop :=
  after.trace = before.trace ++ [Event.entry_uncommit shrink_before shrink_until]

/-- The condition under which `run_service` forces the soft-reference policy. -/
def blows_soft_refs (fl : Flags) (snap : Snapshot) (sel : Selection) : Bool :=
  sel.generation = GenerationMode.GLOBAL && (snap.alloc_failure_pending
    || snap.implicit_gc_requested || snap.explicit_gc_requested
    || fl.ShenandoahAlwaysClearSoftRefs)

/-- An operation of another thread that leaves the heap's forced soft-reference policy as it
is: every member of the control thread does, and so does a collaborator's update of the heap
that does not write the policy. -/
def keeps_soft_ref_policy : ThreadOp → Prop
  | ThreadOp.heap_update f =>
    ∀ h : ShenandoahHeap, (f h).should_clear_all_soft_refs = h.should_clear_all_soft_refs
  | _ => True

/-- The sample configuration with uncommit switched off and soft references always
cleared. -/
def Flags.always_clear : Flags :=
  { Flags.no_uncommit with ShenandoahAlwaysClearSoftRefs := true }

/-- The generation the allocation-failure branch resumes: the seed when the stored degen
point is the default, the recorded `_degen_generation` otherwise. -/
def resumed_generation (vm : VM) : Option GenerationMode :=
  if vm.ct.degen_point = ShenandoahDegenPoint.degenerated_outside_cycle then
    some (if vm.heap.is_generational then GenerationMode.YOUNG else GenerationMode.GLOBAL)
  else vm.ct.degen_generation

/-- The test that decides between a degenerated and a full cycle. -/
def degenerates (fl : Flags) (hs : Heuristics) (g : GenerationMode) (vm : VM) : Bool :=
  fl.ShenandoahDegeneratedGC && hs.should_degenerate_cycle g && !vm.heap.old_evacuation_failure

/-- The state in which the allocation-failure branch can name the generation to resume:
the stored degen point is the default, or `_degen_generation` has been recorded. -/
def degen_generation_known (vm : VM) : Prop :=
  vm.ct.degen_point = ShenandoahDegenPoint.degenerated_outside_cycle
    ∨ vm.ct.degen_generation.isSome = true

/-! ## Theorems -/

/-- Setting the mode is a plain field update: the guard only suppresses the log line. -/
theorem set_gc_mode_eq (m : GCMode) (vm : VM) :
    set_gc_mode m vm = { vm with ct := { vm.ct with mode := m } } := by
  unfold set_gc_mode
  split
  · rfl
  · rename_i h
    have h2 : vm.ct.mode = m := by simpa using h
    subst h2
    rfl

/-! ### Frame lemmas: who writes `gc_id` -/

theorem bind_ok_iff {ε α β : Type} (x : Except ε α) (f : α → Except ε β) (b : β) :
    (x >>= f) = Except.ok b ↔ ∃ a, x = Except.ok a ∧ f a = Except.ok b := by
  cases x with
  | error e => simp [bind, Except.bind]
  | ok a => simp [bind, Except.bind]

theorem check_bind_ok {β : Type} (fl : Flags) (c : Bool) (f : Fault) (k : Unit → Except Fault β)
    (b : β) (h : (check fl c f >>= k) = Except.ok b) : k () = Except.ok b := by
  unfold check at h
  split at h
  · simp [bind, Except.bind] at h
  · simpa [bind, Except.bind] using h

theorem pure_ok_iff {ε α : Type} (a b : α) :
    (pure a : Except ε α) = Except.ok b ↔ a = b := by
  simp [pure, Except.pure]

theorem apply_op_gc_id (op : ThreadOp) (vm : VM) : (apply_op op vm).ct.gc_id = vm.ct.gc_id := by
  cases op <;>
    simp only [apply_op, post_requested_gc, notify_control_thread, emit, request_concurrent_gc,
      preempt_old_marking, cancel_gc, handle_alloc_failure, handle_alloc_failure_evac,
      try_set_alloc_failure_gc, prepare_for_graceful_shutdown, notify_heap_changed] <;>
    (try split_ifs) <;> rfl

theorem apply_ops_gc_id (ops : List ThreadOp) (vm : VM) :
    (apply_ops ops vm).ct.gc_id = vm.ct.gc_id := by
  unfold apply_ops
  induction ops generalizing vm with
  | nil => rfl
  | cons op ops ih =>
    rw [List.foldl_cons, ih, apply_op_gc_id]

theorem check_cancellation_or_degen_eq (fl : Flags) (point : ShenandoahDegenPoint) (vm : VM) :
    check_cancellation_or_degen fl point vm =
      if vm.heap.cancelled_gc = false then Except.ok (false, vm)
      else if vm.ct.graceful_shutdown = true then Except.ok (true, vm)
      else if fl.ASSERT = true
          ∧ vm.ct.degen_point ≠ ShenandoahDegenPoint.degenerated_outside_cycle then
        Except.error Fault.assert_degen_point_not_set_yet
      else if vm.ct.alloc_failure_gc = true then
        Except.ok (true, { vm with ct := { vm.ct with degen_point := point } })
      else if vm.ct.preemption_requested = true then
        if fl.ASSERT = true ∧ vm.ct.requested_generation ≠ GenerationMode.YOUNG then
          Except.error Fault.assert_only_young_may_preempt
        else
          Except.ok (true,
            { vm with
              ct := { vm.ct with preemption_requested := false, degen_point := point }
              heap := { vm.heap with cancelled_gc := false } })
      else Except.error Fault.fatal_cancel_reason := by
  unfold check_cancellation_or_degen
  simp only [in_graceful_shutdown, is_alloc_failure_gc, clear_cancelled_gc, check]
  cases hc : vm.heap.cancelled_gc
  · simp [pure, Except.pure]
  cases hg : vm.ct.graceful_shutdown
  swap
  · simp [pure, Except.pure]
  cases hA : fl.ASSERT <;> cases ha : vm.ct.alloc_failure_gc <;>
    cases hq : vm.ct.preemption_requested <;>
    by_cases hp : vm.ct.degen_point = ShenandoahDegenPoint.degenerated_outside_cycle <;>
    by_cases hy : vm.ct.requested_generation = GenerationMode.YOUNG <;>
    simp [hp, hy, bind, Except.bind, pure, Except.pure]

theorem check_cancellation_or_degen_gc_id (fl : Flags) (point : ShenandoahDegenPoint)
    (vm : VM) (r : Bool × VM)
    (h : check_cancellation_or_degen fl point vm = Except.ok r) :
    r.2.ct.gc_id = vm.ct.gc_id := by
  rw [check_cancellation_or_degen_eq] at h
  split_ifs at h <;> cases h <;> rfl

theorem service_concurrent_cycle_gc_id (fl : Flags) (generation : GenerationMode)
    (cause : Cause) (bootstrap : Bool) (run : ConcurrentGCRun) (vm vm' : VM)
    (h : service_concurrent_cycle fl generation cause bootstrap run vm = Except.ok vm') :
    vm'.ct.gc_id = vm.ct.gc_id := by
  unfold service_concurrent_cycle at h
  obtain ⟨r, hr, h⟩ := (bind_ok_iff _ _ _).mp h
  have e1 := check_cancellation_or_degen_gc_id _ _ _ _ hr
  split_ifs at h
  · rw [pure_ok_iff] at h; subst h; exact e1
  · rw [pure_ok_iff] at h; subst h
    simp only [emit, apply_ops_gc_id, e1]
  · have h := check_bind_ok _ _ _ _ _ h
    obtain ⟨r2, hr2, h⟩ := (bind_ok_iff _ _ _).mp h
    have e2 := check_cancellation_or_degen_gc_id _ _ _ _ hr2
    have h := check_bind_ok _ _ _ _ _ h
    rw [pure_ok_iff] at h; subst h
    simp only [e2, emit, apply_ops_gc_id, e1]

theorem resume_concurrent_old_cycle_gc_id (fl : Flags) (cause : Cause) (run : OldGCRun)
    (vm vm' : VM) (h : resume_concurrent_old_cycle fl cause run vm = Except.ok vm') :
    vm'.ct.gc_id = vm.ct.gc_id := by
  unfold resume_concurrent_old_cycle at h
  have h := check_bind_ok _ _ _ _ _ h
  simp only at h
  split_ifs at h
  · obtain ⟨r, hr, h⟩ := (bind_ok_iff _ _ _).mp h
    have e1 := check_cancellation_or_degen_gc_id _ _ _ _ hr
    rw [pure_ok_iff] at h; subst h
    simp only [e1, emit, apply_ops_gc_id]
  · rw [pure_ok_iff] at h; subst h
    simp only [emit, apply_ops_gc_id]

theorem service_concurrent_normal_cycle_gc_id (fl : Flags) (generation : GenerationMode)
    (cause : Cause) (inp : IterationInput) (vm vm' : VM)
    (h : service_concurrent_normal_cycle fl generation cause inp vm = Except.ok vm') :
    vm'.ct.gc_id = vm.ct.gc_id := by
  unfold service_concurrent_normal_cycle at h
  cases generation with
  | YOUNG => exact service_concurrent_cycle_gc_id _ _ _ _ _ _ _ h
  | GLOBAL => exact service_concurrent_cycle_gc_id _ _ _ _ _ _ _ h
  | OLD =>
    simp only [service_concurrent_old_cycle] at h
    have h := check_bind_ok _ _ _ _ _ h
    obtain ⟨v1, hv1, h⟩ := (bind_ok_iff _ _ _).mp h
    have e1 := service_concurrent_cycle_gc_id _ _ _ _ _ _ _ hv1
    split_ifs at h
    · have e2 := resume_concurrent_old_cycle_gc_id _ _ _ _ _ h
      rw [e2, set_gc_mode_eq]; exact e1
    · rw [pure_ok_iff] at h; subst h; exact e1

theorem dispatch_cycle_gc_id (fl : Flags) (inp : IterationInput) (sel : Selection)
    (age_period : Nat) (vm : VM) (r : GenerationMode × Nat × VM)
    (h : dispatch_cycle fl inp sel age_period vm = Except.ok r) :
    r.2.2.ct.gc_id = vm.ct.gc_id := by
  unfold dispatch_cycle at h
  split at h
  · obtain ⟨v1, hv1, h⟩ := (bind_ok_iff _ _ _).mp h
    have e1 := service_concurrent_normal_cycle_gc_id _ _ _ _ _ _ hv1
    rw [pure_ok_iff] at h; subst h
    rw [e1]
    unfold update_aging
    split_ifs <;> rfl
  · obtain ⟨v1, hv1, h⟩ := (bind_ok_iff _ _ _).mp h
    rw [pure_ok_iff] at h; subst h
    unfold service_stw_degenerated_cycle at hv1
    have hv1 := check_bind_ok _ _ _ _ _ hv1
    split at hv1
    · cases hv1
    · rw [pure_ok_iff] at hv1; subst hv1
      simp only [emit, apply_ops_gc_id]
  · rw [pure_ok_iff] at h; subst h
    simp only [service_stw_full_cycle, emit, apply_ops_gc_id]
  · have h := check_bind_ok _ _ _ _ _ h
    obtain ⟨v1, hv1, h⟩ := (bind_ok_iff _ _ _).mp h
    have e1 := resume_concurrent_old_cycle_gc_id _ _ _ _ _ hv1
    rw [pure_ok_iff] at h; subst h
    exact e1
  · cases h

theorem notify_and_retract_gc_id (snap : Snapshot) (vm : VM) :
    (notify_and_retract snap vm).ct.gc_id = vm.ct.gc_id := by
  simp only [notify_and_retract, set_forced_counters_update, handle_force_counters_update,
    notify_alloc_failure_waiters, notify_gc_waiters, emit]
  split_ifs <;> rfl

theorem finish_cycle_gc_id (fl : Flags) (snap : Snapshot) (generation : GenerationMode)
    (vm vm' : VM) (h : finish_cycle fl snap generation vm = Except.ok vm') :
    vm'.ct.gc_id = vm.ct.gc_id := by
  unfold finish_cycle at h
  split at h
  · have h := check_bind_ok _ _ _ _ _ h
    rw [pure_ok_iff] at h; subst h
    exact notify_and_retract_gc_id snap vm
  · rw [pure_ok_iff] at h; subst h
    exact notify_and_retract_gc_id snap vm

theorem run_cycle_gc_id (fl : Flags) (inp : IterationInput) (snap : Snapshot) (sel : Selection)
    (age_period : Nat) (vm : VM) (r : GenerationMode × Nat × VM)
    (h : run_cycle fl inp snap sel age_period vm = Except.ok r) :
    r.2.2.ct.gc_id = (vm.ct.gc_id + 1) % 2 ^ 64 := by
  unfold run_cycle at h
  obtain ⟨r1, hr1, h⟩ := (bind_ok_iff _ _ _).mp h
  obtain ⟨v2, hv2, h⟩ := (bind_ok_iff _ _ _).mp h
  rw [pure_ok_iff] at h; subst h
  rw [finish_cycle_gc_id _ _ _ _ _ hv2, dispatch_cycle_gc_id _ _ _ _ _ _ hr1]
  rfl

/-- Closed form of the allocation-failure branch when there is a generation to resume. -/
theorem select_alloc_failure_eq (fl : Flags) (hs : Heuristics) (vm : VM) (g : GenerationMode)
    (hg : resumed_generation vm = some g) :
    select_alloc_failure fl hs vm = Except.ok
      ({ cause := Cause.allocation_failure
         generation := if degenerates fl hs g vm then g else GenerationMode.GLOBAL
         degen_point := vm.ct.degen_point },
       { vm with
         ct := { vm.ct with
           degen_point := ShenandoahDegenPoint.degenerated_outside_cycle
           degen_generation := some g
           mode := if degenerates fl hs g vm then GCMode.stw_degenerated else GCMode.stw_full }
         heap := { vm.heap with old_evacuation_failure := false } }) := by
  obtain ⟨ct, heap, trace⟩ := vm
  simp only [resumed_generation] at hg
  simp only [select_alloc_failure, set_gc_mode_eq, degenerates]
  by_cases hp : ct.degen_point = ShenandoahDegenPoint.degenerated_outside_cycle
  · simp only [hp, if_true, Option.some.injEq] at hg
    simp only [hp, if_true, hg, bind, Except.bind, pure, Except.pure]
    split <;> rfl
  · simp only [hp, if_false] at hg
    simp only [hp, if_false, hg, check, Option.isSome_some, Bool.not_true, Bool.and_false,
      bind, Except.bind, pure, Except.pure]
    simp only [Bool.false_eq_true, if_false]
    split <;> simp [hp]

/-- The allocation-failure branch stops at the NULL dereference (or, in a debug build, at the
assertion before it) when there is no generation to resume. -/
theorem select_alloc_failure_null (fl : Flags) (hs : Heuristics) (vm : VM)
    (hg : resumed_generation vm = none) :
    ∃ f, select_alloc_failure fl hs vm = Except.error f := by
  obtain ⟨ct, heap, trace⟩ := vm
  simp only [resumed_generation] at hg
  simp only [select_alloc_failure, set_gc_mode_eq]
  by_cases hp : ct.degen_point = ShenandoahDegenPoint.degenerated_outside_cycle
  · simp [hp] at hg
  · simp only [hp, if_false] at hg
    cases hA : fl.ASSERT <;>
      simp [hp, hg, hA, check, bind, Except.bind, pure, Except.pure]

theorem select_alloc_failure_gc_id (fl : Flags) (hs : Heuristics) (vm : VM)
    (r : Selection × VM) (h : select_alloc_failure fl hs vm = Except.ok r) :
    r.2.ct.gc_id = vm.ct.gc_id := by
  cases hg : resumed_generation vm with
  | none =>
    obtain ⟨f, hf⟩ := select_alloc_failure_null fl hs vm hg
    rw [hf] at h
    cases h
  | some g =>
    rw [select_alloc_failure_eq fl hs vm g hg] at h
    cases h
    rfl

theorem select_mode_gc_id (fl : Flags) (hs : Heuristics) (snap : Snapshot)
    (generation : GenerationMode) (vm : VM) (r : Selection × VM)
    (h : select_mode fl hs snap generation vm = Except.ok r) :
    r.2.ct.gc_id = vm.ct.gc_id := by
  unfold select_mode at h
  simp only at h
  split_ifs at h
  · rw [select_alloc_failure_gc_id _ _ _ _ h, set_gc_mode_eq]
  · rw [pure_ok_iff] at h; subst h
    simp only [select_requested, set_gc_mode_eq, set_unload_classes]
    split_ifs <;> rfl
  · rw [pure_ok_iff] at h; subst h
    simp only [select_requested, set_gc_mode_eq, set_unload_classes]
    split_ifs <;> rfl
  · rw [pure_ok_iff] at h; subst h
    simp only [select_regulator, set_gc_mode_eq, set_unload_classes]
    split_ifs <;> rfl

theorem check_soft_max_changed_gc_id (n : Nat) (vm : VM) :
    (check_soft_max_changed n vm).2.ct.gc_id = vm.ct.gc_id := by
  simp only [check_soft_max_changed]
  split_ifs <;> rfl

theorem run_selection_gc_id (fl : Flags) (inp : IterationInput) (loc : Locals) (vm : VM)
    (s : Selected) (h : run_selection fl inp loc vm = Except.ok s) :
    s.vm.ct.gc_id = vm.ct.gc_id := by
  unfold run_selection at h
  obtain ⟨r, hr, h⟩ := (bind_ok_iff _ _ _).mp h
  rw [pure_ok_iff] at h; subst h
  simp only
  rw [select_mode_gc_id _ _ _ _ _ _ hr, check_soft_max_changed_gc_id]

theorem run_shrink_gc_id (fl : Flags) (snap : Snapshot) (soft_max_changed : Bool)
    (current last : ℚ) (vm : VM) :
    (run_shrink fl snap soft_max_changed current last vm).2.ct.gc_id = vm.ct.gc_id := by
  simp only [run_shrink, service_uncommit, emit]
  split_ifs <;> rfl

theorem end_of_iteration_gc_id (inp : IterationInput) (vm : VM) :
    (end_of_iteration inp vm).ct.gc_id = vm.ct.gc_id := by
  simp only [end_of_iteration, apply_ops_gc_id, emit]
  split_ifs <;> rfl

theorem apply_op_mode (op : ThreadOp) (vm : VM) : (apply_op op vm).ct.mode = vm.ct.mode := by
  cases op <;>
    simp only [apply_op, post_requested_gc, notify_control_thread, emit, request_concurrent_gc,
      preempt_old_marking, cancel_gc, handle_alloc_failure, handle_alloc_failure_evac,
      try_set_alloc_failure_gc, prepare_for_graceful_shutdown, notify_heap_changed] <;>
    (try split_ifs) <;> rfl

theorem apply_ops_mode (ops : List ThreadOp) (vm : VM) :
    (apply_ops ops vm).ct.mode = vm.ct.mode := by
  unfold apply_ops
  induction ops generalizing vm with
  | nil => rfl
  | cons op ops ih =>
    rw [List.foldl_cons, ih, apply_op_mode]

theorem blow_soft_refs_ct (fl : Flags) (snap : Snapshot) (sel : Selection) (vm : VM) :
    (blow_soft_refs fl snap sel vm).ct = vm.ct := by
  unfold blow_soft_refs
  split_ifs <;> rfl

theorem run_remainder_gc_id (fl : Flags) (inp : IterationInput) (loc : Locals)
    (snap : Snapshot) (soft_max_changed : Bool) (sel : Selection) (vm : VM) (r : Locals × VM)
    (h : run_remainder fl inp loc snap soft_max_changed sel vm = Except.ok r) :
    r.2.ct.gc_id =
      if vm.ct.mode = GCMode.none then vm.ct.gc_id else (vm.ct.gc_id + 1) % 2 ^ 64 := by
  unfold run_remainder at h
  simp only at h
  have h := check_bind_ok _ _ _ _ _ h
  obtain ⟨c, hc, h⟩ := (bind_ok_iff _ _ _).mp h
  rw [pure_ok_iff] at h; subst h
  simp only [end_of_iteration_gc_id, run_shrink_gc_id]
  rw [blow_soft_refs_ct, apply_ops_mode] at hc
  by_cases hm : vm.ct.mode = GCMode.none
  · simp only [hm, bne_self_eq_false, Bool.false_eq_true, if_false, if_true] at hc ⊢
    rw [pure_ok_iff] at hc; subst hc
    simp only [blow_soft_refs_ct, apply_ops_gc_id]
  · have hm2 : (vm.ct.mode != GCMode.none) = true := by simpa using hm
    simp only [hm2, hm, if_true, if_false] at hc ⊢
    rw [run_cycle_gc_id _ _ _ _ _ _ _ hc, blow_soft_refs_ct, apply_ops_gc_id]

theorem run_service_iteration_gc_id (fl : Flags) (inp : IterationInput) (loc : Locals)
    (vm : VM) (r : Locals × VM) (h : run_service_iteration fl inp loc vm = Except.ok r) :
    ∃ s, run_selection fl inp loc vm = Except.ok s
      ∧ r.2.ct.gc_id =
          if s.vm.ct.mode = GCMode.none then vm.ct.gc_id else (vm.ct.gc_id + 1) % 2 ^ 64 := by
  unfold run_service_iteration at h
  obtain ⟨s, hs, h⟩ := (bind_ok_iff _ _ _).mp h
  refine ⟨s, hs, ?_⟩
  rw [run_remainder_gc_id _ _ _ _ _ _ _ _ h, run_selection_gc_id _ _ _ _ _ hs]

/-! ### The loop of `handle_requested_gc` -/

theorem handle_requested_gc_loop_done (cause : Cause) (required current : Nat)
    (others : List (VM → VM)) (vm : VM) (h : ¬ current < required) :
    handle_requested_gc_loop cause required current others vm
      = { posts := [], waits := 0, returned := some vm } := by
  cases others <;> simp [handle_requested_gc_loop, h]

theorem handle_requested_gc_loop_nil (cause : Cause) (required current : Nat) (vm : VM)
    (h : current < required) :
    handle_requested_gc_loop cause required current [] vm
      = { posts := [], waits := 0, returned := none } := by
  simp [handle_requested_gc_loop, h]

theorem handle_requested_gc_loop_cons (cause : Cause) (required current : Nat)
    (other : VM → VM) (others : List (VM → VM)) (vm : VM) (h : current < required) :
    handle_requested_gc_loop cause required current (other :: others) vm
      = { posts := post_requested_gc cause vm ::
            (handle_requested_gc_loop cause required
              (get_gc_id (other (post_requested_gc cause vm))) others
              (other (post_requested_gc cause vm))).posts
          waits := (if cause ≠ Cause.wb_breakpoint then 1 else 0) +
            (handle_requested_gc_loop cause required
              (get_gc_id (other (post_requested_gc cause vm))) others
              (other (post_requested_gc cause vm))).waits
          returned :=
            (handle_requested_gc_loop cause required
              (get_gc_id (other (post_requested_gc cause vm))) others
              (other (post_requested_gc cause vm))).returned } := by
  simp [handle_requested_gc_loop, h]

/-- What the loop of `handle_requested_gc` guarantees, whatever the other threads do. -/
theorem handle_requested_gc_loop_spec (cause : Cause) (required : Nat)
    (others : List (VM → VM)) (vm : VM) :
    (∀ vm', (handle_requested_gc_loop cause required (get_gc_id vm) others vm).returned
        = some vm' → required ≤ get_gc_id vm')
    ∧ (∀ p ∈ (handle_requested_gc_loop cause required (get_gc_id vm) others vm).posts,
        p.ct.requested_gc_cause = cause ∧ p.ct.gc_requested = true)
    ∧ (handle_requested_gc_loop cause required (get_gc_id vm) others vm).waits
        = (if cause = Cause.wb_breakpoint then 0
           else (handle_requested_gc_loop cause required (get_gc_id vm) others vm).posts.length)
    ∧ ((handle_requested_gc_loop cause required (get_gc_id vm) others vm).returned = none →
        (handle_requested_gc_loop cause required (get_gc_id vm) others vm).posts.length
          = others.length) := by
  induction others generalizing vm with
  | nil =>
    by_cases h : get_gc_id vm < required
    · rw [handle_requested_gc_loop_nil _ _ _ _ h]
      simp
    · rw [handle_requested_gc_loop_done _ _ _ _ _ h]
      refine ⟨?_, by simp, by simp, by simp⟩
      intro vm' hv
      cases hv
      omega
  | cons other others ih =>
    by_cases h : get_gc_id vm < required
    · rw [handle_requested_gc_loop_cons _ _ _ _ _ _ h]
      obtain ⟨i1, i2, i3, i4⟩ := ih (other (post_requested_gc cause vm))
      refine ⟨i1, ?_, ?_, ?_⟩
      · intro p hp
        simp only [List.mem_cons] at hp
        rcases hp with hp | hp
        · subst hp
          exact ⟨rfl, rfl⟩
        · exact i2 p hp
      · simp only [i3, List.length_cons]
        by_cases hw : cause = Cause.wb_breakpoint
        · simp [hw]
        · simp [hw]; omega
      · intro hn
        simp only [List.length_cons, i4 hn]
    · rw [handle_requested_gc_loop_done _ _ _ _ _ h]
      refine ⟨?_, by simp, by simp, by simp⟩
      intro vm' hv
      cases hv
      omega

/-! ### The generation to resume is known in every state the loop reaches -/

theorem apply_op_degen (op : ThreadOp) (vm : VM) :
    (apply_op op vm).ct.degen_point = vm.ct.degen_point
      ∧ (apply_op op vm).ct.degen_generation = vm.ct.degen_generation := by
  cases op <;>
    simp only [apply_op, post_requested_gc, notify_control_thread, emit, request_concurrent_gc,
      preempt_old_marking, cancel_gc, handle_alloc_failure, handle_alloc_failure_evac,
      try_set_alloc_failure_gc, prepare_for_graceful_shutdown, notify_heap_changed] <;>
    (try split_ifs) <;> simp only [and_self]

theorem apply_ops_degen (ops : List ThreadOp) (vm : VM) :
    (apply_ops ops vm).ct.degen_point = vm.ct.degen_point
      ∧ (apply_ops ops vm).ct.degen_generation = vm.ct.degen_generation := by
  unfold apply_ops
  induction ops generalizing vm with
  | nil => exact ⟨rfl, rfl⟩
  | cons op ops ih =>
    rw [List.foldl_cons]
    exact ⟨(ih _).1.trans (apply_op_degen op vm).1, (ih _).2.trans (apply_op_degen op vm).2⟩

theorem known_of_degen_eq (vm vm' : VM) (h1 : vm'.ct.degen_point = vm.ct.degen_point)
    (h2 : vm'.ct.degen_generation = vm.ct.degen_generation) (h : degen_generation_known vm) :
    degen_generation_known vm' := by
  unfold degen_generation_known at *
  rw [h1, h2]
  exact h

theorem apply_ops_known (ops : List ThreadOp) (vm : VM) (h : degen_generation_known vm) :
    degen_generation_known (apply_ops ops vm) :=
  known_of_degen_eq _ _ (apply_ops_degen ops vm).1 (apply_ops_degen ops vm).2 h

theorem check_cancellation_outside_known (fl : Flags) (vm : VM) (r : Bool × VM)
    (h : check_cancellation_or_degen fl ShenandoahDegenPoint.degenerated_outside_cycle vm
      = Except.ok r)
    (hk : degen_generation_known vm) : degen_generation_known r.2 := by
  rw [check_cancellation_or_degen_eq] at h
  split_ifs at h <;> cases h
  · exact hk
  · exact hk
  · exact Or.inl rfl
  · exact Or.inl rfl

theorem check_cancellation_degen_generation (fl : Flags) (point : ShenandoahDegenPoint)
    (vm : VM) (r : Bool × VM) (h : check_cancellation_or_degen fl point vm = Except.ok r) :
    r.2.ct.degen_generation = vm.ct.degen_generation := by
  rw [check_cancellation_or_degen_eq] at h
  split_ifs at h <;> cases h <;> rfl

theorem service_concurrent_cycle_known (fl : Flags) (generation : GenerationMode)
    (cause : Cause) (bootstrap : Bool) (run : ConcurrentGCRun) (vm vm' : VM)
    (h : service_concurrent_cycle fl generation cause bootstrap run vm = Except.ok vm')
    (hk : degen_generation_known vm) : degen_generation_known vm' := by
  unfold service_concurrent_cycle at h
  obtain ⟨r, hr, h⟩ := (bind_ok_iff _ _ _).mp h
  have k1 := check_cancellation_outside_known _ _ _ hr hk
  split_ifs at h
  · rw [pure_ok_iff] at h; subst h; exact k1
  · rw [pure_ok_iff] at h; subst h
    exact known_of_degen_eq _ _ (apply_ops_degen _ _).1 (apply_ops_degen _ _).2 k1
  · have h := check_bind_ok _ _ _ _ _ h
    obtain ⟨r2, _, h⟩ := (bind_ok_iff _ _ _).mp h
    have h := check_bind_ok _ _ _ _ _ h
    rw [pure_ok_iff] at h; subst h
    exact Or.inr rfl

theorem resume_concurrent_old_cycle_known (fl : Flags) (cause : Cause) (run : OldGCRun)
    (vm vm' : VM) (h : resume_concurrent_old_cycle fl cause run vm = Except.ok vm')
    (hk : degen_generation_known vm) : degen_generation_known vm' := by
  unfold resume_concurrent_old_cycle at h
  have h := check_bind_ok _ _ _ _ _ h
  simp only at h
  have k1 : degen_generation_known
      (emit (Event.old_collect cause run.completed) (apply_ops run.during vm)) :=
    known_of_degen_eq _ _ (apply_ops_degen _ _).1 (apply_ops_degen _ _).2 hk
  split_ifs at h
  · obtain ⟨r, hr, h⟩ := (bind_ok_iff _ _ _).mp h
    rw [pure_ok_iff] at h; subst h
    exact check_cancellation_outside_known _ _ _ hr k1
  · rw [pure_ok_iff] at h; subst h
    exact k1

theorem service_concurrent_normal_cycle_known (fl : Flags) (generation : GenerationMode)
    (cause : Cause) (inp : IterationInput) (vm vm' : VM)
    (h : service_concurrent_normal_cycle fl generation cause inp vm = Except.ok vm')
    (hk : degen_generation_known vm) : degen_generation_known vm' := by
  unfold service_concurrent_normal_cycle at h
  cases generation with
  | YOUNG => exact service_concurrent_cycle_known _ _ _ _ _ _ _ h hk
  | GLOBAL => exact service_concurrent_cycle_known _ _ _ _ _ _ _ h hk
  | OLD =>
    simp only [service_concurrent_old_cycle] at h
    have h := check_bind_ok _ _ _ _ _ h
    obtain ⟨v1, hv1, h⟩ := (bind_ok_iff _ _ _).mp h
    have k1 := service_concurrent_cycle_known _ _ _ _ _ _ _ hv1 hk
    split_ifs at h
    · refine resume_concurrent_old_cycle_known _ _ _ _ _ h ?_
      rw [set_gc_mode_eq]
      exact Or.inl rfl
    · rw [pure_ok_iff] at h; subst h; exact k1

theorem dispatch_cycle_known (fl : Flags) (inp : IterationInput) (sel : Selection)
    (age_period : Nat) (vm : VM) (r : GenerationMode × Nat × VM)
    (h : dispatch_cycle fl inp sel age_period vm = Except.ok r)
    (hk : degen_generation_known vm) : degen_generation_known r.2.2 := by
  unfold dispatch_cycle at h
  split at h
  · obtain ⟨v1, hv1, h⟩ := (bind_ok_iff _ _ _).mp h
    rw [pure_ok_iff] at h; subst h
    refine service_concurrent_normal_cycle_known _ _ _ _ _ _ hv1 ?_
    unfold update_aging
    split_ifs <;> exact hk
  · obtain ⟨v1, hv1, h⟩ := (bind_ok_iff _ _ _).mp h
    rw [pure_ok_iff] at h; subst h
    unfold service_stw_degenerated_cycle at hv1
    have hv1 := check_bind_ok _ _ _ _ _ hv1
    split at hv1
    · cases hv1
    · rw [pure_ok_iff] at hv1; subst hv1
      exact known_of_degen_eq _ _ (apply_ops_degen _ _).1 (apply_ops_degen _ _).2 hk
  · rw [pure_ok_iff] at h; subst h
    exact known_of_degen_eq _ _ (apply_ops_degen _ _).1 (apply_ops_degen _ _).2 hk
  · have h := check_bind_ok _ _ _ _ _ h
    obtain ⟨v1, hv1, h⟩ := (bind_ok_iff _ _ _).mp h
    rw [pure_ok_iff] at h; subst h
    exact resume_concurrent_old_cycle_known _ _ _ _ _ hv1 hk
  · cases h

theorem notify_and_retract_known (snap : Snapshot) (vm : VM) (hk : degen_generation_known vm) :
    degen_generation_known (notify_and_retract snap vm) := by
  simp only [notify_and_retract, set_forced_counters_update, handle_force_counters_update,
    notify_alloc_failure_waiters, notify_gc_waiters, emit]
  split_ifs <;> exact hk

theorem run_cycle_known (fl : Flags) (inp : IterationInput) (snap : Snapshot) (sel : Selection)
    (age_period : Nat) (vm : VM) (r : GenerationMode × Nat × VM)
    (h : run_cycle fl inp snap sel age_period vm = Except.ok r)
    (hk : degen_generation_known vm) : degen_generation_known r.2.2 := by
  unfold run_cycle at h
  obtain ⟨r1, hr1, h⟩ := (bind_ok_iff _ _ _).mp h
  obtain ⟨v2, hv2, h⟩ := (bind_ok_iff _ _ _).mp h
  rw [pure_ok_iff] at h; subst h
  have k1 := dispatch_cycle_known _ _ _ _ _ _ hr1 hk
  unfold finish_cycle at hv2
  split at hv2
  · have hv2 := check_bind_ok _ _ _ _ _ hv2
    rw [pure_ok_iff] at hv2; subst hv2
    exact notify_and_retract_known _ _ k1
  · rw [pure_ok_iff] at hv2; subst hv2
    exact notify_and_retract_known _ _ k1

theorem select_mode_known (fl : Flags) (hs : Heuristics) (snap : Snapshot)
    (generation : GenerationMode) (vm : VM) (r : Selection × VM)
    (h : select_mode fl hs snap generation vm = Except.ok r)
    (hk : degen_generation_known vm) : degen_generation_known r.2 := by
  unfold select_mode at h
  simp only at h
  split_ifs at h
  · cases hg : resumed_generation (set_gc_mode GCMode.none vm) with
    | none =>
      obtain ⟨f, hf⟩ := select_alloc_failure_null fl hs _ hg
      rw [hf] at h
      cases h
    | some g =>
      rw [select_alloc_failure_eq fl hs _ g hg] at h
      cases h
      exact Or.inl rfl
  · rw [pure_ok_iff] at h; subst h
    simp only [select_requested, set_gc_mode_eq, set_unload_classes]
    split_ifs <;> exact hk
  · rw [pure_ok_iff] at h; subst h
    simp only [select_requested, set_gc_mode_eq, set_unload_classes]
    split_ifs <;> exact hk
  · rw [pure_ok_iff] at h; subst h
    simp only [select_regulator, set_gc_mode_eq, set_unload_classes]
    split_ifs <;> exact hk

theorem run_service_iteration_known (fl : Flags) (inp : IterationInput) (loc : Locals)
    (vm : VM) (r : Locals × VM) (h : run_service_iteration fl inp loc vm = Except.ok r)
    (hk : degen_generation_known vm) : degen_generation_known r.2 := by
  unfold run_service_iteration at h
  obtain ⟨s, hs, h⟩ := (bind_ok_iff _ _ _).mp h
  have k1 : degen_generation_known s.vm := by
    unfold run_selection at hs
    obtain ⟨r1, hr1, hs⟩ := (bind_ok_iff _ _ _).mp hs
    rw [pure_ok_iff] at hs; subst hs
    refine select_mode_known _ _ _ _ _ _ hr1 ?_
    simp only [check_soft_max_changed]
    split_ifs <;> exact hk
  unfold run_remainder at h
  simp only at h
  have h := check_bind_ok _ _ _ _ _ h
  obtain ⟨c, hc, h⟩ := (bind_ok_iff _ _ _).mp h
  rw [pure_ok_iff] at h; subst h
  have k2 : degen_generation_known
      (blow_soft_refs fl s.snap s.sel (apply_ops inp.before_cycle s.vm)) := by
    have := apply_ops_known inp.before_cycle s.vm k1
    unfold blow_soft_refs
    split_ifs <;> exact this
  have k3 : degen_generation_known c.2.2 := by
    split_ifs at hc
    · exact run_cycle_known _ _ _ _ _ _ _ hc k2
    · rw [pure_ok_iff] at hc; subst hc; exact k2
  simp only [end_of_iteration]
  refine apply_ops_known _ _ ?_
  simp only [run_shrink, service_uncommit, emit]
  split_ifs <;> exact k3

/-- On every state the loop of `run_service` reaches from a state in which the generation
to resume is known, it is known again; it is known right after the constructor. -/
theorem run_service_known (fl : Flags) (inps : List IterationInput) (loc : Locals) (vm : VM)
    (r : Locals × VM) (h : run_service fl inps loc vm = Except.ok r)
    (hk : degen_generation_known vm) : degen_generation_known r.2 := by
  induction inps generalizing loc vm with
  | nil =>
    simp only [run_service, pure, Except.pure] at h
    cases h
    exact hk
  | cons inp inps ih =>
    unfold run_service at h
    split at h
    · obtain ⟨r1, hr1, h⟩ := (bind_ok_iff _ _ _).mp h
      exact ih _ _ h (run_service_iteration_known _ _ _ _ _ hr1 hk)
    · simp only [pure, Except.pure] at h
      cases h
      exact hk

/-! ### Requests of the regulator -/

/-- Closed form of `request_concurrent_gc`. -/
theorem request_concurrent_gc_eq (generation : GenerationMode) (vm : VM) :
    request_concurrent_gc generation vm =
      if vm.ct.preemption_requested = true ∨ vm.ct.gc_requested = true
          ∨ vm.heap.cancelled_gc = true then (false, vm)
      else if vm.ct.mode = GCMode.none then
        (true, notify_control_thread
          { vm with ct := { vm.ct with
              requested_gc_cause := Cause.shenandoah_concurrent_gc
              requested_generation := generation } })
      else if generation = GenerationMode.YOUNG ∧ vm.ct.allow_old_preemption = true then
        (true, notify_control_thread
          { vm with
            ct := { vm.ct with
              allow_old_preemption := false
              requested_gc_cause := Cause.shenandoah_concurrent_gc
              requested_generation := generation
              preemption_requested := true }
            heap := { vm.heap with cancelled_gc := true } })
      else (false, vm) := by
  unfold request_concurrent_gc preempt_old_marking cancel_gc
  cases hp : vm.ct.preemption_requested <;> cases hr : vm.ct.gc_requested <;>
    cases hc : vm.heap.cancelled_gc <;> simp
  by_cases hm : vm.ct.mode = GCMode.none
  · simp [hm]
  · by_cases hg : generation = GenerationMode.YOUNG
    · cases ha : vm.ct.allow_old_preemption <;> simp [hm, hg, hc]
    · simp [hm, hg]

theorem apply_op_allow_old_preemption (op : ThreadOp) (vm : VM)
    (hop : op ≠ ThreadOp.set_allow_old_preemption true)
    (h : vm.ct.allow_old_preemption = false) :
    (apply_op op vm).ct.allow_old_preemption = false := by
  cases op with
  | set_allow_old_preemption value =>
    cases value
    · rfl
    · exact absurd rfl hop
  | request_concurrent_gc generation =>
    simp only [apply_op]
    rw [request_concurrent_gc_eq]
    split_ifs <;> first | exact h | rfl
  | _ =>
    simp only [apply_op, post_requested_gc, notify_control_thread, emit, cancel_gc,
      handle_alloc_failure, handle_alloc_failure_evac, try_set_alloc_failure_gc,
      prepare_for_graceful_shutdown, notify_heap_changed]
    (try split_ifs) <;> exact h

theorem apply_ops_allow_old_preemption (ops : List ThreadOp) (vm : VM)
    (hops : ∀ op ∈ ops, op ≠ ThreadOp.set_allow_old_preemption true)
    (h : vm.ct.allow_old_preemption = false) :
    (apply_ops ops vm).ct.allow_old_preemption = false := by
  unfold apply_ops
  induction ops generalizing vm with
  | nil => exact h
  | cons op ops ih =>
    rw [List.foldl_cons]
    exact ih _ (fun o ho => hops o (List.mem_cons_of_mem _ ho))
      (apply_op_allow_old_preemption op vm (hops op (List.mem_cons_self _ _)) h)

/-- With the preemption flag disarmed and a cycle in flight, a request of the regulator is
turned down and changes nothing. -/
theorem request_concurrent_gc_disarmed (generation : GenerationMode) (vm : VM)
    (ha : vm.ct.allow_old_preemption = false) (hm : vm.ct.mode ≠ GCMode.none) :
    request_concurrent_gc generation vm = (false, vm) := by
  rw [request_concurrent_gc_eq]
  by_cases h1 : vm.ct.preemption_requested = true ∨ vm.ct.gc_requested = true
      ∨ vm.heap.cancelled_gc = true
  · rw [if_pos h1]
  · rw [if_neg h1, if_neg hm, if_neg (by rw [ha]; simp)]


/-! ### Closed forms of the selector -/

/-- Closed form of the selector in the allocation-failure branch. -/
theorem selector_alloc_failure_eq (fl : Flags) (hs : Heuristics) (generation : GenerationMode)
    (vm : VM) (g : GenerationMode) (h : vm.ct.alloc_failure_gc = true)
    (hg : resumed_generation vm = some g) :
    selector fl hs generation vm = Except.ok
      ({ cause := Cause.allocation_failure
         generation := if degenerates fl hs g vm then g else GenerationMode.GLOBAL
         degen_point := vm.ct.degen_point },
       { vm with
         ct := { vm.ct with
           degen_point := ShenandoahDegenPoint.degenerated_outside_cycle
           degen_generation := some g
           mode := if degenerates fl hs g vm then GCMode.stw_degenerated else GCMode.stw_full }
         heap := { vm.heap with old_evacuation_failure := false } }) := by
  have hg2 : resumed_generation (set_gc_mode GCMode.none vm) = some g := by
    rw [set_gc_mode_eq]; exact hg
  have hs2 : (take_snapshot vm).alloc_failure_pending = true := h
  simp only [selector, select_mode, hs2, if_true]
  rw [select_alloc_failure_eq fl hs _ g hg2, set_gc_mode_eq]
  rfl

/-- The selector stops at the NULL dereference exactly when there is no generation to resume. -/
theorem selector_alloc_failure_null (fl : Flags) (hs : Heuristics) (generation : GenerationMode)
    (vm : VM) (h : vm.ct.alloc_failure_gc = true) (hg : resumed_generation vm = none) :
    ∃ f, selector fl hs generation vm = Except.error f := by
  have hg2 : resumed_generation (set_gc_mode GCMode.none vm) = none := by
    rw [set_gc_mode_eq]; exact hg
  have hs2 : (take_snapshot vm).alloc_failure_pending = true := h
  simp only [selector, select_mode, hs2, if_true]
  exact select_alloc_failure_null fl hs _ hg2

theorem resumed_generation_of_known (vm : VM) (h : degen_generation_known vm) :
    ∃ g, resumed_generation vm = some g := by
  unfold resumed_generation
  rcases h with h | h
  · exact ⟨_, if_pos h⟩
  · by_cases hp : vm.ct.degen_point = ShenandoahDegenPoint.degenerated_outside_cycle
    · exact ⟨_, if_pos hp⟩
    · obtain ⟨g, hg⟩ := Option.isSome_iff_exists.mp h
      exact ⟨g, by rw [if_neg hp, hg]⟩

theorem resumed_generation_of_not_known (vm : VM) (h : ¬ degen_generation_known vm) :
    resumed_generation vm = none := by
  unfold resumed_generation
  unfold degen_generation_known at h
  push_neg at h
  rw [if_neg h.1]
  cases hg : vm.ct.degen_generation with
  | none => rfl
  | some g => exact absurd (by simp [hg]) h.2

/-- Closed form of the selector in the explicit branch. -/
theorem selector_explicit_eq (fl : Flags) (hs : Heuristics) (generation : GenerationMode)
    (vm : VM) (h : vm.ct.alloc_failure_gc = false) (hr : vm.ct.gc_requested = true)
    (he : is_explicit_gc vm.ct.requested_gc_cause = true) :
    selector fl hs generation vm = Except.ok
      ({ cause := vm.ct.requested_gc_cause
         generation := GenerationMode.GLOBAL
         degen_point := ShenandoahDegenPoint.degenerated_unset },
       if fl.ExplicitGCInvokesConcurrent then
         { vm with
           ct := { vm.ct with mode := GCMode.concurrent_normal }
           heap := { vm.heap with unload_classes := hs.can_unload_classes } }
       else { vm with ct := { vm.ct with mode := GCMode.stw_full } }) := by
  obtain ⟨ct, heap, trace⟩ := vm
  simp only at h hr he
  simp only [selector, select_mode, take_snapshot, h, hr, he, Bool.and_self, if_true,
    Bool.false_eq_true, if_false, select_requested, set_gc_mode_eq, set_unload_classes,
    pure, Except.pure]
  split <;> rfl

/-- Closed form of the selector in the implicit branch. -/
theorem selector_implicit_eq (fl : Flags) (hs : Heuristics) (generation : GenerationMode)
    (vm : VM) (h : vm.ct.alloc_failure_gc = false) (hr : vm.ct.gc_requested = true)
    (he : is_explicit_gc vm.ct.requested_gc_cause = false)
    (hc : vm.ct.requested_gc_cause ≠ Cause.shenandoah_concurrent_gc) :
    selector fl hs generation vm = Except.ok
      ({ cause := vm.ct.requested_gc_cause
         generation := GenerationMode.GLOBAL
         degen_point := ShenandoahDegenPoint.degenerated_unset },
       if fl.ShenandoahImplicitGCInvokesConcurrent then
         { vm with
           ct := { vm.ct with mode := GCMode.concurrent_normal }
           heap := { vm.heap with unload_classes := hs.can_unload_classes } }
       else { vm with ct := { vm.ct with mode := GCMode.stw_full } }) := by
  obtain ⟨ct, heap, trace⟩ := vm
  simp only at h hr he hc
  have hi : is_implicit_gc ct.requested_gc_cause = true := by
    simp [is_implicit_gc, he, hc]
  simp only [selector, select_mode, take_snapshot, h, hr, he, hi, Bool.and_self, if_true,
    Bool.false_eq_true, if_false, Bool.and_false, Bool.true_and, select_requested,
    set_gc_mode_eq, set_unload_classes, pure, Except.pure]
  split <;> rfl

/-- Closed form of the last branch when the inbox holds a regulator request. -/
theorem select_regulator_concurrent (generation : GenerationMode) (vm : VM) (hs : Heuristics)
    (hc : vm.ct.requested_gc_cause = Cause.shenandoah_concurrent_gc) :
    select_regulator generation vm hs =
      ({ cause := Cause.shenandoah_concurrent_gc
         generation := vm.ct.requested_generation
         degen_point := ShenandoahDegenPoint.degenerated_unset },
       { vm with
         ct := { vm.ct with
           mode := if vm.ct.requested_generation = GenerationMode.OLD
                      ∧ vm.heap.concurrent_old_mark_in_progress = true
                   then GCMode.marking_old else GCMode.concurrent_normal
           requested_gc_cause := Cause.no_gc }
         heap := { vm.heap with
           unload_classes := if vm.ct.requested_generation = GenerationMode.GLOBAL
                             then hs.should_unload_classes else false } }) := by
  obtain ⟨ct, heap, trace⟩ := vm
  simp only at hc
  simp only [select_regulator, hc, if_true, set_gc_mode_eq, set_unload_classes]
  by_cases hg : ct.requested_generation = GenerationMode.OLD
  · cases hm : heap.concurrent_old_mark_in_progress <;> simp [hg, hm]
  · by_cases hg2 : ct.requested_generation = GenerationMode.GLOBAL <;> simp [hg, hg2]

/-- Closed form of the last branch when the inbox holds no regulator request. -/
theorem select_regulator_other (generation : GenerationMode) (vm : VM) (hs : Heuristics)
    (hc : vm.ct.requested_gc_cause ≠ Cause.shenandoah_concurrent_gc) :
    select_regulator generation vm hs =
      if vm.heap.concurrent_old_mark_in_progress = true
          ∨ vm.heap.concurrent_prep_for_mixed_evacuation_in_progress = true then
        ({ cause := Cause.shenandoah_concurrent_gc
           generation := GenerationMode.OLD
           degen_point := ShenandoahDegenPoint.degenerated_unset },
         { vm with ct := { vm.ct with mode := GCMode.marking_old
                                      requested_gc_cause := Cause.no_gc } })
      else
        ({ cause := Cause.last_gc_cause
           generation := generation
           degen_point := ShenandoahDegenPoint.degenerated_unset },
         { vm with ct := { vm.ct with requested_gc_cause := Cause.no_gc } }) := by
  obtain ⟨ct, heap, trace⟩ := vm
  simp only at hc
  simp only [select_regulator, hc, if_false, set_gc_mode_eq, Bool.or_eq_true]

/-- The selection block reaches its last branch exactly when the snapshot shows neither an
allocation failure nor an explicit nor an implicit request. -/
theorem selector_regulator_eq (fl : Flags) (hs : Heuristics) (generation : GenerationMode)
    (vm : VM) (h : vm.ct.alloc_failure_gc = false)
    (he : (take_snapshot vm).explicit_gc_requested = false)
    (hi : (take_snapshot vm).implicit_gc_requested = false) :
    selector fl hs generation vm
      = Except.ok (select_regulator generation (set_gc_mode GCMode.none vm) hs) := by
  simp only [take_snapshot] at he hi
  simp only [selector, select_mode, take_snapshot, h, he, hi, Bool.false_eq_true, if_false,
    pure, Except.pure]

/-- C1: with the allocation-failure flag set in the snapshot, the selector chooses cause
allocation_failure and mode stw_degenerated or stw_full, for every value of the other inputs,
in every state in which the generation to resume is known; these are all the states the
control loop reaches from the constructor.  The only other outcome is the stop at a NULL
`_degen_generation`, in the state excluded by the branch's own assertion. -/
theorem C1_alloc_failure_takes_precedence (fl : Flags) (hs : Heuristics)
    (generation : GenerationMode) (vm : VM) (h : vm.ct.alloc_failure_gc = true) :
    (degen_generation_known vm →
      ∃ sel vm', selector fl hs generation vm = Except.ok (sel, vm')
        ∧ sel.cause = Cause.allocation_failure
        ∧ (vm'.ct.mode = GCMode.stw_degenerated ∨ vm'.ct.mode = GCMode.stw_full))
    ∧ (¬ degen_generation_known vm → ∃ f, selector fl hs generation vm = Except.error f)
    ∧ (∀ (inps : List IterationInput) (loc : Locals) (heap : ShenandoahHeap) (r : Locals × VM),
        run_service fl inps loc { ct := ShenandoahControlThread.init, heap := heap, trace := [] }
          = Except.ok r →
        r.2.ct.alloc_failure_gc = true →
        ∃ sel vm', selector fl hs generation r.2 = Except.ok (sel, vm')
          ∧ sel.cause = Cause.allocation_failure
          ∧ (vm'.ct.mode = GCMode.stw_degenerated ∨ vm'.ct.mode = GCMode.stw_full)) := by
  have main : ∀ v : VM, v.ct.alloc_failure_gc = true → degen_generation_known v →
      ∃ sel vm', selector fl hs generation v = Except.ok (sel, vm')
        ∧ sel.cause = Cause.allocation_failure
        ∧ (vm'.ct.mode = GCMode.stw_degenerated ∨ vm'.ct.mode = GCMode.stw_full) := by
    intro v hv hk
    obtain ⟨g, hg⟩ := resumed_generation_of_known v hk
    refine ⟨_, _, selector_alloc_failure_eq fl hs generation v g hv hg, rfl, ?_⟩
    by_cases hd : degenerates fl hs g v = true
    · left; simp [hd]
    · right; simp [hd]
  refine ⟨main vm h, ?_, ?_⟩
  · intro hk
    exact selector_alloc_failure_null fl hs generation vm h (resumed_generation_of_not_known vm hk)
  · intro inps loc heap r hr ha
    exact main r.2 ha (run_service_known fl inps loc _ r hr (Or.inl rfl))

/-- C1 at a concrete state: an explicit request and a regulator request are both pending
besides the allocation failure. -/
theorem C1_alloc_failure_takes_precedence_witness :
    ∃ sel vm', selector Flags.sample Heuristics.sample GenerationMode.GLOBAL
        { ct := { ShenandoahControlThread.init with
                  alloc_failure_gc := true, gc_requested := true,
                  requested_gc_cause := Cause.user_requested }
          heap := ShenandoahHeap.idle
          trace := [] } = Except.ok (sel, vm')
      ∧ sel.cause = Cause.allocation_failure
      ∧ (vm'.ct.mode = GCMode.stw_degenerated ∨ vm'.ct.mode = GCMode.stw_full) :=
  (C1_alloc_failure_takes_precedence _ _ _ _ rfl).1 (Or.inl rfl)

/-- C2: in the allocation-failure branch the selector chooses stw_degenerated exactly when
degenerated GC is enabled, the heuristics of the generation being resumed approve, and no
old-generation evacuation failure was pending; otherwise it chooses stw_full with
generation GLOBAL.  The generation being resumed is the seed (young in generational mode,
global otherwise) when the stored degen point is outside_cycle, and the recorded
`_degen_generation` otherwise; it is known in every state the control loop reaches from the
constructor. -/
theorem C2_degenerated_or_full (fl : Flags) (hs : Heuristics) (generation : GenerationMode)
    (vm : VM) (h : vm.ct.alloc_failure_gc = true) (hk : degen_generation_known vm) :
    (∃ sel vm' g, selector fl hs generation vm = Except.ok (sel, vm')
      ∧ vm'.ct.degen_generation = some g
      ∧ (vm.ct.degen_point = ShenandoahDegenPoint.degenerated_outside_cycle →
          g = if vm.heap.is_generational then GenerationMode.YOUNG else GenerationMode.GLOBAL)
      ∧ (vm.ct.degen_point ≠ ShenandoahDegenPoint.degenerated_outside_cycle →
          vm.ct.degen_generation = some g)
      ∧ (vm'.ct.mode = GCMode.stw_degenerated ↔
          (fl.ShenandoahDegeneratedGC = true ∧ hs.should_degenerate_cycle g = true
            ∧ vm.heap.old_evacuation_failure = false))
      ∧ (vm'.ct.mode = GCMode.stw_degenerated → sel.generation = g)
      ∧ (vm'.ct.mode ≠ GCMode.stw_degenerated →
          vm'.ct.mode = GCMode.stw_full ∧ sel.generation = GenerationMode.GLOBAL))
    ∧ (∀ (inps : List IterationInput) (loc : Locals) (heap : ShenandoahHeap) (r : Locals × VM),
        run_service fl inps loc { ct := ShenandoahControlThread.init, heap := heap, trace := [] }
          = Except.ok r →
        degen_generation_known r.2) := by
  refine ⟨?_, fun inps loc heap r hr => run_service_known fl inps loc _ r hr (Or.inl rfl)⟩
  obtain ⟨g, hg⟩ := resumed_generation_of_known vm hk
  refine ⟨_, _, g, selector_alloc_failure_eq fl hs generation vm g h hg, rfl,
    ?_, ?_, ?_, ?_, ?_⟩
  · intro hp
    simp only [resumed_generation, hp, if_true, Option.some.injEq] at hg
    exact hg.symm
  · intro hp
    simpa only [resumed_generation, hp, if_false] using hg
  · by_cases hd : degenerates fl hs g vm = true
    · have hd2 := hd
      simp only [degenerates, Bool.and_eq_true, Bool.not_eq_true'] at hd2
      simp [hd, hd2.1.1, hd2.1.2, hd2.2]
    · have hd2 := hd
      simp only [degenerates, Bool.and_eq_true, Bool.not_eq_true'] at hd2
      simp only [hd, Bool.false_eq_true, if_false]
      constructor
      · intro hc; cases hc
      · rintro ⟨h1, h2, h3⟩
        exact absurd ⟨⟨h1, h2⟩, h3⟩ hd2
  · by_cases hd : degenerates fl hs g vm = true <;> simp [hd]
  · by_cases hd : degenerates fl hs g vm = true <;> simp [hd]

/-- C2 at a concrete state: a young cycle was cancelled after marking and the heuristics
approve, so the degenerated cycle resumes the young generation. -/
theorem C2_degenerated_or_full_witness :
    ∃ sel vm' g, selector Flags.sample Heuristics.sample GenerationMode.YOUNG
        { ct := { ShenandoahControlThread.init with
                  alloc_failure_gc := true
                  degen_point := ShenandoahDegenPoint.degenerated_mark
                  degen_generation := some GenerationMode.YOUNG }
          heap := ShenandoahHeap.idle
          trace := [] } = Except.ok (sel, vm')
      ∧ vm'.ct.degen_generation = some g
      ∧ vm'.ct.mode = GCMode.stw_degenerated
      ∧ sel.generation = GenerationMode.YOUNG := by
  obtain ⟨⟨sel, vm', g, h1, h2, _, h4, h5, h6, _⟩, _⟩ :=
    C2_degenerated_or_full
      Flags.sample Heuristics.sample GenerationMode.YOUNG
      { ct := { ShenandoahControlThread.init with
                alloc_failure_gc := true
                degen_point := ShenandoahDegenPoint.degenerated_mark
                degen_generation := some GenerationMode.YOUNG }
        heap := ShenandoahHeap.idle
        trace := [] } rfl (Or.inr rfl)
  have hm : vm'.ct.mode = GCMode.stw_degenerated := h5.mpr ⟨rfl, rfl, rfl⟩
  have hg : g = GenerationMode.YOUNG := by
    have := h4 (by decide)
    simpa using this.symm
  exact ⟨sel, vm', g, h1, h2, hm, by rw [h6 hm, hg]⟩

/-- C3: without a pending allocation failure, a requested GC whose cause is explicit gets
generation GLOBAL, and mode concurrent_normal or stw_full according to
ExplicitGCInvokesConcurrent alone. -/
theorem C3_explicit_request (fl : Flags) (hs : Heuristics) (generation : GenerationMode)
    (vm : VM) (h : vm.ct.alloc_failure_gc = false) (hr : vm.ct.gc_requested = true)
    (he : is_explicit_gc vm.ct.requested_gc_cause = true) :
    ∃ sel vm', selector fl hs generation vm = Except.ok (sel, vm')
      ∧ sel.generation = GenerationMode.GLOBAL
      ∧ sel.cause = vm.ct.requested_gc_cause
      ∧ vm'.ct.mode = (if fl.ExplicitGCInvokesConcurrent then GCMode.concurrent_normal
                       else GCMode.stw_full) := by
  refine ⟨_, _, selector_explicit_eq fl hs generation vm h hr he, rfl, rfl, ?_⟩
  cases fl.ExplicitGCInvokesConcurrent <;> rfl

/-- C3 at the first scenario of the specification: idle, user-requested GC, concurrent
explicit GC enabled; the inbox generation is YOUNG and the implicit flag is off. -/
theorem C3_explicit_request_witness :
    ∃ sel vm', selector Flags.sample Heuristics.sample GenerationMode.YOUNG
        { ct := { ShenandoahControlThread.init with
                  gc_requested := true
                  requested_gc_cause := Cause.user_requested
                  requested_generation := GenerationMode.YOUNG }
          heap := ShenandoahHeap.idle
          trace := [] } = Except.ok (sel, vm')
      ∧ sel.generation = GenerationMode.GLOBAL
      ∧ sel.cause = Cause.user_requested
      ∧ vm'.ct.mode = GCMode.concurrent_normal :=
  C3_explicit_request _ _ _ _ rfl rfl rfl

/-- C4: without a pending allocation failure, a requested GC whose cause is neither explicit
nor shenandoah_concurrent_gc is handled as an implicit request: generation GLOBAL, and mode
concurrent_normal or stw_full according to ShenandoahImplicitGCInvokesConcurrent alone.  The
cleared inbox value is such a cause, and every cause is exactly one of explicit, implicit
and shenandoah_concurrent_gc. -/
theorem C4_implicit_request (fl : Flags) (hs : Heuristics) (generation : GenerationMode)
    (vm : VM) (h : vm.ct.alloc_failure_gc = false) (hr : vm.ct.gc_requested = true)
    (he : is_explicit_gc vm.ct.requested_gc_cause = false)
    (hc : vm.ct.requested_gc_cause ≠ Cause.shenandoah_concurrent_gc) :
    (∃ sel vm', selector fl hs generation vm = Except.ok (sel, vm')
      ∧ (take_snapshot vm).implicit_gc_requested = true
      ∧ sel.generation = GenerationMode.GLOBAL
      ∧ sel.cause = vm.ct.requested_gc_cause
      ∧ vm'.ct.mode = (if fl.ShenandoahImplicitGCInvokesConcurrent then GCMode.concurrent_normal
                       else GCMode.stw_full))
    ∧ is_implicit_gc Cause.no_gc = true
    ∧ (∀ cause : Cause,
        (is_explicit_gc cause = true ∧ is_implicit_gc cause = false
          ∧ cause ≠ Cause.shenandoah_concurrent_gc)
        ∨ (is_explicit_gc cause = false ∧ is_implicit_gc cause = true
          ∧ cause ≠ Cause.shenandoah_concurrent_gc)
        ∨ (is_explicit_gc cause = false ∧ is_implicit_gc cause = false
          ∧ cause = Cause.shenandoah_concurrent_gc)) := by
  refine ⟨⟨_, _, selector_implicit_eq fl hs generation vm h hr he hc, ?_, rfl, rfl, ?_⟩,
    ?_, ?_⟩
  · simp [take_snapshot, hr, is_implicit_gc, he, hc]
  · cases fl.ShenandoahImplicitGCInvokesConcurrent <;> rfl
  · decide
  · intro cause
    cases cause <;> decide

/-- C4 at a concrete state: the inbox holds the cleared value while `_gc_requested` is still
set, concurrent explicit GC is enabled and concurrent implicit GC is not. -/
theorem C4_implicit_request_witness :
    ∃ sel vm', selector Flags.sample Heuristics.sample GenerationMode.YOUNG
        { ct := { ShenandoahControlThread.init with
                  gc_requested := true
                  requested_gc_cause := Cause.no_gc }
          heap := ShenandoahHeap.idle
          trace := [] } = Except.ok (sel, vm')
      ∧ sel.generation = GenerationMode.GLOBAL
      ∧ vm'.ct.mode = GCMode.stw_full := by
  obtain ⟨⟨sel, vm', h1, _, h3, _, h5⟩, _⟩ :=
    C4_implicit_request
      Flags.sample Heuristics.sample GenerationMode.YOUNG
      { ct := { ShenandoahControlThread.init with
                gc_requested := true
                requested_gc_cause := Cause.no_gc }
        heap := ShenandoahHeap.idle
        trace := [] } rfl rfl rfl (by decide)
  exact ⟨sel, vm', h1, h3, h5⟩

/-- C5: without a pending allocation failure, an inbox cause shenandoah_concurrent_gc (which
is neither an explicit nor an implicit request) selects the inbox generation, with mode
marking_old when that generation is OLD and old concurrent mark is in progress, and
concurrent_normal in every other case. -/
theorem C5_regulator_request (fl : Flags) (hs : Heuristics) (generation : GenerationMode)
    (vm : VM) (h : vm.ct.alloc_failure_gc = false)
    (hc : vm.ct.requested_gc_cause = Cause.shenandoah_concurrent_gc) :
    ∃ sel vm', selector fl hs generation vm = Except.ok (sel, vm')
      ∧ (take_snapshot vm).explicit_gc_requested = false
      ∧ (take_snapshot vm).implicit_gc_requested = false
      ∧ sel.cause = Cause.shenandoah_concurrent_gc
      ∧ sel.generation = vm.ct.requested_generation
      ∧ vm'.ct.mode =
          (if vm.ct.requested_generation = GenerationMode.OLD
              ∧ vm.heap.concurrent_old_mark_in_progress = true
           then GCMode.marking_old else GCMode.concurrent_normal) := by
  have he : (take_snapshot vm).explicit_gc_requested = false := by
    simp [take_snapshot, hc, is_explicit_gc, is_user_requested_gc,
      is_serviceability_requested_gc]
  have hi : (take_snapshot vm).implicit_gc_requested = false := by
    simp [take_snapshot, hc, is_implicit_gc]
  have hc2 : (set_gc_mode GCMode.none vm).ct.requested_gc_cause
      = Cause.shenandoah_concurrent_gc := by
    rw [set_gc_mode_eq]; exact hc
  have key := selector_regulator_eq fl hs generation vm h he hi
  rw [select_regulator_concurrent _ _ _ hc2, set_gc_mode_eq] at key
  exact ⟨_, _, key, he, hi, rfl, rfl, rfl⟩

/-- C5 at a concrete state: the regulator asked for OLD while old marking is under way. -/
theorem C5_regulator_request_witness :
    ∃ sel vm', selector Flags.sample Heuristics.sample GenerationMode.GLOBAL
        { ct := { ShenandoahControlThread.init with
                  requested_gc_cause := Cause.shenandoah_concurrent_gc
                  requested_generation := GenerationMode.OLD }
          heap := { ShenandoahHeap.idle with concurrent_old_mark_in_progress := true }
          trace := [] } = Except.ok (sel, vm')
      ∧ sel.generation = GenerationMode.OLD
      ∧ vm'.ct.mode = GCMode.marking_old := by
  obtain ⟨sel, vm', h1, _, _, _, h5, h6⟩ :=
    C5_regulator_request
      Flags.sample Heuristics.sample GenerationMode.GLOBAL
      { ct := { ShenandoahControlThread.init with
                requested_gc_cause := Cause.shenandoah_concurrent_gc
                requested_generation := GenerationMode.OLD }
        heap := { ShenandoahHeap.idle with concurrent_old_mark_in_progress := true }
        trace := [] } rfl rfl
  exact ⟨sel, vm', h1, h5, h6⟩

/-- C6: when the snapshot shows no allocation failure and no explicit or implicit request
and the inbox cause is not shenandoah_concurrent_gc, the selector chooses marking_old with
generation OLD if old concurrent mark or preparation for mixed evacuation is in progress,
and none otherwise.  In every iteration, mode none is chosen only in that last case, and
marking_old only with generation OLD. -/
theorem C6_resume_old_or_none (fl : Flags) (hs : Heuristics) (generation : GenerationMode)
    (vm : VM) :
    (vm.ct.alloc_failure_gc = false →
      (take_snapshot vm).explicit_gc_requested = false →
      (take_snapshot vm).implicit_gc_requested = false →
      vm.ct.requested_gc_cause ≠ Cause.shenandoah_concurrent_gc →
      ∃ sel vm', selector fl hs generation vm = Except.ok (sel, vm')
        ∧ (if vm.heap.concurrent_old_mark_in_progress = true
              ∨ vm.heap.concurrent_prep_for_mixed_evacuation_in_progress = true
           then vm'.ct.mode = GCMode.marking_old ∧ sel.generation = GenerationMode.OLD
           else vm'.ct.mode = GCMode.none))
    ∧ (∀ sel vm', selector fl hs generation vm = Except.ok (sel, vm') →
        (vm'.ct.mode = GCMode.none →
          vm.ct.alloc_failure_gc = false
          ∧ (take_snapshot vm).explicit_gc_requested = false
          ∧ (take_snapshot vm).implicit_gc_requested = false
          ∧ vm.ct.requested_gc_cause ≠ Cause.shenandoah_concurrent_gc
          ∧ vm.heap.concurrent_old_mark_in_progress = false
          ∧ vm.heap.concurrent_prep_for_mixed_evacuation_in_progress = false)
        ∧ (vm'.ct.mode = GCMode.marking_old → sel.generation = GenerationMode.OLD)) := by
  have other : ∀ (_ : vm.ct.alloc_failure_gc = false)
      (_ : (take_snapshot vm).explicit_gc_requested = false)
      (_ : (take_snapshot vm).implicit_gc_requested = false)
      (_ : vm.ct.requested_gc_cause ≠ Cause.shenandoah_concurrent_gc),
      selector fl hs generation vm = Except.ok
        (if vm.heap.concurrent_old_mark_in_progress = true
            ∨ vm.heap.concurrent_prep_for_mixed_evacuation_in_progress = true then
          ({ cause := Cause.shenandoah_concurrent_gc
             generation := GenerationMode.OLD
             degen_point := ShenandoahDegenPoint.degenerated_unset },
           { vm with ct := { vm.ct with mode := GCMode.marking_old
                                        requested_gc_cause := Cause.no_gc } })
        else
          ({ cause := Cause.last_gc_cause
             generation := generation
             degen_point := ShenandoahDegenPoint.degenerated_unset },
           { vm with ct := { vm.ct with mode := GCMode.none
                                        requested_gc_cause := Cause.no_gc } })) := by
    intro h he hi hc
    have hc2 : (set_gc_mode GCMode.none vm).ct.requested_gc_cause
        ≠ Cause.shenandoah_concurrent_gc := by
      rw [set_gc_mode_eq]; exact hc
    have key := selector_regulator_eq fl hs generation vm h he hi
    rw [select_regulator_other _ _ _ hc2, set_gc_mode_eq] at key
    exact key
  constructor
  · intro h he hi hc
    have key := other h he hi hc
    by_cases hp : vm.heap.concurrent_old_mark_in_progress = true
        ∨ vm.heap.concurrent_prep_for_mixed_evacuation_in_progress = true
    · rw [if_pos hp] at key
      exact ⟨_, _, key, by rw [if_pos hp]; exact ⟨rfl, rfl⟩⟩
    · rw [if_neg hp] at key
      exact ⟨_, _, key, by rw [if_neg hp]⟩
  · intro sel vm' hsel
    cases h : vm.ct.alloc_failure_gc with
    | true =>
      cases hg : resumed_generation vm with
      | none =>
        obtain ⟨f, hf⟩ := selector_alloc_failure_null fl hs generation vm h hg
        rw [hf] at hsel
        cases hsel
      | some g =>
        rw [selector_alloc_failure_eq fl hs generation vm g h hg] at hsel
        injection hsel with hsel
        injection hsel with h1 h2
        subst h1 h2
        cases degenerates fl hs g vm <;> simp
    | false =>
      cases he : (take_snapshot vm).explicit_gc_requested with
      | true =>
        have he2 := he
        simp only [take_snapshot, Bool.and_eq_true] at he2
        rw [selector_explicit_eq fl hs generation vm h he2.1 he2.2] at hsel
        injection hsel with hsel
        injection hsel with h1 h2
        subst h1 h2
        cases fl.ExplicitGCInvokesConcurrent <;> simp
      | false =>
        cases hi : (take_snapshot vm).implicit_gc_requested with
        | true =>
          have hi2 := hi
          simp only [take_snapshot, is_implicit_gc, Bool.and_eq_true, Bool.not_eq_true',
            bne_iff_ne, ne_eq] at hi2
          rw [selector_implicit_eq fl hs generation vm h hi2.1 hi2.2.1 hi2.2.2] at hsel
          injection hsel with hsel
          injection hsel with h1 h2
          subst h1 h2
          cases fl.ShenandoahImplicitGCInvokesConcurrent <;> simp
        | false =>
          by_cases hc : vm.ct.requested_gc_cause = Cause.shenandoah_concurrent_gc
          · have hc2 : (set_gc_mode GCMode.none vm).ct.requested_gc_cause
                = Cause.shenandoah_concurrent_gc := by
              rw [set_gc_mode_eq]; exact hc
            have key := selector_regulator_eq fl hs generation vm h he hi
            rw [select_regulator_concurrent _ _ _ hc2, set_gc_mode_eq] at key
            rw [key] at hsel
            injection hsel with hsel
            injection hsel with h1 h2
            subst h1 h2
            by_cases hg : vm.ct.requested_generation = GenerationMode.OLD
            · cases hm : vm.heap.concurrent_old_mark_in_progress <;> simp [hg, hm]
            · simp [hg]
          · rw [other h he hi hc] at hsel
            by_cases hp : vm.heap.concurrent_old_mark_in_progress = true
                ∨ vm.heap.concurrent_prep_for_mixed_evacuation_in_progress = true
            · rw [if_pos hp] at hsel
              injection hsel with hsel
              injection hsel with h1 h2
              subst h1 h2
              simp
            · rw [if_neg hp] at hsel
              injection hsel with hsel
              injection hsel with h1 h2
              subst h1 h2
              push_neg at hp
              simp only [ne_eq, Bool.not_eq_true] at hp
              simp [hc, hp.1, hp.2]

/-- C6 at two concrete states: the idle machine selects none; with preparation for mixed
evacuation in progress it resumes the old generation. -/
theorem C6_resume_old_or_none_witness :
    (∃ sel vm', selector Flags.sample Heuristics.sample GenerationMode.GLOBAL
        { ct := ShenandoahControlThread.init, heap := ShenandoahHeap.idle, trace := [] }
          = Except.ok (sel, vm')
        ∧ vm'.ct.mode = GCMode.none)
    ∧ (∃ sel vm', selector Flags.sample Heuristics.sample GenerationMode.GLOBAL
        { ct := ShenandoahControlThread.init
          heap := { ShenandoahHeap.idle with
                    concurrent_prep_for_mixed_evacuation_in_progress := true }
          trace := [] } = Except.ok (sel, vm')
        ∧ vm'.ct.mode = GCMode.marking_old ∧ sel.generation = GenerationMode.OLD) := by
  constructor
  · obtain ⟨sel, vm', h1, h2⟩ :=
      (C6_resume_old_or_none
        Flags.sample Heuristics.sample GenerationMode.GLOBAL
        { ct := ShenandoahControlThread.init, heap := ShenandoahHeap.idle, trace := [] }).1
        rfl rfl rfl (by decide)
    exact ⟨sel, vm', h1, by simpa [ShenandoahHeap.idle] using h2⟩
  · obtain ⟨sel, vm', h1, h2⟩ :=
      (C6_resume_old_or_none
        Flags.sample Heuristics.sample GenerationMode.GLOBAL
        { ct := ShenandoahControlThread.init
          heap := { ShenandoahHeap.idle with
                    concurrent_prep_for_mixed_evacuation_in_progress := true }
          trace := [] }).1 rfl rfl rfl (by decide)
    exact ⟨sel, vm', h1, by simpa [ShenandoahHeap.idle] using h2⟩

/-- C7: `gc_id` is 0 after the constructor; an iteration that completes from a state whose
`gc_id` can still be incremented without wrapping the `size_t` leaves `gc_id` one higher
when the selection block chose a mode other than none and unchanged when it chose none; so
over a run of iterations `gc_id` never decreases and grows by at most the number of
iterations. -/
theorem C7_gc_id_once_per_cycle (fl : Flags) :
    ShenandoahControlThread.init.gc_id = 0
    ∧ (∀ (inp : IterationInput) (loc : Locals) (vm : VM) (r : Locals × VM),
        vm.ct.gc_id + 1 < 2 ^ 64 →
        run_service_iteration fl inp loc vm = Except.ok r →
        ∃ s, run_selection fl inp loc vm = Except.ok s
          ∧ (s.vm.ct.mode ≠ GCMode.none → r.2.ct.gc_id = vm.ct.gc_id + 1)
          ∧ (s.vm.ct.mode = GCMode.none → r.2.ct.gc_id = vm.ct.gc_id))
    ∧ (∀ (inps : List IterationInput) (loc : Locals) (vm : VM) (r : Locals × VM),
        vm.ct.gc_id + inps.length < 2 ^ 64 →
        run_service fl inps loc vm = Except.ok r →
        vm.ct.gc_id ≤ r.2.ct.gc_id ∧ r.2.ct.gc_id ≤ vm.ct.gc_id + inps.length) := by
  have step : ∀ (inp : IterationInput) (loc : Locals) (vm : VM) (r : Locals × VM),
      vm.ct.gc_id + 1 < 2 ^ 64 →
      run_service_iteration fl inp loc vm = Except.ok r →
      ∃ s, run_selection fl inp loc vm = Except.ok s
        ∧ (s.vm.ct.mode ≠ GCMode.none → r.2.ct.gc_id = vm.ct.gc_id + 1)
        ∧ (s.vm.ct.mode = GCMode.none → r.2.ct.gc_id = vm.ct.gc_id) := by
    intro inp loc vm r hb h
    obtain ⟨s, hs, e⟩ := run_service_iteration_gc_id fl inp loc vm r h
    refine ⟨s, hs, ?_, ?_⟩
    · intro hm
      rw [e, if_neg hm, Nat.mod_eq_of_lt hb]
    · intro hm
      rw [e, if_pos hm]
  refine ⟨rfl, step, ?_⟩
  intro inps
  induction inps with
  | nil =>
    intro loc vm r _ h
    simp only [run_service, pure, Except.pure] at h
    cases h
    simp
  | cons inp inps ih =>
    intro loc vm r hb h
    simp only [List.length_cons] at hb
    unfold run_service at h
    split at h
    · obtain ⟨r1, hr1, h⟩ := (bind_ok_iff _ _ _).mp h
      obtain ⟨s, _, h1, h2⟩ := step inp loc vm r1 (by omega) hr1
      have e1 : vm.ct.gc_id ≤ r1.2.ct.gc_id ∧ r1.2.ct.gc_id ≤ vm.ct.gc_id + 1 := by
        by_cases hm : s.vm.ct.mode = GCMode.none
        · rw [h2 hm]; omega
        · rw [h1 hm]; omega
      have e2 := ih r1.1 r1.2 r (by omega) h
      simp only [List.length_cons]
      omega
    · simp only [pure, Except.pure] at h
      cases h
      simp

/-- C7 at the iteration that bootstraps an old cycle: the regulator asked for OLD, the young
collaborator and then the old collaborator run, and `gc_id` goes from 0 to 1. -/
theorem C7_gc_id_once_per_cycle_witness :
    ∃ r s, run_service_iteration Flags.no_uncommit IterationInput.bootstrap (Locals.init 0)
          (apply_ops [ThreadOp.request_concurrent_gc GenerationMode.OLD] VM.init) = Except.ok r
      ∧ run_selection Flags.no_uncommit IterationInput.bootstrap (Locals.init 0)
          (apply_ops [ThreadOp.request_concurrent_gc GenerationMode.OLD] VM.init) = Except.ok s
      ∧ s.vm.ct.mode = GCMode.concurrent_normal
      ∧ r.2.trace =
          [Event.notify_control_thread,
           Event.concurrent_collect GenerationMode.YOUNG true Cause.shenandoah_concurrent_gc true,
           Event.old_collect Cause.shenandoah_concurrent_gc true,
           Event.control_wait]
      ∧ r.2.ct.gc_id = 0 + 1 := by
  obtain ⟨s, hs, h1, _⟩ :=
    (C7_gc_id_once_per_cycle Flags.no_uncommit).2.1 IterationInput.bootstrap (Locals.init 0)
      (apply_ops [ThreadOp.request_concurrent_gc GenerationMode.OLD] VM.init) _
      (by decide) rfl
  have hs2 : run_selection Flags.no_uncommit IterationInput.bootstrap (Locals.init 0)
      (apply_ops [ThreadOp.request_concurrent_gc GenerationMode.OLD] VM.init)
      = Except.ok _ := rfl
  have e : s = _ := Except.ok.inj (hs.symm.trans hs2)
  subst e
  exact ⟨_, _, rfl, rfl, rfl, rfl, h1 (by decide)⟩

/-- C8: for every cause, a call of `handle_requested_gc` that starts where `gc_id` can still
be incremented returns only in a state whose `gc_id`, the value it has just read, is at
least one above the value read on entry; every round of its loop stores the cause into the
inbox and sets `_gc_requested` before it waits; and it returns after the first round in
which `gc_id` has advanced. -/
theorem C8_requested_gc_round_trip (cause : Cause) (others : List (VM → VM)) (vm : VM)
    (hb : vm.ct.gc_id + 1 < 2 ^ 64) :
    (∀ vm', (handle_requested_gc cause others vm).returned = some vm' →
        vm.ct.gc_id + 1 ≤ get_gc_id vm')
    ∧ (∀ p ∈ (handle_requested_gc cause others vm).posts,
        p.ct.requested_gc_cause = cause ∧ p.ct.gc_requested = true)
    ∧ (cause ≠ Cause.wb_breakpoint →
        (handle_requested_gc cause others vm).waits
          = (handle_requested_gc cause others vm).posts.length)
    ∧ (others ≠ [] → (handle_requested_gc cause others vm).posts ≠ [])
    ∧ ((handle_requested_gc cause others vm).returned = none →
        (handle_requested_gc cause others vm).posts.length = others.length)
    ∧ (∀ other rest, others = other :: rest →
        vm.ct.gc_id + 1 ≤ get_gc_id (other (post_requested_gc cause vm)) →
        (handle_requested_gc cause others vm).returned
          = some (other (post_requested_gc cause vm))) := by
  have hreq : (get_gc_id vm + 1) % 2 ^ 64 = vm.ct.gc_id + 1 := Nat.mod_eq_of_lt hb
  have hlt : get_gc_id vm < vm.ct.gc_id + 1 := Nat.lt_succ_self _
  obtain ⟨i1, i2, i3, i4⟩ := handle_requested_gc_loop_spec cause (vm.ct.gc_id + 1) others vm
  simp only [handle_requested_gc, hreq]
  refine ⟨i1, i2, ?_, ?_, i4, ?_⟩
  · intro hw
    rw [i3, if_neg hw]
  · intro hne
    cases others with
    | nil => exact absurd rfl hne
    | cons other rest =>
      rw [handle_requested_gc_loop_cons _ _ _ _ _ _ hlt]
      simp
  · intro other rest ho hadv
    subst ho
    rw [handle_requested_gc_loop_cons _ _ _ _ _ _ hlt,
      handle_requested_gc_loop_done _ _ _ _ _ (by omega)]

/-- C8 at the first scenario of the specification: an idle machine, a user-requested GC, one
iteration of the control loop while the caller waits; the caller posts once, waits once, and
returns with `gc_id` 1. -/
theorem C8_requested_gc_round_trip_witness :
    (handle_requested_gc Cause.user_requested
        [iteration_state Flags.sample IterationInput.quiet (Locals.init 0)] VM.init).returned
      = some (iteration_state Flags.sample IterationInput.quiet (Locals.init 0)
          (post_requested_gc Cause.user_requested VM.init))
    ∧ get_gc_id (iteration_state Flags.sample IterationInput.quiet (Locals.init 0)
          (post_requested_gc Cause.user_requested VM.init)) = 1
    ∧ (handle_requested_gc Cause.user_requested
        [iteration_state Flags.sample IterationInput.quiet (Locals.init 0)] VM.init).waits = 1 :=
  ⟨(C8_requested_gc_round_trip Cause.user_requested
      [iteration_state Flags.sample IterationInput.quiet (Locals.init 0)] VM.init
      (by decide)).2.2.2.2.2 _ _ rfl (by decide),
   by decide, rfl⟩

/-- C9, the code at the failing input: an explicit request is pending, the concurrent global
cycle it starts is cancelled by an allocation failure, and the iteration still notifies the
GC waiters with `gc_id` advanced, although no collaborator ran to completion; the requester
blocked in `handle_requested_gc` returns. -/
theorem C9_waiters_notified_after_cancelled_cycle :
    ∃ r, run_service_iteration Flags.sample IterationInput.cancelled_by_alloc_failure
          (Locals.init 0) (post_requested_gc Cause.user_requested VM.init) = Except.ok r
      ∧ r.2.trace =
          [Event.notify_control_thread,
           Event.concurrent_collect GenerationMode.GLOBAL false Cause.user_requested false,
           Event.notify_gc_waiters]
      ∧ (∀ e ∈ r.2.trace, completed_collect e = false)
      ∧ r.2.ct.gc_id = 1
      ∧ r.2.ct.gc_requested = false
      ∧ r.2.ct.alloc_failure_gc = true
      ∧ r.2.ct.degen_point = ShenandoahDegenPoint.degenerated_mark
      ∧ (handle_requested_gc Cause.user_requested
          [iteration_state Flags.sample IterationInput.cancelled_by_alloc_failure
            (Locals.init 0)] VM.init).returned = some r.2 :=
  ⟨_, rfl, rfl, by decide, rfl, rfl, rfl, rfl, rfl⟩

/-- C10 as stated fails: with cause wb_breakpoint and `gc_id` still 0 after the first post,
the call has not returned; given a second round in which `gc_id` is bumped, it posts the
request a second time and returns only then, with `gc_id` 1. -/
theorem C10_wb_breakpoint_counterexample :
    (handle_requested_gc Cause.wb_breakpoint [id] VM.init).returned = none
    ∧ (handle_requested_gc Cause.wb_breakpoint [id, update_gc_id] VM.init).posts.length = 2
    ∧ (handle_requested_gc Cause.wb_breakpoint [id, update_gc_id] VM.init).waits = 0
    ∧ ((handle_requested_gc Cause.wb_breakpoint [id, update_gc_id] VM.init).returned.map
        get_gc_id) = some 1 :=
  ⟨rfl, rfl, rfl, rfl⟩

/-- C10 as amended: with cause wb_breakpoint the call never waits on the GC waiters; every
round of its loop posts the request (inbox cause, `_gc_requested`, wake-up of the control
thread) and reads `gc_id` again at once; it returns only when the value read has reached
required, so it is still in its loop after a round that left `gc_id` behind. -/
theorem C10_wb_breakpoint_spins (others : List (VM → VM)) (vm : VM)
    (hb : vm.ct.gc_id + 1 < 2 ^ 64) :
    (handle_requested_gc Cause.wb_breakpoint others vm).waits = 0
    ∧ (∀ p ∈ (handle_requested_gc Cause.wb_breakpoint others vm).posts,
        p.ct.requested_gc_cause = Cause.wb_breakpoint ∧ p.ct.gc_requested = true)
    ∧ (∀ other rest, others = other :: rest →
        (handle_requested_gc Cause.wb_breakpoint others vm).posts.head?
          = some (post_requested_gc Cause.wb_breakpoint vm)
        ∧ (post_requested_gc Cause.wb_breakpoint vm).trace
          = vm.trace ++ [Event.notify_control_thread])
    ∧ (∀ vm', (handle_requested_gc Cause.wb_breakpoint others vm).returned = some vm' →
        vm.ct.gc_id + 1 ≤ get_gc_id vm')
    ∧ (∀ other, others = [other] →
        get_gc_id (other (post_requested_gc Cause.wb_breakpoint vm)) < vm.ct.gc_id + 1 →
        (handle_requested_gc Cause.wb_breakpoint others vm).returned = none) := by
  have hreq : (get_gc_id vm + 1) % 2 ^ 64 = vm.ct.gc_id + 1 := Nat.mod_eq_of_lt hb
  have hlt : get_gc_id vm < vm.ct.gc_id + 1 := Nat.lt_succ_self _
  obtain ⟨i1, i2, i3, _⟩ :=
    handle_requested_gc_loop_spec Cause.wb_breakpoint (vm.ct.gc_id + 1) others vm
  simp only [handle_requested_gc, hreq]
  refine ⟨?_, i2, ?_, i1, ?_⟩
  · rw [i3, if_pos rfl]
  · intro other rest ho
    subst ho
    rw [handle_requested_gc_loop_cons _ _ _ _ _ _ hlt]
    exact ⟨rfl, rfl⟩
  · intro other ho hbehind
    subst ho
    rw [handle_requested_gc_loop_cons _ _ _ _ _ _ hlt,
      handle_requested_gc_loop_nil _ _ _ _ hbehind]

/-- C10 as amended, on the idle machine with nothing else happening in the first round. -/
theorem C10_wb_breakpoint_spins_witness :
    (handle_requested_gc Cause.wb_breakpoint [id] VM.init).waits = 0
    ∧ (handle_requested_gc Cause.wb_breakpoint [id] VM.init).returned = none :=
  ⟨(C10_wb_breakpoint_spins [id] VM.init (by decide)).1,
   (C10_wb_breakpoint_spins [id] VM.init (by decide)).2.2.2.2 id rfl (by decide)⟩

/-- C11: `request_gc` with an explicit cause while DisableExplicitGC is set returns at once
with the shared state untouched (no store to the inbox, `_gc_requested` and `gc_id` as they
were, no wait); with an allowed cause that is not explicit, or with DisableExplicitGC clear,
it is `handle_requested_gc` on the same cause. -/
theorem C11_request_gc_disabled_explicit (fl : Flags) (cause : Cause)
    (others : List (VM → VM)) (vm : VM) :
    (is_explicit_gc cause = true → fl.DisableExplicitGC = true →
      ∃ out, request_gc fl cause others vm = Except.ok out
        ∧ out.posts = [] ∧ out.waits = 0 ∧ out.returned = some vm)
    ∧ (is_requested_gc cause = true →
        (is_explicit_gc cause = false ∨ fl.DisableExplicitGC = false) →
        request_gc fl cause others vm = Except.ok (handle_requested_gc cause others vm)) := by
  constructor
  · intro he hd
    have ha : is_requested_gc cause = true := by
      simp only [is_explicit_gc, Bool.or_eq_true] at he
      simp only [is_requested_gc, Bool.or_eq_true]
      rcases he with he | he
      · exact Or.inl (Or.inl (Or.inl (Or.inl (Or.inl (Or.inl he)))))
      · exact Or.inl (Or.inl (Or.inl (Or.inl (Or.inl (Or.inr he)))))
    refine ⟨RequestOutcome.untouched vm, ?_, rfl, rfl, rfl⟩
    simp [request_gc, check, ha, he, hd, bind, Except.bind, pure, Except.pure]
  · intro ha hc
    rcases hc with hc | hc
    · simp [request_gc, check, ha, hc, bind, Except.bind, pure, Except.pure]
    · cases he : is_explicit_gc cause <;>
        simp [request_gc, check, ha, hc, he, bind, Except.bind, pure, Except.pure]

/-- C11 at concrete inputs: with explicit GC disabled a user request on the idle machine
returns at once; a `wb_full_gc` request under the same configuration is served as by
`handle_requested_gc`. -/
theorem C11_request_gc_disabled_explicit_witness :
    (∃ out, request_gc { Flags.sample with DisableExplicitGC := true } Cause.user_requested
          [iteration_state Flags.sample IterationInput.quiet (Locals.init 0)] VM.init
        = Except.ok out
      ∧ out.posts = [] ∧ out.waits = 0 ∧ out.returned = some VM.init)
    ∧ request_gc { Flags.sample with DisableExplicitGC := true } Cause.wb_full_gc
          [iteration_state Flags.sample IterationInput.quiet (Locals.init 0)] VM.init
        = Except.ok (handle_requested_gc Cause.wb_full_gc
            [iteration_state Flags.sample IterationInput.quiet (Locals.init 0)] VM.init) :=
  ⟨(C11_request_gc_disabled_explicit _ _ _ _).1 rfl rfl,
   (C11_request_gc_disabled_explicit _ _ _ _).2 rfl (Or.inl rfl)⟩

/-- C12: `request_concurrent_gc` returns false whenever a preemption is pending, a GC is
requested or the heap is cancelled; it returns false exactly in these cases and when a cycle
is in flight that it cannot preempt; and whenever it returns false the shared state is the
one it found (inbox cause and generation, `_preemption_requested`,
`_allow_old_preemption` and the heap's cancellation flag included). -/
theorem C12_request_concurrent_gc_rejected (generation : GenerationMode) (vm : VM) :
    ((vm.ct.preemption_requested = true ∨ vm.ct.gc_requested = true
        ∨ vm.heap.cancelled_gc = true) → (request_concurrent_gc generation vm).1 = false)
    ∧ ((request_concurrent_gc generation vm).1 = false ↔
        ((vm.ct.preemption_requested = true ∨ vm.ct.gc_requested = true
            ∨ vm.heap.cancelled_gc = true)
          ∨ (vm.ct.mode ≠ GCMode.none
              ∧ ¬ (generation = GenerationMode.YOUNG ∧ vm.ct.allow_old_preemption = true))))
    ∧ ((request_concurrent_gc generation vm).1 = false →
        (request_concurrent_gc generation vm).2 = vm
        ∧ (request_concurrent_gc generation vm).2.ct.requested_gc_cause
            = vm.ct.requested_gc_cause
        ∧ (request_concurrent_gc generation vm).2.ct.requested_generation
            = vm.ct.requested_generation
        ∧ (request_concurrent_gc generation vm).2.ct.preemption_requested
            = vm.ct.preemption_requested
        ∧ (request_concurrent_gc generation vm).2.ct.allow_old_preemption
            = vm.ct.allow_old_preemption
        ∧ (request_concurrent_gc generation vm).2.heap.cancelled_gc
            = vm.heap.cancelled_gc) := by
  rw [request_concurrent_gc_eq]
  by_cases h1 : vm.ct.preemption_requested = true ∨ vm.ct.gc_requested = true
      ∨ vm.heap.cancelled_gc = true
  · simp only [if_pos h1, true_or, forall_const, true_and, and_self, iff_true]
    tauto
  · rw [if_neg h1]
    by_cases hm : vm.ct.mode = GCMode.none
    · simp [hm, h1]
    · rw [if_neg hm]
      by_cases hy : generation = GenerationMode.YOUNG ∧ vm.ct.allow_old_preemption = true
      · simp [h1, hy, hm]
      · rw [if_neg hy]
        simp only [h1, hm, hy, false_or, ne_eq, not_false_eq_true, and_self, true_and,
          iff_true, forall_const, false_implies]

/-- C13: with no preemption pending, no GC requested, the heap not cancelled and the mode
none, `request_concurrent_gc` returns true for every generation, writes
(shenandoah_concurrent_gc, generation) to the inbox and wakes the control thread; it leaves
`_preemption_requested`, `_allow_old_preemption`, `_gc_requested` and the heap's
cancellation flag as they were. -/
theorem C13_request_concurrent_gc_idle (generation : GenerationMode) (vm : VM)
    (hp : vm.ct.preemption_requested = false) (hr : vm.ct.gc_requested = false)
    (hc : vm.heap.cancelled_gc = false) (hm : vm.ct.mode = GCMode.none) :
    (request_concurrent_gc generation vm).1 = true
    ∧ (request_concurrent_gc generation vm).2 =
        { vm with
          ct := { vm.ct with
            requested_gc_cause := Cause.shenandoah_concurrent_gc
            requested_generation := generation }
          trace := vm.trace ++ [Event.notify_control_thread] }
    ∧ (request_concurrent_gc generation vm).2.ct.requested_gc_cause
        = Cause.shenandoah_concurrent_gc
    ∧ (request_concurrent_gc generation vm).2.ct.requested_generation = generation
    ∧ (request_concurrent_gc generation vm).2.ct.preemption_requested = false
    ∧ (request_concurrent_gc generation vm).2.ct.allow_old_preemption
        = vm.ct.allow_old_preemption
    ∧ (request_concurrent_gc generation vm).2.ct.gc_requested = false
    ∧ (request_concurrent_gc generation vm).2.heap.cancelled_gc = false := by
  have h1 : ¬ (vm.ct.preemption_requested = true ∨ vm.ct.gc_requested = true
      ∨ vm.heap.cancelled_gc = true) := by
    rw [hp, hr, hc]; simp
  rw [request_concurrent_gc_eq, if_neg h1, if_pos hm]
  exact ⟨rfl, rfl, rfl, rfl, hp, rfl, hr, hc⟩

/-- C13 on the idle machine, for a request of the old generation. -/
theorem C13_request_concurrent_gc_idle_witness :
    (request_concurrent_gc GenerationMode.OLD VM.init).1 = true
    ∧ (request_concurrent_gc GenerationMode.OLD VM.init).2.ct.requested_gc_cause
        = Cause.shenandoah_concurrent_gc
    ∧ (request_concurrent_gc GenerationMode.OLD VM.init).2.ct.requested_generation
        = GenerationMode.OLD :=
  ⟨(C13_request_concurrent_gc_idle GenerationMode.OLD VM.init rfl rfl rfl rfl).1,
   (C13_request_concurrent_gc_idle GenerationMode.OLD VM.init rfl rfl rfl rfl).2.2.1,
   (C13_request_concurrent_gc_idle GenerationMode.OLD VM.init rfl rfl rfl rfl).2.2.2.1⟩
/-- C12 at two concrete states: a request while a GC is requested, and a request for OLD while
a cycle is in flight, are both turned down and change nothing. -/
theorem C12_request_concurrent_gc_rejected_witness :
    request_concurrent_gc GenerationMode.YOUNG (post_requested_gc Cause.user_requested VM.init)
      = (false, post_requested_gc Cause.user_requested VM.init)
    ∧ request_concurrent_gc GenerationMode.OLD
        VM.old_marking_armed
      = (false, VM.old_marking_armed) :=
  ⟨Prod.ext
      ((C12_request_concurrent_gc_rejected GenerationMode.YOUNG
        (post_requested_gc Cause.user_requested VM.init)).1 (Or.inr (Or.inl rfl)))
      ((C12_request_concurrent_gc_rejected GenerationMode.YOUNG
        (post_requested_gc Cause.user_requested VM.init)).2.2
          ((C12_request_concurrent_gc_rejected GenerationMode.YOUNG
            (post_requested_gc Cause.user_requested VM.init)).1 (Or.inr (Or.inl rfl)))).1,
   rfl⟩

/-- C14: `request_concurrent_gc` raises `_preemption_requested`, and cancels the heap, only
when the requested generation is YOUNG, the mode is not none and `_allow_old_preemption` was
set, and it clears `_allow_old_preemption` when it does; it does so whenever, besides, no
preemption is pending, no GC is requested and the heap is not cancelled.  While
`_allow_old_preemption` stays clear and a cycle is in flight, every further call returns
false and changes nothing: in particular the call that follows a preempting one, whatever
the other threads do in between short of re-arming the flag. -/
theorem C14_preemption_fires_once (generation : GenerationMode) (vm : VM) :
    (vm.ct.preemption_requested = false →
      (request_concurrent_gc generation vm).2.ct.preemption_requested = true →
      generation = GenerationMode.YOUNG ∧ vm.ct.mode ≠ GCMode.none
        ∧ vm.ct.allow_old_preemption = true
        ∧ (request_concurrent_gc generation vm).2.ct.allow_old_preemption = false
        ∧ (request_concurrent_gc generation vm).2.heap.cancelled_gc = true
        ∧ (request_concurrent_gc generation vm).1 = true)
    ∧ (vm.heap.cancelled_gc = false →
      (request_concurrent_gc generation vm).2.heap.cancelled_gc = true →
      generation = GenerationMode.YOUNG ∧ vm.ct.mode ≠ GCMode.none
        ∧ vm.ct.allow_old_preemption = true
        ∧ (request_concurrent_gc generation vm).2.ct.allow_old_preemption = false
        ∧ (request_concurrent_gc generation vm).2.ct.preemption_requested = true
        ∧ (request_concurrent_gc generation vm).1 = true)
    ∧ (vm.ct.preemption_requested = false → vm.ct.gc_requested = false →
      vm.heap.cancelled_gc = false → generation = GenerationMode.YOUNG →
      vm.ct.mode ≠ GCMode.none → vm.ct.allow_old_preemption = true →
      (request_concurrent_gc generation vm).1 = true
        ∧ (request_concurrent_gc generation vm).2.ct.preemption_requested = true
        ∧ (request_concurrent_gc generation vm).2.heap.cancelled_gc = true
        ∧ (request_concurrent_gc generation vm).2.ct.allow_old_preemption = false
        ∧ (request_concurrent_gc generation vm).2.ct.mode = vm.ct.mode)
    ∧ (vm.ct.allow_old_preemption = false → vm.ct.mode ≠ GCMode.none →
      request_concurrent_gc generation vm = (false, vm))
    ∧ (vm.ct.preemption_requested = false →
      (request_concurrent_gc generation vm).2.ct.preemption_requested = true →
      ∀ (ops : List ThreadOp) (second : GenerationMode),
        (∀ op ∈ ops, op ≠ ThreadOp.set_allow_old_preemption true) →
        request_concurrent_gc second (apply_ops ops (request_concurrent_gc generation vm).2)
          = (false, apply_ops ops (request_concurrent_gc generation vm).2)) := by
  have key : ∀ (_ : ¬ (vm.ct.preemption_requested = true ∨ vm.ct.gc_requested = true
        ∨ vm.heap.cancelled_gc = true)) (_ : vm.ct.mode ≠ GCMode.none)
      (_ : generation = GenerationMode.YOUNG ∧ vm.ct.allow_old_preemption = true),
      request_concurrent_gc generation vm =
        (true, notify_control_thread
          { vm with
            ct := { vm.ct with
              allow_old_preemption := false
              requested_gc_cause := Cause.shenandoah_concurrent_gc
              requested_generation := generation
              preemption_requested := true }
            heap := { vm.heap with cancelled_gc := true } }) := by
    intro h1 hm hy
    rw [request_concurrent_gc_eq, if_neg h1, if_neg hm, if_pos hy]
  have raised : vm.ct.preemption_requested = false →
      (request_concurrent_gc generation vm).2.ct.preemption_requested = true →
      generation = GenerationMode.YOUNG ∧ vm.ct.mode ≠ GCMode.none
        ∧ vm.ct.allow_old_preemption = true
        ∧ (request_concurrent_gc generation vm).2.ct.allow_old_preemption = false
        ∧ (request_concurrent_gc generation vm).2.heap.cancelled_gc = true
        ∧ (request_concurrent_gc generation vm).1 = true := by
    intro hp
    rw [request_concurrent_gc_eq]
    split_ifs with h1 hm hy
    · intro h; rw [hp] at h; cases h
    · intro h
      have : vm.ct.preemption_requested = true := h
      rw [hp] at this; cases this
    · intro _
      exact ⟨hy.1, hm, hy.2, rfl, rfl, rfl⟩
    · intro h; rw [hp] at h; cases h
  refine ⟨raised, ?_, ?_, request_concurrent_gc_disarmed generation vm, ?_⟩
  · intro hc
    rw [request_concurrent_gc_eq]
    split_ifs with h1 hm hy
    · intro h; rw [hc] at h; cases h
    · intro h
      have : vm.heap.cancelled_gc = true := h
      rw [hc] at this; cases this
    · intro _
      exact ⟨hy.1, hm, hy.2, rfl, rfl, rfl⟩
    · intro h; rw [hc] at h; cases h
  · intro hp hr hc hg hm ha
    have h1 : ¬ (vm.ct.preemption_requested = true ∨ vm.ct.gc_requested = true
        ∨ vm.heap.cancelled_gc = true) := by
      rw [hp, hr, hc]; simp
    rw [key h1 hm ⟨hg, ha⟩]
    exact ⟨rfl, rfl, rfl, rfl, rfl⟩
  · intro hp hq ops second hops
    obtain ⟨hg, hm, ha, hoff, _, _⟩ := raised hp hq
    have hmode : (request_concurrent_gc generation vm).2.ct.mode = vm.ct.mode := by
      rw [request_concurrent_gc_eq]
      split_ifs <;> rfl
    refine request_concurrent_gc_disarmed second _
      (apply_ops_allow_old_preemption ops _ hops hoff) ?_
    rw [apply_ops_mode, hmode]
    exact hm

/-- C14 at the third scenario of the specification: old marking is in flight with the
preemption flag armed, the regulator asks for YOUNG and preempts; its next request, after a
mutator reported heap changes, is turned down. -/
theorem C14_preemption_fires_once_witness :
    (request_concurrent_gc GenerationMode.YOUNG
        VM.old_marking_armed).1 = true
    ∧ (request_concurrent_gc GenerationMode.YOUNG
        VM.old_marking_armed).2.ct.preemption_requested
        = true
    ∧ request_concurrent_gc GenerationMode.YOUNG
        (apply_ops [ThreadOp.notify_heap_changed]
          (request_concurrent_gc GenerationMode.YOUNG
            VM.old_marking_armed).2)
      = (false, apply_ops [ThreadOp.notify_heap_changed]
          (request_concurrent_gc GenerationMode.YOUNG
            VM.old_marking_armed).2) :=
  ⟨((C14_preemption_fires_once GenerationMode.YOUNG
      VM.old_marking_armed).2.2.1
      rfl rfl rfl rfl (by decide) rfl).1,
   rfl,
   (C14_preemption_fires_once GenerationMode.YOUNG
      VM.old_marking_armed).2.2.2.2
      rfl rfl [ThreadOp.notify_heap_changed] GenerationMode.YOUNG
      (by intro op hop; simp only [List.mem_singleton] at hop; subst hop; intro h; cases h)⟩

/-- C15 as stated fails: after the selection block has served an explicit request the inbox
still holds the requester's cause, not the cleared value; likewise after the
allocation-failure branch. -/
theorem C15_inbox_cleared_counterexample :
    (∃ sel vm', selector Flags.sample Heuristics.sample GenerationMode.GLOBAL
          (post_requested_gc Cause.user_requested VM.init) = Except.ok (sel, vm')
        ∧ vm'.ct.mode = GCMode.concurrent_normal
        ∧ vm'.ct.requested_gc_cause = Cause.user_requested
        ∧ vm'.ct.requested_gc_cause ≠ Cause.no_gc)
    ∧ (∃ sel vm', selector Flags.sample Heuristics.sample GenerationMode.GLOBAL
          (handle_alloc_failure (request_concurrent_gc GenerationMode.YOUNG VM.init).2)
          = Except.ok (sel, vm')
        ∧ vm'.ct.mode = GCMode.stw_degenerated
        ∧ vm'.ct.requested_gc_cause = Cause.shenandoah_concurrent_gc
        ∧ vm'.ct.requested_gc_cause ≠ Cause.no_gc) :=
  ⟨⟨_, _, rfl, rfl, rfl, by decide⟩, ⟨_, _, rfl, rfl, rfl, by decide⟩⟩

/-- C15 as amended: the selection block clears the inbox cause in its last branch, that is
when the snapshot shows neither an allocation failure nor an explicit nor an implicit
request (regulator request, resumed old mark, or none); when the allocation-failure, the
explicit or the implicit branch matched, the inbox cause is left as it was. -/
theorem C15_inbox_cleared_in_last_branch (fl : Flags) (hs : Heuristics)
    (generation : GenerationMode) (vm : VM) :
    (vm.ct.alloc_failure_gc = false →
      (take_snapshot vm).explicit_gc_requested = false →
      (take_snapshot vm).implicit_gc_requested = false →
      ∃ sel vm', selector fl hs generation vm = Except.ok (sel, vm')
        ∧ vm'.ct.requested_gc_cause = Cause.no_gc)
    ∧ ((vm.ct.alloc_failure_gc = true ∨ (take_snapshot vm).explicit_gc_requested = true
          ∨ (take_snapshot vm).implicit_gc_requested = true) →
      ∀ sel vm', selector fl hs generation vm = Except.ok (sel, vm') →
        vm'.ct.requested_gc_cause = vm.ct.requested_gc_cause) := by
  constructor
  · intro h he hi
    have key := selector_regulator_eq fl hs generation vm h he hi
    by_cases hc : vm.ct.requested_gc_cause = Cause.shenandoah_concurrent_gc
    · have hc2 : (set_gc_mode GCMode.none vm).ct.requested_gc_cause
          = Cause.shenandoah_concurrent_gc := by
        rw [set_gc_mode_eq]; exact hc
      rw [select_regulator_concurrent _ _ _ hc2] at key
      exact ⟨_, _, key, rfl⟩
    · have hc2 : (set_gc_mode GCMode.none vm).ct.requested_gc_cause
          ≠ Cause.shenandoah_concurrent_gc := by
        rw [set_gc_mode_eq]; exact hc
      rw [select_regulator_other _ _ _ hc2] at key
      split_ifs at key
      · exact ⟨_, _, key, rfl⟩
      · exact ⟨_, _, key, rfl⟩
  · intro hcase sel vm' hsel
    cases h : vm.ct.alloc_failure_gc with
    | true =>
      cases hg : resumed_generation vm with
      | none =>
        obtain ⟨f, hf⟩ := selector_alloc_failure_null fl hs generation vm h hg
        rw [hf] at hsel
        cases hsel
      | some g =>
        rw [selector_alloc_failure_eq fl hs generation vm g h hg] at hsel
        cases hsel
        rfl
    | false =>
      cases he : (take_snapshot vm).explicit_gc_requested with
      | true =>
        have he2 := he
        simp only [take_snapshot, Bool.and_eq_true] at he2
        rw [selector_explicit_eq fl hs generation vm h he2.1 he2.2] at hsel
        cases hsel
        split_ifs <;> rfl
      | false =>
        have hi : (take_snapshot vm).implicit_gc_requested = true := by
          rcases hcase with hcase | hcase | hcase
          · rw [h] at hcase; cases hcase
          · rw [he] at hcase; cases hcase
          · exact hcase
        have hi2 := hi
        simp only [take_snapshot, is_implicit_gc, Bool.and_eq_true, Bool.not_eq_true',
          bne_iff_ne, ne_eq] at hi2
        rw [selector_implicit_eq fl hs generation vm h hi2.1 hi2.2.1 hi2.2.2] at hsel
        cases hsel
        split_ifs <;> rfl
theorem check_cancellation_or_degen_mode (fl : Flags) (point : ShenandoahDegenPoint)
    (vm : VM) (r : Bool × VM)
    (h : check_cancellation_or_degen fl point vm = Except.ok r) :
    r.2.ct.mode = vm.ct.mode := by
  rw [check_cancellation_or_degen_eq] at h
  split_ifs at h <;> cases h <;> rfl

theorem service_concurrent_cycle_mode (fl : Flags) (generation : GenerationMode)
    (cause : Cause) (bootstrap : Bool) (run : ConcurrentGCRun) (vm vm' : VM)
    (h : service_concurrent_cycle fl generation cause bootstrap run vm = Except.ok vm') :
    vm'.ct.mode = vm.ct.mode := by
  unfold service_concurrent_cycle at h
  obtain ⟨r, hr, h⟩ := (bind_ok_iff _ _ _).mp h
  have e1 := check_cancellation_or_degen_mode _ _ _ _ hr
  split_ifs at h
  · rw [pure_ok_iff] at h; subst h; exact e1
  · rw [pure_ok_iff] at h; subst h
    simp only [emit, apply_ops_mode, e1]
  · have h := check_bind_ok _ _ _ _ _ h
    obtain ⟨r2, hr2, h⟩ := (bind_ok_iff _ _ _).mp h
    have e2 := check_cancellation_or_degen_mode _ _ _ _ hr2
    have h := check_bind_ok _ _ _ _ _ h
    rw [pure_ok_iff] at h; subst h
    simp only [e2, emit, apply_ops_mode, e1]

theorem resume_concurrent_old_cycle_mode (fl : Flags) (cause : Cause) (run : OldGCRun)
    (vm vm' : VM) (h : resume_concurrent_old_cycle fl cause run vm = Except.ok vm') :
    vm'.ct.mode = vm.ct.mode := by
  unfold resume_concurrent_old_cycle at h
  have h := check_bind_ok _ _ _ _ _ h
  simp only at h
  split_ifs at h
  · obtain ⟨r, hr, h⟩ := (bind_ok_iff _ _ _).mp h
    have e1 := check_cancellation_or_degen_mode _ _ _ _ hr
    rw [pure_ok_iff] at h; subst h
    simp only [e1, emit, apply_ops_mode]
  · rw [pure_ok_iff] at h; subst h
    simp only [emit, apply_ops_mode]

theorem service_concurrent_normal_cycle_mode (fl : Flags) (generation : GenerationMode)
    (cause : Cause) (inp : IterationInput) (vm vm' : VM)
    (h : service_concurrent_normal_cycle fl generation cause inp vm = Except.ok vm') :
    vm'.ct.mode = vm.ct.mode
      ∨ (generation = GenerationMode.OLD ∧ vm'.ct.mode = GCMode.marking_old) := by
  unfold service_concurrent_normal_cycle at h
  cases generation with
  | YOUNG => exact Or.inl (service_concurrent_cycle_mode _ _ _ _ _ _ _ h)
  | GLOBAL => exact Or.inl (service_concurrent_cycle_mode _ _ _ _ _ _ _ h)
  | OLD =>
    simp only [service_concurrent_old_cycle] at h
    have h := check_bind_ok _ _ _ _ _ h
    obtain ⟨v1, hv1, h⟩ := (bind_ok_iff _ _ _).mp h
    have e1 := service_concurrent_cycle_mode _ _ _ _ _ _ _ hv1
    split_ifs at h
    · have e2 := resume_concurrent_old_cycle_mode _ _ _ _ _ h
      rw [set_gc_mode_eq] at e2
      exact Or.inr ⟨rfl, e2⟩
    · rw [pure_ok_iff] at h; subst h; exact Or.inl e1

theorem dispatch_cycle_mode (fl : Flags) (inp : IterationInput) (sel : Selection)
    (age_period : Nat) (vm : VM) (r : GenerationMode × Nat × VM)
    (h : dispatch_cycle fl inp sel age_period vm = Except.ok r) :
    r.2.2.ct.mode = vm.ct.mode
      ∨ (vm.ct.mode = GCMode.concurrent_normal ∧ sel.generation = GenerationMode.OLD
          ∧ r.2.2.ct.mode = GCMode.marking_old) := by
  unfold dispatch_cycle at h
  split at h
  · rename_i hm
    obtain ⟨v1, hv1, h⟩ := (bind_ok_iff _ _ _).mp h
    rw [pure_ok_iff] at h; subst h
    have ea : (update_aging fl sel.generation age_period vm).2.ct.mode = vm.ct.mode := by
      unfold update_aging
      split_ifs <;> rfl
    rcases service_concurrent_normal_cycle_mode _ _ _ _ _ _ hv1 with e | ⟨e1, e2⟩
    · exact Or.inl (e.trans ea)
    · exact Or.inr ⟨hm, e1, e2⟩
  · obtain ⟨v1, hv1, h⟩ := (bind_ok_iff _ _ _).mp h
    rw [pure_ok_iff] at h; subst h
    unfold service_stw_degenerated_cycle at hv1
    have hv1 := check_bind_ok _ _ _ _ _ hv1
    split at hv1
    · cases hv1
    · rw [pure_ok_iff] at hv1; subst hv1
      exact Or.inl (by simp only [emit, apply_ops_mode])
  · rw [pure_ok_iff] at h; subst h
    exact Or.inl (by simp only [service_stw_full_cycle, emit, apply_ops_mode])
  · have h := check_bind_ok _ _ _ _ _ h
    obtain ⟨v1, hv1, h⟩ := (bind_ok_iff _ _ _).mp h
    rw [pure_ok_iff] at h; subst h
    exact Or.inl (resume_concurrent_old_cycle_mode _ _ _ _ _ hv1)
  · cases h

theorem notify_and_retract_mode (snap : Snapshot) (vm : VM) :
    (notify_and_retract snap vm).ct.mode = vm.ct.mode := by
  simp only [notify_and_retract, set_forced_counters_update, handle_force_counters_update,
    notify_alloc_failure_waiters, notify_gc_waiters, emit]
  split_ifs <;> rfl

theorem run_cycle_mode (fl : Flags) (inp : IterationInput) (snap : Snapshot) (sel : Selection)
    (age_period : Nat) (vm : VM) (r : GenerationMode × Nat × VM)
    (h : run_cycle fl inp snap sel age_period vm = Except.ok r) :
    r.2.2.ct.mode = vm.ct.mode
      ∨ (vm.ct.mode = GCMode.concurrent_normal ∧ sel.generation = GenerationMode.OLD
          ∧ r.2.2.ct.mode = GCMode.marking_old) := by
  unfold run_cycle at h
  obtain ⟨r1, hr1, h⟩ := (bind_ok_iff _ _ _).mp h
  obtain ⟨v2, hv2, h⟩ := (bind_ok_iff _ _ _).mp h
  rw [pure_ok_iff] at h; subst h
  have e2 : v2.ct.mode = r1.2.2.ct.mode := by
    unfold finish_cycle at hv2
    split at hv2
    · have hv2 := check_bind_ok _ _ _ _ _ hv2
      rw [pure_ok_iff] at hv2; subst hv2
      exact notify_and_retract_mode _ _
    · rw [pure_ok_iff] at hv2; subst hv2
      exact notify_and_retract_mode _ _
  rcases dispatch_cycle_mode _ _ _ _ _ _ hr1 with e | ⟨e1, e3, e4⟩
  · exact Or.inl (e2.trans e)
  · exact Or.inr ⟨e1, e3, e2.trans e4⟩

theorem run_shrink_ct (fl : Flags) (snap : Snapshot) (soft_max_changed : Bool)
    (current last : ℚ) (vm : VM) :
    (run_shrink fl snap soft_max_changed current last vm).2.ct = vm.ct
      ∧ (run_shrink fl snap soft_max_changed current last vm).2.heap = vm.heap := by
  simp only [run_shrink, service_uncommit, emit]
  split_ifs <;> exact ⟨rfl, rfl⟩

theorem end_of_iteration_mode (inp : IterationInput) (vm : VM) :
    (end_of_iteration inp vm).ct.mode = vm.ct.mode := by
  simp only [end_of_iteration, apply_ops_mode, emit]
  split_ifs <;> rfl

theorem run_remainder_mode (fl : Flags) (inp : IterationInput) (loc : Locals)
    (snap : Snapshot) (soft_max_changed : Bool) (sel : Selection) (vm : VM) (r : Locals × VM)
    (h : run_remainder fl inp loc snap soft_max_changed sel vm = Except.ok r) :
    r.2.ct.mode = vm.ct.mode
      ∨ (vm.ct.mode = GCMode.concurrent_normal ∧ sel.generation = GenerationMode.OLD
          ∧ r.2.ct.mode = GCMode.marking_old) := by
  unfold run_remainder at h
  simp only at h
  have h := check_bind_ok _ _ _ _ _ h
  obtain ⟨c, hc, h⟩ := (bind_ok_iff _ _ _).mp h
  rw [pure_ok_iff] at h; subst h
  simp only [end_of_iteration_mode, (run_shrink_ct _ _ _ _ _ _).1]
  rw [blow_soft_refs_ct, apply_ops_mode] at hc
  have e0 : (blow_soft_refs fl snap sel (apply_ops inp.before_cycle vm)).ct.mode
      = vm.ct.mode := by
    rw [blow_soft_refs_ct, apply_ops_mode]
  split_ifs at hc
  · rcases run_cycle_mode _ _ _ _ _ _ _ hc with e | ⟨e1, e2, e3⟩
    · exact Or.inl (e.trans e0)
    · exact Or.inr ⟨e1.symm.trans e0 ▸ rfl, e2, e3⟩
  · rw [pure_ok_iff] at hc; subst hc
    exact Or.inl e0
/-- C16 as stated fails: the iteration that serves a user request on the idle machine reaches
its bounded wait with the mode still concurrent_normal, and a request of the regulator
issued during that wait is turned down. -/
theorem C16_mode_none_at_wait_counterexample :
    ∃ r, run_service_iteration Flags.sample IterationInput.quiet (Locals.init 0)
          (post_requested_gc Cause.user_requested VM.init) = Except.ok r
      ∧ r.2.trace.getLast? = some Event.control_wait
      ∧ r.2.ct.mode = GCMode.concurrent_normal
      ∧ r.2.ct.mode ≠ GCMode.none
      ∧ request_concurrent_gc GenerationMode.YOUNG r.2 = (false, r.2) :=
  ⟨_, rfl, rfl, rfl, by decide, rfl⟩

/-- C16 as amended: the mode is reset to none only at the head of the selection block.  At
the end of an iteration, the bounded wait included, the mode is the one the selection block
chose, or marking_old after a concurrent_normal cycle on OLD went on to resume old marking;
so it is none exactly when the iteration selected none, and after an iteration that ran a
cycle `request_concurrent_gc` sees a mode other than none: it accepts a request only by
preempting. -/
theorem C16_mode_at_wait (fl : Flags) (inp : IterationInput) (loc : Locals) (vm : VM)
    (r : Locals × VM) (h : run_service_iteration fl inp loc vm = Except.ok r) :
    ∃ s, run_selection fl inp loc vm = Except.ok s
      ∧ (r.2.ct.mode = s.vm.ct.mode
          ∨ (s.vm.ct.mode = GCMode.concurrent_normal ∧ s.sel.generation = GenerationMode.OLD
              ∧ r.2.ct.mode = GCMode.marking_old))
      ∧ (r.2.ct.mode = GCMode.none ↔ s.vm.ct.mode = GCMode.none)
      ∧ (s.vm.ct.mode ≠ GCMode.none →
          ∀ generation, (request_concurrent_gc generation r.2).1 = true →
            generation = GenerationMode.YOUNG ∧ r.2.ct.allow_old_preemption = true
              ∧ (request_concurrent_gc generation r.2).2.ct.preemption_requested = true) := by
  unfold run_service_iteration at h
  obtain ⟨s, hs, h⟩ := (bind_ok_iff _ _ _).mp h
  have hmode := run_remainder_mode _ _ _ _ _ _ _ _ h
  have hiff : r.2.ct.mode = GCMode.none ↔ s.vm.ct.mode = GCMode.none := by
    rcases hmode with e | ⟨e1, _, e3⟩
    · rw [e]
    · rw [e1, e3]
      constructor <;> intro hc <;> cases hc
  refine ⟨s, hs, hmode, hiff, ?_⟩
  intro hne generation
  have hne2 : r.2.ct.mode ≠ GCMode.none := fun hc => hne (hiff.mp hc)
  rw [request_concurrent_gc_eq]
  by_cases h1 : r.2.ct.preemption_requested = true ∨ r.2.ct.gc_requested = true
      ∨ r.2.heap.cancelled_gc = true
  · rw [if_pos h1]
    intro hc; cases hc
  · rw [if_neg h1, if_neg hne2]
    by_cases h3 : generation = GenerationMode.YOUNG ∧ r.2.ct.allow_old_preemption = true
    · rw [if_pos h3]
      intro _
      exact ⟨h3.1, h3.2, rfl⟩
    · rw [if_neg h3]
      intro hc; cases hc

/-- C16 as amended, at the iteration that serves a user request on the idle machine. -/
theorem C16_mode_at_wait_witness :
    ∃ r s, run_service_iteration Flags.sample IterationInput.quiet (Locals.init 0)
          (post_requested_gc Cause.user_requested VM.init) = Except.ok r
      ∧ run_selection Flags.sample IterationInput.quiet (Locals.init 0)
          (post_requested_gc Cause.user_requested VM.init) = Except.ok s
      ∧ s.vm.ct.mode = GCMode.concurrent_normal
      ∧ (r.2.ct.mode = GCMode.none ↔ s.vm.ct.mode = GCMode.none) := by
  obtain ⟨s, hs, _, h2, _⟩ :=
    C16_mode_at_wait Flags.sample IterationInput.quiet (Locals.init 0)
      (post_requested_gc Cause.user_requested VM.init) _ rfl
  have hs2 : run_selection Flags.sample IterationInput.quiet (Locals.init 0)
      (post_requested_gc Cause.user_requested VM.init) = Except.ok _ := rfl
  have e : s = _ := Except.ok.inj (hs.symm.trans hs2)
  subst e
  exact ⟨_, _, rfl, rfl, rfl, h2⟩
theorem apply_op_soft_ref_policy (op : ThreadOp) (vm : VM) (hop : keeps_soft_ref_policy op) :
    (apply_op op vm).heap.should_clear_all_soft_refs = vm.heap.should_clear_all_soft_refs := by
  cases op with
  | heap_update f => exact hop vm.heap
  | request_concurrent_gc generation =>
    simp only [apply_op]
    rw [request_concurrent_gc_eq]
    split_ifs <;> rfl
  | _ =>
    first
    | rfl
    | (simp only [apply_op, handle_alloc_failure, handle_alloc_failure_evac,
        try_set_alloc_failure_gc, cancel_gc, emit, notify_heap_changed]
       split_ifs <;> rfl)

theorem apply_ops_soft_ref_policy (ops : List ThreadOp) (vm : VM)
    (hops : ∀ op ∈ ops, keeps_soft_ref_policy op) :
    (apply_ops ops vm).heap.should_clear_all_soft_refs
      = vm.heap.should_clear_all_soft_refs := by
  unfold apply_ops
  induction ops generalizing vm with
  | nil => rfl
  | cons op ops ih =>
    rw [List.foldl_cons, ih _ (fun o ho => hops o (List.mem_cons_of_mem _ ho)),
      apply_op_soft_ref_policy op vm (hops op (List.mem_cons_self _ _))]

theorem run_cycle_retracts (fl : Flags) (inp : IterationInput) (snap : Snapshot)
    (sel : Selection) (age_period : Nat) (vm : VM) (r : GenerationMode × Nat × VM)
    (h : run_cycle fl inp snap sel age_period vm = Except.ok r) :
    r.2.2.heap.should_clear_all_soft_refs = false := by
  unfold run_cycle at h
  obtain ⟨r1, _, h⟩ := (bind_ok_iff _ _ _).mp h
  obtain ⟨v2, hv2, h⟩ := (bind_ok_iff _ _ _).mp h
  rw [pure_ok_iff] at h; subst h
  unfold finish_cycle at hv2
  split at hv2
  · have hv2 := check_bind_ok _ _ _ _ _ hv2
    rw [pure_ok_iff] at hv2; subst hv2
    rfl
  · rw [pure_ok_iff] at hv2; subst hv2
    rfl

theorem end_of_iteration_soft_ref_policy (inp : IterationInput) (vm : VM)
    (hops : ∀ op ∈ inp.during_wait, keeps_soft_ref_policy op) :
    (end_of_iteration inp vm).heap.should_clear_all_soft_refs
      = vm.heap.should_clear_all_soft_refs := by
  simp only [end_of_iteration]
  rw [apply_ops_soft_ref_policy _ _ hops]
  simp only [emit]
  split_ifs <;> rfl

/-- C17 as stated fails: with ShenandoahAlwaysClearSoftRefs set, an iteration of the idle
machine selects none, forces the policy (the carried generation is GLOBAL) and reaches its
wait without retracting it. -/
theorem C17_soft_refs_retracted_counterexample :
    ∃ r, run_service_iteration Flags.always_clear IterationInput.quiet (Locals.init 0) VM.init
          = Except.ok r
      ∧ VM.init.heap.should_clear_all_soft_refs = false
      ∧ r.2.ct.mode = GCMode.none
      ∧ r.2.trace = [Event.control_wait]
      ∧ r.2.heap.should_clear_all_soft_refs = true :=
  ⟨_, rfl, rfl, rfl, rfl, rfl⟩

theorem check_soft_max_changed_soft_ref_policy (n : Nat) (vm : VM) :
    (check_soft_max_changed n vm).2.heap.should_clear_all_soft_refs
      = vm.heap.should_clear_all_soft_refs := by
  simp only [check_soft_max_changed]
  split_ifs <;> rfl

theorem select_mode_soft_ref_policy (fl : Flags) (hs : Heuristics) (snap : Snapshot)
    (generation : GenerationMode) (vm : VM) (r : Selection × VM)
    (h : select_mode fl hs snap generation vm = Except.ok r) :
    r.2.heap.should_clear_all_soft_refs = vm.heap.should_clear_all_soft_refs := by
  unfold select_mode at h
  simp only at h
  split_ifs at h
  · cases hg : resumed_generation (set_gc_mode GCMode.none vm) with
    | none =>
      obtain ⟨f, hf⟩ := select_alloc_failure_null fl hs _ hg
      rw [hf] at h
      cases h
    | some g =>
      rw [select_alloc_failure_eq fl hs _ g hg] at h
      cases h
      rw [set_gc_mode_eq]
  · rw [pure_ok_iff] at h; subst h
    simp only [select_requested, set_gc_mode_eq, set_unload_classes]
    split_ifs <;> rfl
  · rw [pure_ok_iff] at h; subst h
    simp only [select_requested, set_gc_mode_eq, set_unload_classes]
    split_ifs <;> rfl
  · rw [pure_ok_iff] at h; subst h
    simp only [select_regulator, set_gc_mode_eq, set_unload_classes]
    split_ifs <;> rfl

/-- The head of an iteration does not write the soft-reference policy. -/
theorem run_selection_soft_ref_policy (fl : Flags) (inp : IterationInput) (loc : Locals)
    (vm : VM) (s : Selected) (h : run_selection fl inp loc vm = Except.ok s) :
    s.vm.heap.should_clear_all_soft_refs = vm.heap.should_clear_all_soft_refs := by
  unfold run_selection at h
  obtain ⟨r, hr, h⟩ := (bind_ok_iff _ _ _).mp h
  rw [pure_ok_iff] at h; subst h
  simp only
  rw [select_mode_soft_ref_policy _ _ _ _ _ _ hr, check_soft_max_changed_soft_ref_policy]

/-- An iteration that selected a mode other than none enters the `switch (_mode)` in the
state `cycle_entry`, and ends in the state the `switch` returned, after the updates that
follow it, the shrink step and the wait. -/
theorem run_remainder_cycle (fl : Flags) (inp : IterationInput) (loc : Locals) (s : Selected)
    (r : Locals × VM)
    (h : run_remainder fl inp loc s.snap s.soft_max_changed s.sel s.vm = Except.ok r)
    (hm : s.vm.ct.mode ≠ GCMode.none) :
    ∃ d, dispatch_cycle fl inp s.sel loc.age_period (cycle_entry fl inp s) = Except.ok d
      ∧ r.2 = end_of_iteration inp
          (run_shrink fl s.snap s.soft_max_changed inp.current loc.last_shrink_time
            (notify_and_retract s.snap d.2.2)).2 := by
  unfold run_remainder at h
  simp only at h
  have h := check_bind_ok _ _ _ _ _ h
  obtain ⟨c, hc, h⟩ := (bind_ok_iff _ _ _).mp h
  rw [pure_ok_iff] at h; subst h
  rw [blow_soft_refs_ct, apply_ops_mode] at hc
  have hm2 : (s.vm.ct.mode != GCMode.none) = true := by simpa using hm
  rw [if_pos hm2] at hc
  unfold run_cycle at hc
  obtain ⟨d, hd, hc⟩ := (bind_ok_iff _ _ _).mp hc
  obtain ⟨v2, hv2, hc⟩ := (bind_ok_iff _ _ _).mp hc
  rw [pure_ok_iff] at hc; subst hc
  refine ⟨d, hd, ?_⟩
  have e2 : v2 = notify_and_retract s.snap d.2.2 := by
    unfold finish_cycle at hv2
    split at hv2
    · have hv2 := check_bind_ok _ _ _ _ _ hv2
      rw [pure_ok_iff] at hv2
      exact hv2.symm
    · rw [pure_ok_iff] at hv2
      exact hv2.symm
  rw [e2]

/-- C17 as amended: the iteration forces the policy exactly when, after the selection block,
generation is GLOBAL and an allocation failure, an explicit request or an implicit request
is in the snapshot or ShenandoahAlwaysClearSoftRefs is set, and otherwise leaves it as it
is: the head of the iteration does not write the policy, and the state in which the
`switch (_mode)` of the iteration is entered has the policy on under that condition and as
the iteration found it otherwise.  An iteration that selected a mode other than none runs
its cycle from that state and retracts the policy after it, for every configuration, so it
ends with the policy off; an iteration that selected none does not retract, and ends with
the policy as forced or found. -/
theorem C17_soft_refs_for_one_cycle (fl : Flags) (inp : IterationInput) (loc : Locals)
    (vm : VM) (r : Locals × VM) (h : run_service_iteration fl inp loc vm = Except.ok r)
    (hwait : ∀ op ∈ inp.during_wait, keeps_soft_ref_policy op) :
    (∀ (snap : Snapshot) (sel : Selection) (v : VM),
        (blows_soft_refs fl snap sel = true →
          (blow_soft_refs fl snap sel v).heap.should_clear_all_soft_refs = true)
        ∧ (blows_soft_refs fl snap sel = false → blow_soft_refs fl snap sel v = v))
    ∧ ∃ s, run_selection fl inp loc vm = Except.ok s
      ∧ (s.vm.ct.mode ≠ GCMode.none → r.2.heap.should_clear_all_soft_refs = false)
      ∧ (s.vm.ct.mode = GCMode.none →
          r.2.heap.should_clear_all_soft_refs
            = (blow_soft_refs fl s.snap s.sel
                (apply_ops inp.before_cycle s.vm)).heap.should_clear_all_soft_refs)
      ∧ s.vm.heap.should_clear_all_soft_refs = vm.heap.should_clear_all_soft_refs
      ∧ (blows_soft_refs fl s.snap s.sel = true →
          (cycle_entry fl inp s).heap.should_clear_all_soft_refs = true)
      ∧ (blows_soft_refs fl s.snap s.sel = false →
          (cycle_entry fl inp s).heap.should_clear_all_soft_refs
            = (apply_ops inp.before_cycle s.vm).heap.should_clear_all_soft_refs)
      ∧ (s.vm.ct.mode ≠ GCMode.none →
          ∃ d, dispatch_cycle fl inp s.sel loc.age_period (cycle_entry fl inp s)
              = Except.ok d
            ∧ r.2 = end_of_iteration inp
                (run_shrink fl s.snap s.soft_max_changed inp.current loc.last_shrink_time
                  (notify_and_retract s.snap d.2.2)).2) := by
  have hblow : ∀ (snap : Snapshot) (sel : Selection) (v : VM),
      (blows_soft_refs fl snap sel = true →
        (blow_soft_refs fl snap sel v).heap.should_clear_all_soft_refs = true)
      ∧ (blows_soft_refs fl snap sel = false → blow_soft_refs fl snap sel v = v) := by
    intro snap sel v
    unfold blow_soft_refs blows_soft_refs
    constructor
    · intro hb
      rw [if_pos hb]
    · intro hb
      rw [if_neg (by rw [hb]; simp)]
  refine ⟨hblow, ?_⟩
  unfold run_service_iteration at h
  obtain ⟨s, hs, h⟩ := (bind_ok_iff _ _ _).mp h
  have hentry : (cycle_entry fl inp s).heap.should_clear_all_soft_refs
      = (blow_soft_refs fl s.snap s.sel
          (apply_ops inp.before_cycle s.vm)).heap.should_clear_all_soft_refs := rfl
  refine ⟨s, hs, ?_, ?_, run_selection_soft_ref_policy _ _ _ _ _ hs, ?_, ?_,
    fun hne => run_remainder_cycle _ _ _ _ _ h hne⟩
  · intro hne
    unfold run_remainder at h
    simp only at h
    have h := check_bind_ok _ _ _ _ _ h
    obtain ⟨c, hc, h⟩ := (bind_ok_iff _ _ _).mp h
    rw [pure_ok_iff] at h; subst h
    rw [blow_soft_refs_ct, apply_ops_mode] at hc
    have hm2 : (s.vm.ct.mode != GCMode.none) = true := by simpa using hne
    rw [if_pos hm2] at hc
    simp only
    rw [end_of_iteration_soft_ref_policy _ _ hwait, (run_shrink_ct _ _ _ _ _ _).2]
    exact run_cycle_retracts _ _ _ _ _ _ _ hc
  · intro hm
    unfold run_remainder at h
    simp only at h
    have h := check_bind_ok _ _ _ _ _ h
    obtain ⟨c, hc, h⟩ := (bind_ok_iff _ _ _).mp h
    rw [pure_ok_iff] at h; subst h
    rw [blow_soft_refs_ct, apply_ops_mode] at hc
    have hm2 : ¬ (s.vm.ct.mode != GCMode.none) = true := by simp [hm]
    rw [if_neg hm2, pure_ok_iff] at hc
    subst hc
    simp only
    rw [end_of_iteration_soft_ref_policy _ _ hwait, (run_shrink_ct _ _ _ _ _ _).2]
  · intro hb
    rw [hentry]
    exact (hblow _ _ _).1 hb
  · intro hb
    rw [hentry, (hblow _ _ _).2 hb]

/-- C17 as amended, at the fourth scenario of the specification: explicit GC with concurrent
explicit GC disabled selects stw_full on GLOBAL, forces the policy for the cycle (the
`switch` is entered with the policy on, and the full collection runs), and ends with the
policy off. -/
theorem C17_soft_refs_for_one_cycle_witness :
    ∃ r s, run_service_iteration { Flags.sample with ExplicitGCInvokesConcurrent := false }
          IterationInput.quiet (Locals.init 0) (post_requested_gc Cause.user_requested VM.init)
          = Except.ok r
      ∧ run_selection { Flags.sample with ExplicitGCInvokesConcurrent := false }
          IterationInput.quiet (Locals.init 0) (post_requested_gc Cause.user_requested VM.init)
          = Except.ok s
      ∧ s.vm.ct.mode = GCMode.stw_full
      ∧ s.sel.generation = GenerationMode.GLOBAL
      ∧ (blow_soft_refs { Flags.sample with ExplicitGCInvokesConcurrent := false } s.snap s.sel
          s.vm).heap.should_clear_all_soft_refs = true
      ∧ r.2.heap.should_clear_all_soft_refs = false
      ∧ (cycle_entry { Flags.sample with ExplicitGCInvokesConcurrent := false }
          IterationInput.quiet s).heap.should_clear_all_soft_refs = true
      ∧ r.2.trace = [Event.notify_control_thread, Event.full_collect Cause.user_requested,
          Event.notify_gc_waiters, Event.control_wait] := by
  obtain ⟨_, s, hs, h1, _, _, h5, _⟩ :=
    C17_soft_refs_for_one_cycle { Flags.sample with ExplicitGCInvokesConcurrent := false }
      IterationInput.quiet (Locals.init 0) (post_requested_gc Cause.user_requested VM.init)
      _ rfl (by intro op hop; cases hop)
  have hs2 : run_selection { Flags.sample with ExplicitGCInvokesConcurrent := false }
      IterationInput.quiet (Locals.init 0) (post_requested_gc Cause.user_requested VM.init)
      = Except.ok _ := rfl
  have e : s = _ := Except.ok.inj (hs.symm.trans hs2)
  subst e
  exact ⟨_, _, rfl, rfl, rfl, rfl, rfl, h1 (by decide), h5 rfl, rfl⟩

/-- C18, the code at the failing input: an explicit request and an allocation failure are both
pending on a generational heap; the allocation failure takes precedence, the iteration runs
a degenerated cycle on YOUNG and no other, and it then notifies the GC waiters with `gc_id`
advanced, so the requester blocked in `handle_requested_gc` returns although no cycle
targeted GLOBAL. -/
theorem C18_waiters_notified_after_young_cycle :
    ∃ r s, run_service_iteration Flags.sample IterationInput.quiet (Locals.init 0)
          VM.request_and_alloc_failure = Except.ok r
      ∧ run_selection Flags.sample IterationInput.quiet (Locals.init 0)
          VM.request_and_alloc_failure = Except.ok s
      ∧ s.snap.explicit_gc_requested = true
      ∧ s.snap.alloc_failure_pending = true
      ∧ s.vm.ct.mode = GCMode.stw_degenerated
      ∧ s.sel.generation = GenerationMode.YOUNG
      ∧ r.2.trace =
          [Event.notify_control_thread,
           Event.degen_collect ShenandoahDegenPoint.degenerated_outside_cycle
             GenerationMode.YOUNG Cause.allocation_failure,
           Event.notify_gc_waiters,
           Event.notify_alloc_failure_waiters,
           Event.control_wait]
      ∧ r.2.ct.gc_id = 1
      ∧ r.2.ct.gc_requested = false
      ∧ (handle_requested_gc Cause.user_requested
          [iteration_state Flags.sample IterationInput.quiet (Locals.init 0)
            ∘ handle_alloc_failure] VM.init).returned = some r.2 :=
  ⟨_, _, rfl, rfl, rfl, rfl, rfl, rfl, rfl, rfl, rfl, rfl⟩

theorem clamp_to_eq (lo hi n : Nat) (h : lo ≤ hi) : min hi (max lo n) = clamp_to lo hi n := by
  unfold clamp_to
  split_ifs with h1 h2
  · rw [max_eq_left (le_of_lt h1), min_eq_right h]
  · rw [max_eq_right (not_lt.mp h1), min_eq_left (le_of_lt h2)]
  · rw [max_eq_right (not_lt.mp h1), min_eq_right (not_lt.mp h2)]

theorem clamp_to_mem (lo hi n : Nat) (h : lo ≤ hi) :
    lo ≤ clamp_to lo hi n ∧ clamp_to lo hi n ≤ hi := by
  unfold clamp_to
  split_ifs with h1 h2
  · exact ⟨le_refl _, h⟩
  · exact ⟨h, le_refl _⟩
  · exact ⟨not_lt.mp h1, not_lt.mp h2⟩

theorem clamp_to_of_mem (lo hi n : Nat) (h1 : lo ≤ n) (h2 : n ≤ hi) : clamp_to lo hi n = n := by
  unfold clamp_to
  rw [if_neg (not_lt.mpr h1), if_neg (not_lt.mpr h2)]

theorem check_soft_max_changed_eq (n : Nat) (vm : VM)
    (h : vm.heap.min_capacity ≤ vm.heap.max_capacity) :
    check_soft_max_changed n vm =
      if n ≠ vm.heap.soft_max_capacity
          ∧ clamp_to vm.heap.min_capacity vm.heap.max_capacity n ≠ vm.heap.soft_max_capacity
      then (true, { vm with heap := { vm.heap with
              soft_max_capacity := clamp_to vm.heap.min_capacity vm.heap.max_capacity n } })
      else (false, vm) := by
  unfold check_soft_max_changed
  simp only [clamp_to_eq _ _ n h]
  by_cases h1 : n ≠ vm.heap.soft_max_capacity
  · by_cases h2 : clamp_to vm.heap.min_capacity vm.heap.max_capacity n
        ≠ vm.heap.soft_max_capacity
    · rw [if_pos h1, if_pos h2, if_pos ⟨h1, h2⟩]
    · rw [if_pos h1, if_neg h2, if_neg (fun hh => h2 hh.2)]
  · rw [if_neg h1, if_neg (fun hh => h1 hh.1)]

/-- C19 as stated fails: on a heap with min 2 GiB and max 16 GiB whose soft max is 1 GiB, a
SoftMaxHeapSize of 1 GiB clamps to 2 GiB, which differs from the current soft max, yet
`check_soft_max_changed` returns false and leaves the soft max at 1 GiB. -/
theorem C19_soft_max_clamped_counterexample :
    VM.soft_max_below_min.heap.min_capacity ≤ VM.soft_max_below_min.heap.max_capacity
    ∧ clamp_to VM.soft_max_below_min.heap.min_capacity
        VM.soft_max_below_min.heap.max_capacity (2 ^ 30) = 2 * 2 ^ 30
    ∧ VM.soft_max_below_min.heap.soft_max_capacity = 2 ^ 30
    ∧ (check_soft_max_changed (2 ^ 30) VM.soft_max_below_min).1 = false
    ∧ (check_soft_max_changed (2 ^ 30) VM.soft_max_below_min).2.heap.soft_max_capacity
        = 2 ^ 30 := by
  refine ⟨by decide, by decide, rfl, by decide, by decide⟩

/-- C19 as amended: for min_capacity <= max_capacity and every SoftMaxHeapSize value,
`check_soft_max_changed` returns true exactly when the value differs from the heap's current
soft max and the value clamped to [min_capacity, max_capacity] differs from it as well; when
the current soft max lies in [min_capacity, max_capacity] that is exactly when the clamped
value differs from it; when it returns true the soft max becomes the clamped value, which
lies in [min_capacity, max_capacity], and nothing else changes; when it returns false the
state is unchanged. -/
theorem C19_soft_max_clamped (n : Nat) (vm : VM)
    (h : vm.heap.min_capacity ≤ vm.heap.max_capacity) :
    ((check_soft_max_changed n vm).1 = true ↔
        (n ≠ vm.heap.soft_max_capacity
          ∧ clamp_to vm.heap.min_capacity vm.heap.max_capacity n
              ≠ vm.heap.soft_max_capacity))
    ∧ (vm.heap.min_capacity ≤ vm.heap.soft_max_capacity →
        vm.heap.soft_max_capacity ≤ vm.heap.max_capacity →
        ((check_soft_max_changed n vm).1 = true ↔
          clamp_to vm.heap.min_capacity vm.heap.max_capacity n
            ≠ vm.heap.soft_max_capacity))
    ∧ ((check_soft_max_changed n vm).1 = true →
        (check_soft_max_changed n vm).2 =
            { vm with heap := { vm.heap with
              soft_max_capacity := clamp_to vm.heap.min_capacity vm.heap.max_capacity n } }
          ∧ vm.heap.min_capacity ≤ (check_soft_max_changed n vm).2.heap.soft_max_capacity
          ∧ (check_soft_max_changed n vm).2.heap.soft_max_capacity ≤ vm.heap.max_capacity)
    ∧ ((check_soft_max_changed n vm).1 = false → (check_soft_max_changed n vm).2 = vm) := by
  have hiff : (check_soft_max_changed n vm).1 = true ↔
      (n ≠ vm.heap.soft_max_capacity
        ∧ clamp_to vm.heap.min_capacity vm.heap.max_capacity n
            ≠ vm.heap.soft_max_capacity) := by
    rw [check_soft_max_changed_eq n vm h]
    split_ifs with hc
    · exact ⟨fun _ => hc, fun _ => rfl⟩
    · exact ⟨fun hh => (by cases hh), fun hh => absurd hh hc⟩
  refine ⟨hiff, ?_, ?_, ?_⟩
  · intro hlo hhi
    rw [hiff]
    constructor
    · exact fun hh => hh.2
    · intro hh
      refine ⟨?_, hh⟩
      intro hn
      apply hh
      rw [hn, clamp_to_of_mem _ _ _ hlo hhi]
  · intro ht
    have hc := hiff.mp ht
    rw [check_soft_max_changed_eq n vm h, if_pos hc]
    exact ⟨rfl, (clamp_to_mem _ _ n h).1, (clamp_to_mem _ _ n h).2⟩
  · intro hf
    have hc : ¬ (n ≠ vm.heap.soft_max_capacity
        ∧ clamp_to vm.heap.min_capacity vm.heap.max_capacity n
            ≠ vm.heap.soft_max_capacity) := by
      intro hh
      rw [hiff.mpr hh] at hf
      cases hf
    rw [check_soft_max_changed_eq n vm h, if_neg hc]

/-- C19 as amended, at the example of the specification: on the heap with min 2 GiB, max
16 GiB and soft max 8 GiB, a SoftMaxHeapSize of 4 GiB returns true and sets 4 GiB. -/
theorem C19_soft_max_clamped_witness :
    VM.init.heap.min_capacity = 2 * 2 ^ 30
    ∧ VM.init.heap.max_capacity = 16 * 2 ^ 30
    ∧ VM.init.heap.soft_max_capacity = 8 * 2 ^ 30
    ∧ (check_soft_max_changed (4 * 2 ^ 30) VM.init).1 = true
    ∧ (check_soft_max_changed (4 * 2 ^ 30) VM.init).2.heap.soft_max_capacity = 4 * 2 ^ 30 := by
  have hle : VM.init.heap.min_capacity ≤ VM.init.heap.max_capacity := by decide
  have ht : (check_soft_max_changed (4 * 2 ^ 30) VM.init).1 = true :=
    (C19_soft_max_clamped (4 * 2 ^ 30) VM.init hle).1.mpr ⟨by decide, by decide⟩
  have hs := ((C19_soft_max_clamped (4 * 2 ^ 30) VM.init hle).2.2.1 ht).1
  refine ⟨rfl, rfl, rfl, ht, ?_⟩
  rw [hs]
  decide

/-- C20: `service_uncommit` invokes the heap's uncommit, with shrink_before and shrink_until
as it received them, exactly when committed exceeds shrink_until and some region is
empty-committed with empty_time before shrink_before; otherwise, and so whenever committed
is at most shrink_until, it does nothing; it never changes the control thread or the
heap part of the state itself. -/
theorem C20_service_uncommit (shrink_before : ℚ) (shrink_until : Nat) (vm : VM) :
    (uncommit_invoked shrink_before shrink_until vm
        (service_uncommit shrink_before shrink_until vm) ↔
      (shrink_until < vm.heap.committed
        ∧ ∃ r ∈ vm.heap.regions,
            r.is_empty_committed = true ∧ r.empty_time < shrink_before))
    ∧ (¬ (shrink_until < vm.heap.committed
        ∧ ∃ r ∈ vm.heap.regions,
            r.is_empty_committed = true ∧ r.empty_time < shrink_before) →
        service_uncommit shrink_before shrink_until vm = vm)
    ∧ (vm.heap.committed ≤ shrink_until → service_uncommit shrink_before shrink_until vm = vm)
    ∧ (∀ e ∈ (service_uncommit shrink_before shrink_until vm).trace,
        e ∈ vm.trace ∨ e = Event.entry_uncommit shrink_before shrink_until)
    ∧ (service_uncommit shrink_before shrink_until vm).ct = vm.ct
    ∧ (service_uncommit shrink_before shrink_until vm).heap = vm.heap := by
  have hany : (vm.heap.regions.any
      (fun r => r.is_empty_committed && decide (r.empty_time < shrink_before))) = true ↔
      ∃ r ∈ vm.heap.regions, r.is_empty_committed = true ∧ r.empty_time < shrink_before := by
    simp [List.any_eq_true]
  by_cases hc : vm.heap.committed ≤ shrink_until
  · have e : service_uncommit shrink_before shrink_until vm = vm := by
      unfold service_uncommit
      rw [if_pos hc]
    rw [e]
    refine ⟨⟨?_, ?_⟩, fun _ => rfl, fun _ => rfl, fun e he => Or.inl he, rfl, rfl⟩
    · intro hi
      unfold uncommit_invoked at hi
      simp at hi
    · intro hh
      exact absurd hc (not_le.mpr hh.1)
  · by_cases hw : ∃ r ∈ vm.heap.regions,
        r.is_empty_committed = true ∧ r.empty_time < shrink_before
    · have e : service_uncommit shrink_before shrink_until vm
          = emit (Event.entry_uncommit shrink_before shrink_until) vm := by
        unfold service_uncommit
        rw [if_neg hc]
        simp only
        rw [if_pos (hany.mpr hw)]
      rw [e]
      refine ⟨⟨fun _ => ⟨not_le.mp hc, hw⟩, fun _ => rfl⟩, ?_, ?_, ?_, rfl, rfl⟩
      · intro hn
        exact absurd ⟨not_le.mp hc, hw⟩ hn
      · intro hh
        exact absurd hh hc
      · intro ev hev
        simp only [emit, List.mem_append, List.mem_singleton] at hev
        exact hev
    · have e : service_uncommit shrink_before shrink_until vm = vm := by
        unfold service_uncommit
        rw [if_neg hc]
        simp only
        rw [if_neg (fun hh => hw (hany.mp hh))]
      rw [e]
      refine ⟨⟨?_, ?_⟩, fun _ => rfl, fun _ => rfl, fun e he => Or.inl he, rfl, rfl⟩
      · intro hi
        unfold uncommit_invoked at hi
        simp at hi
      · intro hh
        exact absurd hh.2 hw

/-- C20 at a concrete heap: 8 GiB committed, shrink_until 2 GiB, one region empty and
committed since time 5, shrink_before 10: the uncommit is invoked with 10 and 2 GiB; with
shrink_before 5 the region is not old enough and nothing happens. -/
theorem C20_service_uncommit_witness :
    uncommit_invoked 10 (2 * 2 ^ 30) VM.with_empty_region
        (service_uncommit 10 (2 * 2 ^ 30) VM.with_empty_region)
    ∧ service_uncommit 5 (2 * 2 ^ 30) VM.with_empty_region = VM.with_empty_region
    ∧ service_uncommit 10 (8 * 2 ^ 30) VM.with_empty_region = VM.with_empty_region :=
  ⟨(C20_service_uncommit 10 (2 * 2 ^ 30) VM.with_empty_region).1.mpr
      ⟨by decide, _, List.mem_cons_self _ _, rfl, by show (5 : ℚ) < 10; norm_num⟩,
   (C20_service_uncommit 5 (2 * 2 ^ 30) VM.with_empty_region).2.1
      (by
        rintro ⟨_, r, hr, he, ht⟩
        simp only [VM.with_empty_region, List.mem_cons, List.mem_singleton,
          List.mem_nil_iff, or_false] at hr
        rcases hr with hr | hr
        · subst hr
          exact absurd ht (lt_irrefl _)
        · subst hr
          cases he),
   (C20_service_uncommit 10 (8 * 2 ^ 30) VM.with_empty_region).2.2.1 (by decide)⟩

/-- C26: `check_cancellation_or_degen` returns false exactly when the heap is not cancelled;
it never reaches its fatal error unless the heap is cancelled with no graceful shutdown, no
allocation failure pending and no preemption requested; and in a product build, or in a debug
build in a state in which its two assertions hold, it reaches the fatal error exactly in that
case and returns true in every other case of a cancelled heap. -/
theorem C26_cancellation_outcomes (fl : Flags) (point : ShenandoahDegenPoint) (vm : VM) :
    ((∃ vm', check_cancellation_or_degen fl point vm = Except.ok (false, vm'))
        ↔ vm.heap.cancelled_gc = false)
    ∧ (vm.heap.cancelled_gc = false →
        check_cancellation_or_degen fl point vm = Except.ok (false, vm))
    ∧ (check_cancellation_or_degen fl point vm = Except.error Fault.fatal_cancel_reason →
        vm.heap.cancelled_gc = true ∧ vm.ct.graceful_shutdown = false
          ∧ vm.ct.alloc_failure_gc = false ∧ vm.ct.preemption_requested = false)
    ∧ (cancellation_asserts_hold fl vm →
        (check_cancellation_or_degen fl point vm = Except.error Fault.fatal_cancel_reason
          ↔ (vm.heap.cancelled_gc = true ∧ vm.ct.graceful_shutdown = false
              ∧ vm.ct.alloc_failure_gc = false ∧ vm.ct.preemption_requested = false))
        ∧ (vm.heap.cancelled_gc = true →
            (vm.ct.graceful_shutdown = true ∨ vm.ct.alloc_failure_gc = true
              ∨ vm.ct.preemption_requested = true) →
            ∃ vm', check_cancellation_or_degen fl point vm = Except.ok (true, vm'))) := by
  rw [check_cancellation_or_degen_eq]
  unfold cancellation_asserts_hold
  cases hc : vm.heap.cancelled_gc
  · simp
  cases hg : vm.ct.graceful_shutdown
  swap
  · simp
  by_cases hA : fl.ASSERT = true
      ∧ vm.ct.degen_point ≠ ShenandoahDegenPoint.degenerated_outside_cycle
  · have hA1 := hA.1
    have hA2 := hA.2
    simp [hA1, hA2]
  · rw [if_neg (by simp), if_neg (by simp), if_neg hA]
    cases ha : vm.ct.alloc_failure_gc
    swap
    · simp
    cases hq : vm.ct.preemption_requested
    · simp
    · by_cases hy : fl.ASSERT = true ∧ vm.ct.requested_generation ≠ GenerationMode.YOUNG
      · have hy1 := hy.1
        have hy2 := hy.2
        simp [hy1, hy2]
      · rw [if_neg (by simp), if_pos rfl, if_neg hy]
        simp

/-- C26 at concrete states: a heap cancelled for no reason the control thread knows stops the
VM at the fatal error; after `handle_alloc_failure` the call returns true; on the idle
machine it returns false. -/
theorem C26_cancellation_outcomes_witness :
    check_cancellation_or_degen Flags.sample ShenandoahDegenPoint.degenerated_mark
        (cancel_gc Cause.no_gc VM.init) = Except.error Fault.fatal_cancel_reason
    ∧ (∃ vm', check_cancellation_or_degen Flags.sample ShenandoahDegenPoint.degenerated_mark
        (handle_alloc_failure VM.init) = Except.ok (true, vm'))
    ∧ check_cancellation_or_degen Flags.sample ShenandoahDegenPoint.degenerated_mark VM.init
        = Except.ok (false, VM.init) :=
  ⟨((C26_cancellation_outcomes Flags.sample ShenandoahDegenPoint.degenerated_mark
        (cancel_gc Cause.no_gc VM.init)).2.2.2
        (fun _ _ _ => ⟨rfl, fun _ h => by cases h⟩)).1.mpr ⟨rfl, rfl, rfl, rfl⟩,
   ((C26_cancellation_outcomes Flags.sample ShenandoahDegenPoint.degenerated_mark
        (handle_alloc_failure VM.init)).2.2.2
        (fun _ _ _ => ⟨rfl, fun h _ => by cases h⟩)).2 rfl (Or.inr (Or.inl rfl)),
   (C26_cancellation_outcomes Flags.sample ShenandoahDegenPoint.degenerated_mark
        VM.init).2.1 rfl⟩

/-- C30: on a cancelled heap, in a product build or in a state in which the assertions of
`check_cancellation_or_degen` hold: with no graceful shutdown, no allocation failure pending
and a preemption requested, the function clears `_preemption_requested`, stores the point,
clears the heap's cancellation and leaves the OOM state as it was, and returns true; with
graceful shutdown set it returns true and the state is unchanged; with an allocation failure
pending and no shutdown it stores the given point as the degen point, changes nothing else
(the heap stays cancelled), and returns true. -/
theorem C30_cancellation_effects (fl : Flags) (point : ShenandoahDegenPoint) (vm : VM)
    (hc : vm.heap.cancelled_gc = true) (hA : cancellation_asserts_hold fl vm) :
    (vm.ct.graceful_shutdown = false → vm.ct.alloc_failure_gc = false →
      vm.ct.preemption_requested = true →
      ∃ vm', check_cancellation_or_degen fl point vm = Except.ok (true, vm')
        ∧ vm' = clear_cancelled_gc false
            { vm with ct := { vm.ct with preemption_requested := false, degen_point := point } }
        ∧ vm'.ct.preemption_requested = false
        ∧ vm'.heap.cancelled_gc = false
        ∧ vm'.heap.oom_evac_handler = vm.heap.oom_evac_handler)
    ∧ (vm.ct.graceful_shutdown = true →
        check_cancellation_or_degen fl point vm = Except.ok (true, vm))
    ∧ (vm.ct.graceful_shutdown = false → vm.ct.alloc_failure_gc = true →
        ∃ vm', check_cancellation_or_degen fl point vm = Except.ok (true, vm')
          ∧ vm' = { vm with ct := { vm.ct with degen_point := point } }
          ∧ vm'.ct.degen_point = point
          ∧ vm'.heap.cancelled_gc = true) := by
  rw [check_cancellation_or_degen_eq]
  unfold cancellation_asserts_hold at hA
  refine ⟨?_, ?_, ?_⟩
  · intro hg ha hq
    have hA2 : ¬ (fl.ASSERT = true
        ∧ vm.ct.degen_point ≠ ShenandoahDegenPoint.degenerated_outside_cycle) :=
      fun hh => hh.2 (hA hh.1 hc hg).1
    have hA3 : ¬ (fl.ASSERT = true ∧ vm.ct.requested_generation ≠ GenerationMode.YOUNG) :=
      fun hh => hh.2 ((hA hh.1 hc hg).2 ha hq)
    rw [if_neg (by rw [hc]; simp), if_neg (by rw [hg]; simp), if_neg hA2,
      if_neg (by rw [ha]; simp), if_pos hq, if_neg hA3]
    refine ⟨_, rfl, ?_, rfl, rfl, rfl⟩
    simp [clear_cancelled_gc]
  · intro hg
    rw [if_neg (by rw [hc]; simp), if_pos hg]
  · intro hg ha
    have hA2 : ¬ (fl.ASSERT = true
        ∧ vm.ct.degen_point ≠ ShenandoahDegenPoint.degenerated_outside_cycle) :=
      fun hh => hh.2 (hA hh.1 hc hg).1
    rw [if_neg (by rw [hc]; simp), if_neg (by rw [hg]; simp), if_neg hA2, if_pos ha]
    exact ⟨_, rfl, rfl, rfl, hc⟩

/-- C30 at the preempted old marking: the preemption is consumed, the cancellation is cleared,
the OOM state stays set and the regulator's request stays in the inbox. -/
theorem C30_cancellation_effects_witness :
    VM.old_marking_preempted.ct.preemption_requested = true
    ∧ VM.old_marking_preempted.heap.cancelled_gc = true
    ∧ ∃ vm', check_cancellation_or_degen Flags.sample
          ShenandoahDegenPoint.degenerated_outside_cycle VM.old_marking_preempted
          = Except.ok (true, vm')
        ∧ vm'.ct.preemption_requested = false
        ∧ vm'.heap.cancelled_gc = false
        ∧ vm'.heap.oom_evac_handler = true
        ∧ vm'.ct.requested_gc_cause = Cause.shenandoah_concurrent_gc
        ∧ vm'.ct.requested_generation = GenerationMode.YOUNG := by
  obtain ⟨vm', h, e, h1, h2, h3⟩ :=
    (C30_cancellation_effects Flags.sample ShenandoahDegenPoint.degenerated_outside_cycle
      VM.old_marking_preempted rfl (fun _ _ _ => ⟨rfl, fun _ _ => rfl⟩)).1 rfl rfl rfl
  refine ⟨rfl, rfl, vm', h, h1, h2, h3.trans rfl, ?_, ?_⟩
  · rw [e]; rfl
  · rw [e]; rfl

/-! ### Allocation failures: who sets and who clears `_alloc_failure_gc` -/

/-- Closed form of `handle_alloc_failure` up to its wait. -/
theorem handle_alloc_failure_eq (vm : VM) :
    handle_alloc_failure vm =
      if vm.ct.alloc_failure_gc = true then vm
      else cancel_gc Cause.allocation_failure
        { vm with ct := { vm.ct with alloc_failure_gc := true } } := by
  unfold handle_alloc_failure try_set_alloc_failure_gc
  cases h : vm.ct.alloc_failure_gc <;> simp

/-- No operation of another thread clears `_alloc_failure_gc`. -/
theorem apply_op_alloc_failure_kept (op : ThreadOp) (vm : VM)
    (h : vm.ct.alloc_failure_gc = true) : (apply_op op vm).ct.alloc_failure_gc = true := by
  cases op with
  | request_concurrent_gc generation =>
    simp only [apply_op]
    rw [request_concurrent_gc_eq]
    split_ifs <;> exact h
  | handle_alloc_failure =>
    simp only [apply_op]
    rw [handle_alloc_failure_eq, if_pos h]
    exact h
  | handle_alloc_failure_evac =>
    simp only [apply_op, handle_alloc_failure_evac, try_set_alloc_failure_gc, cancel_gc]
    split_ifs
    exact h
  | notify_heap_changed =>
    simp only [apply_op, notify_heap_changed]
    split_ifs <;> exact h
  | _ => exact h

theorem apply_ops_alloc_failure_kept (ops : List ThreadOp) (vm : VM)
    (h : vm.ct.alloc_failure_gc = true) : (apply_ops ops vm).ct.alloc_failure_gc = true := by
  unfold apply_ops
  induction ops generalizing vm with
  | nil => exact h
  | cons op ops ih =>
    rw [List.foldl_cons]
    exact ih _ (apply_op_alloc_failure_kept op vm h)

theorem after_rounds_zero (others : List (VM → VM)) (vm : VM) :
    after_rounds 0 others vm = vm := by
  simp [after_rounds]

theorem after_rounds_succ (k : Nat) (other : VM → VM) (others : List (VM → VM)) (vm : VM) :
    after_rounds (k + 1) (other :: others) vm = after_rounds k others (other vm) := by
  simp [after_rounds]

/-- The wait loop of `handle_alloc_failure` returns only in a state in which the flag is
clear, after as many waits as rounds in which it found the flag set. -/
theorem alloc_failure_wait_loop_returned (others : List (VM → VM)) (vm vm' : VM)
    (h : (alloc_failure_wait_loop others vm).2 = some vm') :
    vm' = after_rounds (alloc_failure_wait_loop others vm).1 others vm
      ∧ vm'.ct.alloc_failure_gc = false
      ∧ (alloc_failure_wait_loop others vm).1 ≤ others.length
      ∧ ∀ j < (alloc_failure_wait_loop others vm).1,
          (after_rounds j others vm).ct.alloc_failure_gc = true := by
  induction others generalizing vm with
  | nil =>
    unfold alloc_failure_wait_loop at h ⊢
    cases hf : is_alloc_failure_gc vm
    · simp only [hf, Bool.false_eq_true, if_false, Option.some.injEq] at h ⊢
      subst h
      refine ⟨(after_rounds_zero _ _).symm, hf, le_refl _, ?_⟩
      intro j hj
      omega
    · simp [hf] at h
  | cons other others ih =>
    unfold alloc_failure_wait_loop at h ⊢
    cases hf : is_alloc_failure_gc vm
    · simp only [hf, Bool.false_eq_true, if_false, Option.some.injEq] at h ⊢
      subst h
      refine ⟨(after_rounds_zero _ _).symm, hf, Nat.zero_le _, ?_⟩
      intro j hj
      omega
    · simp only [hf, if_true] at h ⊢
      obtain ⟨i1, i2, i3, i4⟩ := ih (other vm) h
      refine ⟨?_, i2, ?_, ?_⟩
      · rw [after_rounds_succ]; exact i1
      · simp only [List.length_cons]; omega
      · intro j hj
        cases j with
        | zero => rw [after_rounds_zero]; exact hf
        | succ j =>
          rw [after_rounds_succ]
          exact i4 j (by omega)

/-- While the flag stays set the caller of `handle_alloc_failure` stays in its loop. -/
theorem alloc_failure_wait_loop_blocked (others : List (VM → VM)) (vm : VM)
    (h : ∀ k ≤ others.length, (after_rounds k others vm).ct.alloc_failure_gc = true) :
    alloc_failure_wait_loop others vm = (others.length, none) := by
  induction others generalizing vm with
  | nil =>
    have h0 := h 0 (le_refl _)
    rw [after_rounds_zero] at h0
    simp [alloc_failure_wait_loop, is_alloc_failure_gc, h0]
  | cons other others ih =>
    have h0 := h 0 (Nat.zero_le _)
    rw [after_rounds_zero] at h0
    have hrest : ∀ k ≤ others.length,
        (after_rounds k others (other vm)).ct.alloc_failure_gc = true := by
      intro k hk
      have := h (k + 1) (by simp only [List.length_cons]; omega)
      rw [after_rounds_succ] at this
      exact this
    simp [alloc_failure_wait_loop, is_alloc_failure_gc, h0, ih (other vm) hrest]

/-- Once the flag has been cleared the caller of `handle_alloc_failure` returns. -/
theorem alloc_failure_wait_loop_returns (others : List (VM → VM)) (vm : VM) (k : Nat)
    (hk : k ≤ others.length) (h : (after_rounds k others vm).ct.alloc_failure_gc = false) :
    ∃ vm', (alloc_failure_wait_loop others vm).2 = some vm' := by
  induction others generalizing vm k with
  | nil =>
    have hk0 : k = 0 := by simpa using hk
    subst hk0
    rw [after_rounds_zero] at h
    exact ⟨vm, by simp [alloc_failure_wait_loop, is_alloc_failure_gc, h]⟩
  | cons other others ih =>
    cases hf : vm.ct.alloc_failure_gc
    · exact ⟨vm, by simp [alloc_failure_wait_loop, is_alloc_failure_gc, hf]⟩
    · cases k with
      | zero =>
        rw [after_rounds_zero, hf] at h
        cases h
      | succ k =>
        rw [after_rounds_succ] at h
        obtain ⟨vm', hv⟩ := ih (other vm) k (by simpa using hk) h
        exact ⟨vm', by simp [alloc_failure_wait_loop, is_alloc_failure_gc, hf, hv]⟩

/-- C27: the call of `handle_alloc_failure` whose `try_set` changes the flag from clear to
set cancels the GC with cause allocation_failure; a call made while the flag is set, also
after any operations of other threads, changes nothing, so it does not cancel; every caller
finds the flag set once the failure is scheduled, waits at least once, and returns only in a
state in which the flag is clear: it stays in its loop while the flag stays set, and returns
after the first round that leaves the flag clear. -/
theorem C27_first_alloc_failure_cancels (vm : VM) (others : List (VM → VM)) :
    (vm.ct.alloc_failure_gc = false →
      handle_alloc_failure vm = cancel_gc Cause.allocation_failure
          { vm with ct := { vm.ct with alloc_failure_gc := true } }
        ∧ (handle_alloc_failure vm).heap.cancelled_gc = true)
    ∧ (vm.ct.alloc_failure_gc = true → handle_alloc_failure vm = vm)
    ∧ (∀ ops : List ThreadOp,
        handle_alloc_failure (apply_ops ops (handle_alloc_failure vm))
          = apply_ops ops (handle_alloc_failure vm))
    ∧ (handle_alloc_failure_and_wait others vm).scheduled = handle_alloc_failure vm
    ∧ (handle_alloc_failure_and_wait others vm).scheduled.ct.alloc_failure_gc = true
    ∧ (∀ vm', (handle_alloc_failure_and_wait others vm).returned = some vm' →
        vm'.ct.alloc_failure_gc = false
        ∧ 1 ≤ (handle_alloc_failure_and_wait others vm).waits
        ∧ (handle_alloc_failure_and_wait others vm).waits ≤ others.length
        ∧ vm' = after_rounds (handle_alloc_failure_and_wait others vm).waits others
            (handle_alloc_failure vm)
        ∧ ∀ j < (handle_alloc_failure_and_wait others vm).waits,
            (after_rounds j others (handle_alloc_failure vm)).ct.alloc_failure_gc = true)
    ∧ ((∀ k ≤ others.length,
          (after_rounds k others (handle_alloc_failure vm)).ct.alloc_failure_gc = true) →
        (handle_alloc_failure_and_wait others vm).returned = none
        ∧ (handle_alloc_failure_and_wait others vm).waits = others.length)
    ∧ (∀ k ≤ others.length,
        (after_rounds k others (handle_alloc_failure vm)).ct.alloc_failure_gc = false →
        ∃ vm', (handle_alloc_failure_and_wait others vm).returned = some vm') := by
  have hset : (handle_alloc_failure vm).ct.alloc_failure_gc = true := by
    rw [handle_alloc_failure_eq]
    split_ifs with h
    · exact h
    · rfl
  refine ⟨?_, ?_, ?_, rfl, hset, ?_, ?_, ?_⟩
  · intro h
    rw [handle_alloc_failure_eq, if_neg (by rw [h]; simp)]
    exact ⟨rfl, rfl⟩
  · intro h
    rw [handle_alloc_failure_eq, if_pos h]
  · intro ops
    rw [handle_alloc_failure_eq (apply_ops ops (handle_alloc_failure vm)),
      if_pos (apply_ops_alloc_failure_kept ops _ hset)]
  · intro vm' h
    obtain ⟨i1, i2, i3, i4⟩ := alloc_failure_wait_loop_returned others _ vm' h
    refine ⟨i2, ?_, i3, i1, i4⟩
    by_contra hw
    have hw0 : (alloc_failure_wait_loop others (handle_alloc_failure vm)).1 = 0 := by
      simp only [handle_alloc_failure_and_wait] at hw
      omega
    rw [hw0, after_rounds_zero] at i1
    rw [i1, hset] at i2
    cases i2
  · intro h
    have e := alloc_failure_wait_loop_blocked others _ h
    simp only [handle_alloc_failure_and_wait, e, and_self]
  · intro k hk h
    exact alloc_failure_wait_loop_returns others _ k hk h

/-- C27 at a run of three rounds: two mutators fail to allocate one after the other on the
idle machine; the first call cancels the heap, the second changes nothing; the control
thread clears the flag in the second round, and the first caller returns after two waits. -/
theorem C27_first_alloc_failure_cancels_witness :
    (handle_alloc_failure VM.init).heap.cancelled_gc = true
    ∧ handle_alloc_failure (handle_alloc_failure VM.init) = handle_alloc_failure VM.init
    ∧ (handle_alloc_failure_and_wait [handle_alloc_failure, notify_alloc_failure_waiters, id]
        VM.init).waits = 2
    ∧ ((handle_alloc_failure_and_wait [handle_alloc_failure, notify_alloc_failure_waiters, id]
        VM.init).returned.map (fun v => v.ct.alloc_failure_gc)) = some false
    ∧ (handle_alloc_failure_and_wait [handle_alloc_failure, id] VM.init).returned = none :=
  ⟨((C27_first_alloc_failure_cancels VM.init []).1 rfl).2,
   (C27_first_alloc_failure_cancels VM.init []).2.2.1 [],
   rfl, rfl,
   ((C27_first_alloc_failure_cancels VM.init [handle_alloc_failure, id]).2.2.2.2.2.2.1
      (by
        intro k hk
        have hk2 : k = 0 ∨ k = 1 ∨ k = 2 := by
          simp only [List.length_cons, List.length_nil] at hk
          omega
        rcases hk2 with hk2 | hk2 | hk2 <;> subst hk2 <;> rfl)).1⟩

/-! ### The heap-shrink step -/

/-- An iteration ends with the shrink step and the bounded wait, on the state the cycle
left. -/
theorem run_service_iteration_shrink (fl : Flags) (inp : IterationInput) (loc : Locals)
    (vm : VM) (r : Locals × VM) (h : run_service_iteration fl inp loc vm = Except.ok r) :
    ∃ s c, run_selection fl inp loc vm = Except.ok s
      ∧ r.1.last_shrink_time
          = (run_shrink fl s.snap s.soft_max_changed inp.current loc.last_shrink_time c).1
      ∧ r.2 = end_of_iteration inp
          (run_shrink fl s.snap s.soft_max_changed inp.current loc.last_shrink_time c).2 := by
  unfold run_service_iteration at h
  obtain ⟨s, hs, h⟩ := (bind_ok_iff _ _ _).mp h
  unfold run_remainder at h
  simp only at h
  have h := check_bind_ok _ _ _ _ _ h
  obtain ⟨c, _, h⟩ := (bind_ok_iff _ _ _).mp h
  rw [pure_ok_iff] at h
  subst h
  exact ⟨s, c.2.2, hs, rfl, rfl⟩

/-! ### The selection block never stops in a state the loop reaches -/

/-- The selection block returns in every state in which the generation to resume is known,
and when it chooses stw_degenerated, `_degen_generation` is not NULL. -/
theorem select_mode_total (fl : Flags) (hs : Heuristics) (snap : Snapshot)
    (generation : GenerationMode) (vm : VM) (hk : degen_generation_known vm) :
    ∃ r, select_mode fl hs snap generation vm = Except.ok r
      ∧ (snap.alloc_failure_pending = true → r.2.ct.degen_generation.isSome = true)
      ∧ (r.2.ct.mode = GCMode.stw_degenerated → r.2.ct.degen_generation.isSome = true) := by
  unfold select_mode
  simp only
  split_ifs with h1 h2 h3
  · have hk2 : degen_generation_known (set_gc_mode GCMode.none vm) := by
      rw [set_gc_mode_eq]; exact hk
    obtain ⟨g, hg⟩ := resumed_generation_of_known _ hk2
    rw [select_alloc_failure_eq fl hs _ g hg]
    exact ⟨_, rfl, fun _ => rfl, fun _ => rfl⟩
  · refine ⟨_, rfl, fun h => absurd h h1, ?_⟩
    intro hm
    simp only [select_requested, set_gc_mode_eq, set_unload_classes] at hm
    split_ifs at hm
  · refine ⟨_, rfl, fun h => absurd h h1, ?_⟩
    intro hm
    simp only [select_requested, set_gc_mode_eq, set_unload_classes] at hm
    split_ifs at hm
  · refine ⟨_, rfl, fun h => absurd h h1, ?_⟩
    intro hm
    simp only [select_regulator, set_gc_mode_eq, set_unload_classes] at hm
    split_ifs at hm

theorem run_selection_total (fl : Flags) (inp : IterationInput) (loc : Locals) (vm : VM)
    (hk : degen_generation_known vm) :
    ∃ s, run_selection fl inp loc vm = Except.ok s
      ∧ (s.snap.alloc_failure_pending = true → s.vm.ct.degen_generation.isSome = true)
      ∧ (s.vm.ct.mode = GCMode.stw_degenerated → s.vm.ct.degen_generation.isSome = true) := by
  have hk2 : degen_generation_known
      (check_soft_max_changed inp.SoftMaxHeapSize
        { vm with ct := { vm.ct with allocs_seen := 0 } }).2 := by
    simp only [check_soft_max_changed]
    split_ifs <;> exact hk
  obtain ⟨r, hr, h1, h2⟩ :=
    select_mode_total fl inp.heuristics (take_snapshot vm) loc.generation _ hk2
  refine ⟨{ snap := take_snapshot vm
            soft_max_changed := (check_soft_max_changed inp.SoftMaxHeapSize
              { vm with ct := { vm.ct with allocs_seen := 0 } }).1
            sel := r.1, vm := r.2 }, ?_, h1, h2⟩
  unfold run_selection
  simp only [hr, bind, Except.bind, pure, Except.pure]

/-- C29: in every state the control loop reaches from the constructor, a stored degen point
other than outside_cycle comes with a recorded `_degen_generation`; hence the selection
block of the next iteration returns (neither the assertion of the allocation-failure branch
nor the dereference after it stops the VM), and whenever it chooses stw_degenerated, or
handles an allocation failure at all, `_degen_generation` is not NULL.  The same holds from
any state in which the invariant holds. -/
theorem C29_degen_generation_recorded (fl : Flags) (inps : List IterationInput) (loc : Locals)
    (vm : VM) (r : Locals × VM) (h : run_service fl inps loc vm = Except.ok r)
    (hk : degen_generation_known vm) :
    (∀ heap : ShenandoahHeap, degen_generation_known
        { ct := ShenandoahControlThread.init, heap := heap, trace := [] })
    ∧ (r.2.ct.degen_point ≠ ShenandoahDegenPoint.degenerated_outside_cycle →
        r.2.ct.degen_generation.isSome = true)
    ∧ (∀ inp : IterationInput, ∃ s, run_selection fl inp r.1 r.2 = Except.ok s
        ∧ (s.snap.alloc_failure_pending = true → s.vm.ct.degen_generation.isSome = true)
        ∧ (s.vm.ct.mode = GCMode.stw_degenerated →
            s.vm.ct.degen_generation.isSome = true)) := by
  have hk2 := run_service_known fl inps loc vm r h hk
  refine ⟨fun _ => Or.inl rfl, ?_, fun inp => run_selection_total fl inp r.1 r.2 hk2⟩
  intro hp
  rcases hk2 with hk2 | hk2
  · exact absurd hk2 hp
  · exact hk2

/-- C29 after an iteration whose young cycle was cancelled by an allocation failure during
marking: the stored degen point is degenerated_mark, the young generation is recorded, and
the next selection returns. -/
theorem C29_degen_generation_recorded_witness :
    ∃ r, run_service Flags.no_uncommit [IterationInput.cancelled_by_alloc_failure]
          (Locals.init 0) VM.young_requested = Except.ok r
      ∧ r.2.ct.degen_point = ShenandoahDegenPoint.degenerated_mark
      ∧ r.2.ct.degen_generation.isSome = true
      ∧ ∃ s, run_selection Flags.no_uncommit IterationInput.quiet r.1 r.2 = Except.ok s
        ∧ (s.snap.alloc_failure_pending = true → s.vm.ct.degen_generation.isSome = true)
        ∧ (s.vm.ct.mode = GCMode.stw_degenerated →
            s.vm.ct.degen_generation.isSome = true) :=
  ⟨_, rfl, rfl,
   (C29_degen_generation_recorded Flags.no_uncommit
      [IterationInput.cancelled_by_alloc_failure] (Locals.init 0) VM.young_requested _ rfl
      (Or.inl rfl)).2.1 (by decide),
   (C29_degen_generation_recorded Flags.no_uncommit
      [IterationInput.cancelled_by_alloc_failure] (Locals.init 0) VM.young_requested _ rfl
      (Or.inl rfl)).2.2 IterationInput.quiet⟩

/-! ### A concurrent cycle cancelled by an allocation failure, and the iteration after it -/

/-- The selection block chooses stw_degenerated or stw_full whenever the snapshot shows an
allocation failure. -/
theorem run_selection_alloc_mode (fl : Flags) (inp : IterationInput) (loc : Locals) (vm : VM)
    (s : Selected) (h : run_selection fl inp loc vm = Except.ok s)
    (ha : s.snap.alloc_failure_pending = true) :
    s.vm.ct.mode = GCMode.stw_degenerated ∨ s.vm.ct.mode = GCMode.stw_full := by
  unfold run_selection at h
  obtain ⟨r, hr, h⟩ := (bind_ok_iff _ _ _).mp h
  rw [pure_ok_iff] at h
  subst h
  simp only at ha ⊢
  unfold select_mode at hr
  simp only [ha, if_true] at hr
  cases hg : resumed_generation (set_gc_mode GCMode.none
      (check_soft_max_changed inp.SoftMaxHeapSize
        { vm with ct := { vm.ct with allocs_seen := 0 } }).2) with
  | none =>
    obtain ⟨f, hf⟩ := select_alloc_failure_null fl inp.heuristics _ hg
    rw [hf] at hr
    cases hr
  | some g =>
    rw [select_alloc_failure_eq fl inp.heuristics _ g hg] at hr
    cases hr
    simp only
    split_ifs
    · exact Or.inl rfl
    · exact Or.inr rfl

/-- The snapshot of an iteration reads the shared flags as the iteration finds them. -/
theorem run_selection_snap (fl : Flags) (inp : IterationInput) (loc : Locals) (vm : VM)
    (s : Selected) (h : run_selection fl inp loc vm = Except.ok s) :
    s.snap = take_snapshot vm := by
  unfold run_selection at h
  obtain ⟨r, _, h⟩ := (bind_ok_iff _ _ _).mp h
  rw [pure_ok_iff] at h
  subst h
  rfl

/-- What the updates after the `switch (_mode)` leave of the control thread's flags. -/
theorem notify_and_retract_degen (snap : Snapshot) (vm : VM) :
    (notify_and_retract snap vm).ct.degen_point = vm.ct.degen_point
    ∧ (notify_and_retract snap vm).ct.degen_generation = vm.ct.degen_generation
    ∧ (snap.alloc_failure_pending = false →
        (notify_and_retract snap vm).ct.alloc_failure_gc = vm.ct.alloc_failure_gc) := by
  simp only [notify_and_retract, set_forced_counters_update, handle_force_counters_update,
    notify_alloc_failure_waiters, notify_gc_waiters, emit]
  refine ⟨?_, ?_, ?_⟩
  · split_ifs <;> rfl
  · split_ifs <;> rfl
  · intro h
    simp only [h, Bool.false_eq_true, if_false]
    split_ifs <;> rfl

theorem finish_cycle_degen (fl : Flags) (snap : Snapshot) (generation : GenerationMode)
    (vm vm' : VM) (h : finish_cycle fl snap generation vm = Except.ok vm') :
    vm'.ct.degen_point = vm.ct.degen_point
    ∧ vm'.ct.degen_generation = vm.ct.degen_generation
    ∧ (snap.alloc_failure_pending = false →
        vm'.ct.alloc_failure_gc = vm.ct.alloc_failure_gc) := by
  unfold finish_cycle at h
  split at h
  · have h := check_bind_ok _ _ _ _ _ h
    rw [pure_ok_iff] at h
    subst h
    exact notify_and_retract_degen snap vm
  · rw [pure_ok_iff] at h
    subst h
    exact notify_and_retract_degen snap vm

/-- The bounded wait and what the other threads do during it keep the degen point, the
recorded generation, and a set allocation-failure flag. -/
theorem end_of_iteration_degen (inp : IterationInput) (vm : VM) :
    (end_of_iteration inp vm).ct.degen_point = vm.ct.degen_point
    ∧ (end_of_iteration inp vm).ct.degen_generation = vm.ct.degen_generation
    ∧ (vm.ct.alloc_failure_gc = true →
        (end_of_iteration inp vm).ct.alloc_failure_gc = true) := by
  simp only [end_of_iteration]
  refine ⟨?_, ?_, ?_⟩
  · rw [(apply_ops_degen _ _).1]
    simp only [emit]
    split_ifs <;> rfl
  · rw [(apply_ops_degen _ _).2]
    simp only [emit]
    split_ifs <;> rfl
  · intro h
    apply apply_ops_alloc_failure_kept
    simp only [emit]
    split_ifs <;> exact h

/-- Closed form of `service_concurrent_cycle` when the collaborator is cancelled by an
allocation failure: the degen point it reports is stored and the generation is recorded. -/
theorem service_concurrent_cycle_cancelled (fl : Flags) (generation : GenerationMode)
    (cause : Cause) (bootstrap : Bool) (run : ConcurrentGCRun) (vm vm' : VM)
    (h : service_concurrent_cycle fl generation cause bootstrap run vm = Except.ok vm')
    (hentry : vm.heap.cancelled_gc = false) (hcomp : run.completed = false)
    (hc : (apply_ops run.during vm).heap.cancelled_gc = true)
    (hg : (apply_ops run.during vm).ct.graceful_shutdown = false)
    (ha : (apply_ops run.during vm).ct.alloc_failure_gc = true) :
    vm'.ct = { (apply_ops run.during vm).ct with
                degen_point := run.degen_point, degen_generation := some generation }
    ∧ vm'.heap = (apply_ops run.during vm).heap := by
  unfold service_concurrent_cycle at h
  rw [check_cancellation_or_degen_eq, if_pos hentry] at h
  simp only [bind, Except.bind, Bool.false_eq_true, if_false, hcomp] at h
  have h := check_bind_ok _ _ _ _ _ h
  rw [check_cancellation_or_degen_eq] at h
  simp only [emit, hc, hg, ha, Bool.true_eq_false, if_false, Bool.false_eq_true, if_true] at h
  split_ifs at h with hA
  simp only [bind, Except.bind] at h
  have h := check_bind_ok _ _ _ _ _ h
  rw [pure_ok_iff] at h
  subst h
  refine ⟨?_, rfl⟩
  simp [ha, hg]
theorem update_aging_frame (fl : Flags) (generation : GenerationMode) (age_period : Nat)
    (vm : VM) :
    (update_aging fl generation age_period vm).2.ct = vm.ct
    ∧ (update_aging fl generation age_period vm).2.heap.cancelled_gc = vm.heap.cancelled_gc
    ∧ (update_aging fl generation age_period vm).2.trace = vm.trace := by
  unfold update_aging
  split_ifs <;> exact ⟨rfl, rfl, rfl⟩

/-- An iteration whose concurrent cycle (on YOUNG or GLOBAL, or the young bootstrap cycle of
an OLD request) is cancelled by an allocation failure ends with the allocation failure
pending, the degen point the collaborator reported stored, and the generation of the
cancelled cycle recorded. -/
theorem cancelled_concurrent_iteration (fl : Flags) (inp : IterationInput) (loc : Locals)
    (vm : VM) (r : Locals × VM) (s : Selected)
    (h : run_service_iteration fl inp loc vm = Except.ok r)
    (hs : run_selection fl inp loc vm = Except.ok s)
    (hm : s.vm.ct.mode = GCMode.concurrent_normal)
    (hentry : (cycle_entry fl inp s).heap.cancelled_gc = false)
    (hcomp : inp.concurrent_gc.completed = false)
    (hc : (collect_exit fl inp loc s).heap.cancelled_gc = true)
    (hgs : (collect_exit fl inp loc s).ct.graceful_shutdown = false)
    (ha : (collect_exit fl inp loc s).ct.alloc_failure_gc = true) :
    r.2.ct.alloc_failure_gc = true
    ∧ r.2.ct.degen_point = inp.concurrent_gc.degen_point
    ∧ r.2.ct.degen_generation = some (concurrent_generation s.sel.generation)
    ∧ r.1.generation = s.sel.generation := by
  have hsnap : s.snap.alloc_failure_pending = false := by
    cases hp : s.snap.alloc_failure_pending
    · rfl
    · rcases run_selection_alloc_mode fl inp loc vm s hs hp with h1 | h1 <;>
        rw [hm] at h1 <;> cases h1
  unfold run_service_iteration at h
  obtain ⟨s', hs', h⟩ := (bind_ok_iff _ _ _).mp h
  have e : s' = s := Except.ok.inj (hs'.symm.trans hs)
  subst e
  unfold run_remainder at h
  simp only at h
  have h := check_bind_ok _ _ _ _ _ h
  obtain ⟨c, hc', h⟩ := (bind_ok_iff _ _ _).mp h
  rw [pure_ok_iff] at h
  subst h
  rw [blow_soft_refs_ct, apply_ops_mode, hm] at hc'
  rw [if_pos (by decide)] at hc'
  unfold run_cycle at hc'
  obtain ⟨r1, hr1, hc'⟩ := (bind_ok_iff _ _ _).mp hc'
  obtain ⟨v2, hv2, hc'⟩ := (bind_ok_iff _ _ _).mp hc'
  rw [pure_ok_iff] at hc'
  subst hc'
  have hmX : (cycle_entry fl inp s').ct.mode = GCMode.concurrent_normal := by
    simp only [cycle_entry, set_forced_counters_update, update_gc_id]
    rw [blow_soft_refs_ct, apply_ops_mode, hm]
  have key : r1.2.2.ct = { (collect_exit fl inp loc s').ct with
        degen_point := inp.concurrent_gc.degen_point
        degen_generation := some (concurrent_generation s'.sel.generation) }
      ∧ r1.1 = s'.sel.generation := by
    change dispatch_cycle fl inp s'.sel loc.age_period (cycle_entry fl inp s') = Except.ok r1
      at hr1
    unfold dispatch_cycle at hr1
    rw [hmX] at hr1
    simp only at hr1
    obtain ⟨v1, hv1, hr1⟩ := (bind_ok_iff _ _ _).mp hr1
    rw [pure_ok_iff] at hr1
    subst hr1
    have hentry2 : (update_aging fl s'.sel.generation loc.age_period
        (cycle_entry fl inp s')).2.heap.cancelled_gc = false := by
      rw [(update_aging_frame _ _ _ _).2.1]; exact hentry
    unfold service_concurrent_normal_cycle at hv1
    cases hgen : s'.sel.generation with
    | OLD =>
      rw [hgen] at hv1
      simp only [service_concurrent_old_cycle] at hv1
      have hv1 := check_bind_ok _ _ _ _ _ hv1
      obtain ⟨v0, hv0, hv1⟩ := (bind_ok_iff _ _ _).mp hv1
      have k := service_concurrent_cycle_cancelled fl _ _ _ _ _ _ hv0
        (by rw [← hgen]; exact hentry2) hcomp
        (by rw [← hgen]; exact hc) (by rw [← hgen]; exact hgs) (by rw [← hgen]; exact ha)
      have hcz : v0.heap.cancelled_gc = true := by
        rw [k.2, ← hgen]; exact hc
      rw [hcz] at hv1
      simp only [Bool.not_true, Bool.false_eq_true, if_false] at hv1
      rw [pure_ok_iff] at hv1
      subst hv1
      refine ⟨?_, rfl⟩
      rw [k.1]
      simp only [collect_exit, hgen, concurrent_generation]
    | YOUNG =>
      rw [hgen] at hv1
      simp only at hv1
      have k := service_concurrent_cycle_cancelled fl _ _ _ _ _ _ hv1
        (by rw [← hgen]; exact hentry2) hcomp
        (by rw [← hgen]; exact hc) (by rw [← hgen]; exact hgs) (by rw [← hgen]; exact ha)
      refine ⟨?_, rfl⟩
      rw [k.1]
      simp only [collect_exit, hgen, concurrent_generation]
    | GLOBAL =>
      rw [hgen] at hv1
      simp only at hv1
      have k := service_concurrent_cycle_cancelled fl _ _ _ _ _ _ hv1
        (by rw [← hgen]; exact hentry2) hcomp
        (by rw [← hgen]; exact hc) (by rw [← hgen]; exact hgs) (by rw [← hgen]; exact ha)
      refine ⟨?_, rfl⟩
      rw [k.1]
      simp only [collect_exit, hgen, concurrent_generation]
  obtain ⟨f1, f2, f3⟩ := finish_cycle_degen _ _ _ _ _ hv2
  obtain ⟨g1, g2, g3⟩ := end_of_iteration_degen inp
    (run_shrink fl s'.snap s'.soft_max_changed inp.current loc.last_shrink_time v2).2
  have hct := (run_shrink_ct fl s'.snap s'.soft_max_changed inp.current
    loc.last_shrink_time v2).1
  simp only
  refine ⟨?_, ?_, ?_, key.2⟩
  · apply g3
    rw [hct, f3 hsnap, key.1]
    exact ha
  · rw [g1, hct, f1, key.1]
  · rw [g2, hct, f2, key.1]
/-- The head of an iteration that finds an allocation failure pending: the stored degen
point is consumed into the selection and reset, the generation to resume is recorded, and
the mode is stw_degenerated or stw_full. -/
theorem run_selection_alloc_failure (fl : Flags) (inp : IterationInput) (loc : Locals)
    (vm : VM) (g : GenerationMode) (ha : vm.ct.alloc_failure_gc = true)
    (hg : resumed_generation vm = some g) :
    ∃ s, run_selection fl inp loc vm = Except.ok s
      ∧ s.snap.alloc_failure_pending = true
      ∧ s.sel.cause = Cause.allocation_failure
      ∧ s.sel.degen_point = vm.ct.degen_point
      ∧ s.sel.generation
          = (if degenerates fl inp.heuristics g vm then g else GenerationMode.GLOBAL)
      ∧ s.vm.ct.mode
          = (if degenerates fl inp.heuristics g vm then GCMode.stw_degenerated
             else GCMode.stw_full)
      ∧ s.vm.ct.degen_point = ShenandoahDegenPoint.degenerated_outside_cycle
      ∧ s.vm.ct.degen_generation = some g := by
  have hg2 : resumed_generation (set_gc_mode GCMode.none
      (check_soft_max_changed inp.SoftMaxHeapSize
        { vm with ct := { vm.ct with allocs_seen := 0 } }).2) = some g := by
    rw [set_gc_mode_eq]
    simp only [resumed_generation, check_soft_max_changed] at hg ⊢
    split_ifs at hg ⊢ <;> exact hg
  have hd : degenerates fl inp.heuristics g (set_gc_mode GCMode.none
      (check_soft_max_changed inp.SoftMaxHeapSize
        { vm with ct := { vm.ct with allocs_seen := 0 } }).2)
      = degenerates fl inp.heuristics g vm := by
    rw [set_gc_mode_eq]
    simp only [degenerates, check_soft_max_changed]
    split_ifs <;> rfl
  have hp : (set_gc_mode GCMode.none
      (check_soft_max_changed inp.SoftMaxHeapSize
        { vm with ct := { vm.ct with allocs_seen := 0 } }).2).ct.degen_point
      = vm.ct.degen_point := by
    rw [set_gc_mode_eq]
    simp only [check_soft_max_changed]
    split_ifs <;> rfl
  have hsnap : (take_snapshot vm).alloc_failure_pending = true := ha
  have key := select_alloc_failure_eq fl inp.heuristics _ g hg2
  rw [hd, hp] at key
  obtain ⟨p, hp, q1, q2, q3, q4, q5, q6⟩ : ∃ p : Selection × VM,
      select_alloc_failure fl inp.heuristics (set_gc_mode GCMode.none
        (check_soft_max_changed inp.SoftMaxHeapSize
          { vm with ct := { vm.ct with allocs_seen := 0 } }).2) = Except.ok p
      ∧ p.1.cause = Cause.allocation_failure
      ∧ p.1.degen_point = vm.ct.degen_point
      ∧ p.1.generation
          = (if degenerates fl inp.heuristics g vm then g else GenerationMode.GLOBAL)
      ∧ p.2.ct.mode
          = (if degenerates fl inp.heuristics g vm then GCMode.stw_degenerated
             else GCMode.stw_full)
      ∧ p.2.ct.degen_point = ShenandoahDegenPoint.degenerated_outside_cycle
      ∧ p.2.ct.degen_generation = some g := ⟨_, key, rfl, rfl, rfl, rfl, rfl, rfl⟩
  refine ⟨{ snap := take_snapshot vm
            soft_max_changed := (check_soft_max_changed inp.SoftMaxHeapSize
              { vm with ct := { vm.ct with allocs_seen := 0 } }).1
            sel := p.1, vm := p.2 }, ?_, hsnap, q1, q2, q3, q4, q5, q6⟩
  unfold run_selection select_mode
  simp only [hsnap, if_true, hp, bind, Except.bind, pure, Except.pure]
/-- C23: when the concurrent collaborator of an iteration returns not-complete while the heap
is cancelled, an allocation failure is pending and no graceful shutdown is in progress, the
degen point p it reports is stored; the next iteration, for every input, takes the
allocation-failure branch, hands exactly p to its selection, resets the stored degen point
to outside_cycle, and chooses stw_degenerated or stw_full; the degenerated cycle is invoked
with exactly p and cause allocation_failure. -/
theorem C23_degen_point_handed_over (fl : Flags) (inp : IterationInput) (loc : Locals)
    (vm : VM) (r : Locals × VM) (s : Selected)
    (h : run_service_iteration fl inp loc vm = Except.ok r)
    (hs : run_selection fl inp loc vm = Except.ok s)
    (hm : s.vm.ct.mode = GCMode.concurrent_normal)
    (hentry : (cycle_entry fl inp s).heap.cancelled_gc = false)
    (hcomp : inp.concurrent_gc.completed = false)
    (hc : (collect_exit fl inp loc s).heap.cancelled_gc = true)
    (hgs : (collect_exit fl inp loc s).ct.graceful_shutdown = false)
    (ha : (collect_exit fl inp loc s).ct.alloc_failure_gc = true) :
    r.2.ct.degen_point = inp.concurrent_gc.degen_point
    ∧ r.2.ct.alloc_failure_gc = true
    ∧ ∀ next : IterationInput, ∃ s2, run_selection fl next r.1 r.2 = Except.ok s2
        ∧ s2.sel.cause = Cause.allocation_failure
        ∧ s2.sel.degen_point = inp.concurrent_gc.degen_point
        ∧ s2.vm.ct.degen_point = ShenandoahDegenPoint.degenerated_outside_cycle
        ∧ (s2.vm.ct.mode = GCMode.stw_degenerated ∨ s2.vm.ct.mode = GCMode.stw_full)
        ∧ (∀ (age_period : Nat) (v : VM), v.ct.mode = GCMode.stw_degenerated →
            dispatch_cycle fl next s2.sel age_period v =
              (service_stw_degenerated_cycle fl Cause.allocation_failure
                  inp.concurrent_gc.degen_point next.degen_gc v >>= fun d =>
                pure (if d.1 then s2.sel.generation else GenerationMode.GLOBAL,
                      age_period, d.2))) := by
  obtain ⟨k1, k2, k3, _⟩ :=
    cancelled_concurrent_iteration fl inp loc vm r s h hs hm hentry hcomp hc hgs ha
  refine ⟨k2, k1, fun next => ?_⟩
  have hknown : degen_generation_known r.2 := Or.inr (by rw [k3]; rfl)
  obtain ⟨g, hg⟩ := resumed_generation_of_known r.2 hknown
  obtain ⟨s2, e, _, c1, c2, _, c4, c5, _⟩ :=
    run_selection_alloc_failure fl next r.1 r.2 g k1 hg
  refine ⟨s2, e, c1, c2.trans k2, c5, ?_, ?_⟩
  · rw [c4]
    split_ifs
    · exact Or.inl rfl
    · exact Or.inr rfl
  · intro age_period v hv
    unfold dispatch_cycle
    rw [hv]
    simp only [c1, c2, k2]

/-- C23 at the second scenario of the specification: the regulator's young cycle is cancelled
by an allocation failure and its collaborator reports the point after marking; `gc_id` is 1;
the next iteration runs the degenerated cycle at that point on YOUNG, `gc_id` becomes 2, the
allocation-failure waiters are notified and the stored degen point is outside_cycle again. -/
theorem C23_degen_point_handed_over_witness :
    ∃ r1 r2, run_service_iteration Flags.no_uncommit IterationInput.cancelled_by_alloc_failure
          (Locals.init 0) VM.young_requested = Except.ok r1
      ∧ r1.2.ct.gc_id = 1
      ∧ r1.2.ct.degen_point = ShenandoahDegenPoint.degenerated_mark
      ∧ run_service_iteration Flags.no_uncommit IterationInput.quiet r1.1 r1.2 = Except.ok r2
      ∧ r2.2.ct.gc_id = 2
      ∧ r2.2.ct.degen_point = ShenandoahDegenPoint.degenerated_outside_cycle
      ∧ r2.2.trace =
          [Event.notify_control_thread,
           Event.concurrent_collect GenerationMode.YOUNG false
             Cause.shenandoah_concurrent_gc false,
           Event.degen_collect ShenandoahDegenPoint.degenerated_mark GenerationMode.YOUNG
             Cause.allocation_failure,
           Event.notify_alloc_failure_waiters,
           Event.control_wait] :=
  ⟨_, _, rfl, rfl,
   (C23_degen_point_handed_over Flags.no_uncommit IterationInput.cancelled_by_alloc_failure
      (Locals.init 0) VM.young_requested _ _ rfl rfl rfl rfl rfl rfl rfl rfl).1,
   rfl, rfl, rfl, rfl⟩

/-- C25, the code at the failing input: on a generational heap the regulator asks for an old
cycle; the young bootstrap cycle completes and starts old marking, and the old marking that
follows is cancelled by an allocation failure.  The stored degen point is outside_cycle and
no generation is recorded, so the next iteration seeds the young generation and runs the
degenerated cycle on YOUNG, not on GLOBAL.  The same happens when an iteration in mode
marking_old resumes old marking and is cancelled, and a bootstrap cycle cancelled during its
own marking degenerates on YOUNG at the point it reported. -/
theorem C25_old_cycle_degenerates_on_young :
    (∃ r1 s2 r2, run_service_iteration Flags.no_uncommit IterationInput.bootstrap_old_cancelled
          (Locals.init 0) VM.old_requested = Except.ok r1
      ∧ r1.2.trace =
          [Event.notify_control_thread,
           Event.concurrent_collect GenerationMode.YOUNG true
             Cause.shenandoah_concurrent_gc true,
           Event.old_collect Cause.shenandoah_concurrent_gc false]
      ∧ r1.2.heap.is_generational = true
      ∧ r1.2.ct.alloc_failure_gc = true
      ∧ r1.2.ct.degen_point = ShenandoahDegenPoint.degenerated_outside_cycle
      ∧ r1.2.ct.degen_generation = none
      ∧ run_selection Flags.no_uncommit IterationInput.quiet r1.1 r1.2 = Except.ok s2
      ∧ s2.vm.ct.mode = GCMode.stw_degenerated
      ∧ s2.sel.generation = GenerationMode.YOUNG
      ∧ s2.vm.ct.degen_generation = some GenerationMode.YOUNG
      ∧ run_service_iteration Flags.no_uncommit IterationInput.quiet r1.1 r1.2 = Except.ok r2
      ∧ r2.2.trace = r1.2.trace ++
          [Event.degen_collect ShenandoahDegenPoint.degenerated_outside_cycle
             GenerationMode.YOUNG Cause.allocation_failure,
           Event.notify_alloc_failure_waiters,
           Event.control_wait])
    ∧ (∃ r1 s1 s2, run_service_iteration Flags.no_uncommit
          IterationInput.old_cancelled_by_alloc_failure (Locals.init 0)
          VM.old_mark_in_progress = Except.ok r1
      ∧ run_selection Flags.no_uncommit IterationInput.old_cancelled_by_alloc_failure
          (Locals.init 0) VM.old_mark_in_progress = Except.ok s1
      ∧ s1.vm.ct.mode = GCMode.marking_old
      ∧ s1.sel.generation = GenerationMode.OLD
      ∧ r1.2.trace = [Event.old_collect Cause.shenandoah_concurrent_gc false]
      ∧ r1.2.ct.alloc_failure_gc = true
      ∧ run_selection Flags.no_uncommit IterationInput.quiet r1.1 r1.2 = Except.ok s2
      ∧ s2.vm.ct.mode = GCMode.stw_degenerated
      ∧ s2.sel.generation = GenerationMode.YOUNG)
    ∧ (∃ r1 s2, run_service_iteration Flags.no_uncommit
          IterationInput.cancelled_by_alloc_failure (Locals.init 0) VM.old_requested
          = Except.ok r1
      ∧ r1.2.trace =
          [Event.notify_control_thread,
           Event.concurrent_collect GenerationMode.YOUNG true
             Cause.shenandoah_concurrent_gc false]
      ∧ r1.2.ct.degen_point = ShenandoahDegenPoint.degenerated_mark
      ∧ r1.2.ct.degen_generation = some GenerationMode.YOUNG
      ∧ run_selection Flags.no_uncommit IterationInput.quiet r1.1 r1.2 = Except.ok s2
      ∧ s2.vm.ct.mode = GCMode.stw_degenerated
      ∧ s2.sel.generation = GenerationMode.YOUNG) :=
  ⟨⟨_, _, _, rfl, rfl, rfl, rfl, rfl, rfl, rfl, rfl, rfl, rfl, rfl, rfl⟩,
   ⟨_, _, _, rfl, rfl, rfl, rfl, rfl, rfl, rfl, rfl, rfl⟩,
   ⟨_, _, rfl, rfl, rfl, rfl, rfl, rfl, rfl⟩⟩

theorem emit_notifications (e : Event) (vm : VM) (he : e ≠ Event.notify_alloc_failure_waiters) :
    alloc_failure_notifications (emit e vm) = alloc_failure_notifications vm := by
  simp only [alloc_failure_notifications, emit, List.count_append]
  rw [List.count_singleton]
  simp [he]

theorem apply_op_notifications (op : ThreadOp) (vm : VM) :
    alloc_failure_notifications (apply_op op vm) = alloc_failure_notifications vm := by
  cases op with
  | request_concurrent_gc generation =>
    simp only [apply_op]
    rw [request_concurrent_gc_eq]
    split_ifs
    · rfl
    · exact emit_notifications _ _ (by decide)
    · exact emit_notifications _ _ (by decide)
    · rfl
  | post_requested_gc cause =>
    exact emit_notifications _ _ (by decide)
  | handle_alloc_failure =>
    simp only [apply_op]
    rw [handle_alloc_failure_eq]
    split_ifs <;> rfl
  | handle_alloc_failure_evac =>
    simp only [apply_op, handle_alloc_failure_evac, try_set_alloc_failure_gc, cancel_gc]
    split_ifs <;> rfl
  | notify_heap_changed =>
    simp only [apply_op, notify_heap_changed]
    split_ifs <;> rfl
  | _ => rfl

theorem apply_ops_notifications (ops : List ThreadOp) (vm : VM) :
    alloc_failure_notifications (apply_ops ops vm) = alloc_failure_notifications vm := by
  unfold apply_ops
  induction ops generalizing vm with
  | nil => rfl
  | cons op ops ih =>
    rw [List.foldl_cons, ih, apply_op_notifications]

/-- Member `check_cancellation_or_degen` leaves the allocation-failure flag and the trace as
they are. -/
theorem check_cancellation_or_degen_alloc (fl : Flags) (point : ShenandoahDegenPoint)
    (vm : VM) (r : Bool × VM) (h : check_cancellation_or_degen fl point vm = Except.ok r) :
    r.2.ct.alloc_failure_gc = vm.ct.alloc_failure_gc ∧ r.2.trace = vm.trace := by
  rw [check_cancellation_or_degen_eq] at h
  split_ifs at h <;> cases h <;> exact ⟨rfl, rfl⟩

/-- Member `service_concurrent_cycle` does not notify the allocation-failure waiters and does
not clear the flag; when the collaborator runs, the flag on return is the one the
collaborator left. -/
theorem service_concurrent_cycle_alloc (fl : Flags) (generation : GenerationMode)
    (cause : Cause) (bootstrap : Bool) (run : ConcurrentGCRun) (vm vm' : VM)
    (h : service_concurrent_cycle fl generation cause bootstrap run vm = Except.ok vm') :
    alloc_failure_notifications vm' = alloc_failure_notifications vm
    ∧ (vm.ct.alloc_failure_gc = true → vm'.ct.alloc_failure_gc = true)
    ∧ (vm.heap.cancelled_gc = false →
        vm'.ct.alloc_failure_gc = (apply_ops run.during vm).ct.alloc_failure_gc) := by
  unfold service_concurrent_cycle at h
  obtain ⟨r, hr, h⟩ := (bind_ok_iff _ _ _).mp h
  obtain ⟨a1, a2⟩ := check_cancellation_or_degen_alloc _ _ _ _ hr
  have hn1 : alloc_failure_notifications r.2 = alloc_failure_notifications vm := by
    simp only [alloc_failure_notifications, a2]
  have hfirst : vm.heap.cancelled_gc = false → r = (false, vm) := by
    intro hc
    rw [check_cancellation_or_degen_eq, if_pos hc] at hr
    cases hr
    rfl
  split_ifs at h with h1 h2
  · rw [pure_ok_iff] at h
    subst h
    refine ⟨hn1, fun ha => by rw [a1]; exact ha, ?_⟩
    intro hc
    rw [hfirst hc] at h1
    cases h1
  · rw [pure_ok_iff] at h
    subst h
    refine ⟨?_, ?_, ?_⟩
    · rw [emit_notifications _ _ (by simp), apply_ops_notifications, hn1]
    · intro ha
      exact apply_ops_alloc_failure_kept _ _ (by rw [a1]; exact ha)
    · intro hc
      rw [hfirst hc]
      rfl
  · have h := check_bind_ok _ _ _ _ _ h
    obtain ⟨r2, hr2, h⟩ := (bind_ok_iff _ _ _).mp h
    obtain ⟨b1, b2⟩ := check_cancellation_or_degen_alloc _ _ _ _ hr2
    have h := check_bind_ok _ _ _ _ _ h
    rw [pure_ok_iff] at h
    subst h
    refine ⟨?_, ?_, ?_⟩
    · simp only [alloc_failure_notifications, b2]
      exact (emit_notifications _ _ (by simp)).trans
        ((apply_ops_notifications _ _).trans hn1)
    · intro ha
      simp only [b1]
      exact apply_ops_alloc_failure_kept _ _ (by rw [a1]; exact ha)
    · intro hc
      simp only [b1]
      rw [hfirst hc]
      rfl

theorem resume_concurrent_old_cycle_alloc (fl : Flags) (cause : Cause) (run : OldGCRun)
    (vm vm' : VM) (h : resume_concurrent_old_cycle fl cause run vm = Except.ok vm') :
    alloc_failure_notifications vm' = alloc_failure_notifications vm
    ∧ (vm.ct.alloc_failure_gc = true → vm'.ct.alloc_failure_gc = true) := by
  unfold resume_concurrent_old_cycle at h
  have h := check_bind_ok _ _ _ _ _ h
  simp only at h
  have hn : alloc_failure_notifications
      (emit (Event.old_collect cause run.completed) (apply_ops run.during vm))
      = alloc_failure_notifications vm := by
    rw [emit_notifications _ _ (by simp), apply_ops_notifications]
  split_ifs at h
  · obtain ⟨r, hr, h⟩ := (bind_ok_iff _ _ _).mp h
    obtain ⟨a1, a2⟩ := check_cancellation_or_degen_alloc _ _ _ _ hr
    rw [pure_ok_iff] at h
    subst h
    refine ⟨?_, ?_⟩
    · simp only [alloc_failure_notifications, a2]
      exact hn
    · intro ha
      rw [a1]
      exact apply_ops_alloc_failure_kept _ _ ha
  · rw [pure_ok_iff] at h
    subst h
    exact ⟨hn, fun ha => apply_ops_alloc_failure_kept _ _ ha⟩

theorem service_concurrent_normal_cycle_alloc (fl : Flags) (generation : GenerationMode)
    (cause : Cause) (inp : IterationInput) (vm vm' : VM)
    (h : service_concurrent_normal_cycle fl generation cause inp vm = Except.ok vm') :
    alloc_failure_notifications vm' = alloc_failure_notifications vm
    ∧ (vm.ct.alloc_failure_gc = true → vm'.ct.alloc_failure_gc = true)
    ∧ (vm.heap.cancelled_gc = false →
        (apply_ops inp.concurrent_gc.during vm).ct.alloc_failure_gc = true →
        vm'.ct.alloc_failure_gc = true) := by
  unfold service_concurrent_normal_cycle at h
  cases generation with
  | YOUNG =>
    obtain ⟨a1, a2, a3⟩ := service_concurrent_cycle_alloc _ _ _ _ _ _ _ h
    exact ⟨a1, a2, fun hc hx => by rw [a3 hc]; exact hx⟩
  | GLOBAL =>
    obtain ⟨a1, a2, a3⟩ := service_concurrent_cycle_alloc _ _ _ _ _ _ _ h
    exact ⟨a1, a2, fun hc hx => by rw [a3 hc]; exact hx⟩
  | OLD =>
    simp only [service_concurrent_old_cycle] at h
    have h := check_bind_ok _ _ _ _ _ h
    obtain ⟨v1, hv1, h⟩ := (bind_ok_iff _ _ _).mp h
    obtain ⟨a1, a2, a3⟩ := service_concurrent_cycle_alloc _ _ _ _ _ _ _ hv1
    split_ifs at h
    · obtain ⟨b1, b2⟩ := resume_concurrent_old_cycle_alloc _ _ _ _ _ h
      rw [set_gc_mode_eq] at b1 b2
      refine ⟨b1.trans a1, fun ha => b2 (a2 ha), ?_⟩
      intro hc hx
      exact b2 (by rw [← hx, ← a3 hc])
    · rw [pure_ok_iff] at h
      subst h
      exact ⟨a1, a2, fun hc hx => by rw [a3 hc]; exact hx⟩

theorem dispatch_cycle_alloc (fl : Flags) (inp : IterationInput) (sel : Selection)
    (age_period : Nat) (vm : VM) (r : GenerationMode × Nat × VM)
    (h : dispatch_cycle fl inp sel age_period vm = Except.ok r) :
    alloc_failure_notifications r.2.2 = alloc_failure_notifications vm
    ∧ (vm.ct.alloc_failure_gc = true → r.2.2.ct.alloc_failure_gc = true)
    ∧ (vm.ct.mode = GCMode.concurrent_normal → vm.heap.cancelled_gc = false →
        (apply_ops inp.concurrent_gc.during
          (update_aging fl sel.generation age_period vm).2).ct.alloc_failure_gc = true →
        r.2.2.ct.alloc_failure_gc = true) := by
  unfold dispatch_cycle at h
  split at h
  · obtain ⟨v1, hv1, h⟩ := (bind_ok_iff _ _ _).mp h
    obtain ⟨a1, a2, a3⟩ := service_concurrent_normal_cycle_alloc _ _ _ _ _ _ hv1
    obtain ⟨u1, u2, u3⟩ := update_aging_frame fl sel.generation age_period vm
    rw [pure_ok_iff] at h
    subst h
    refine ⟨?_, ?_, ?_⟩
    · rw [a1]
      simp only [alloc_failure_notifications, u3]
    · intro ha
      exact a2 (by rw [u1]; exact ha)
    · intro _ hc hx
      exact a3 (by rw [u2]; exact hc) hx
  · rename_i hmode
    obtain ⟨v1, hv1, h⟩ := (bind_ok_iff _ _ _).mp h
    rw [pure_ok_iff] at h
    subst h
    unfold service_stw_degenerated_cycle at hv1
    have hv1 := check_bind_ok _ _ _ _ _ hv1
    split at hv1
    · cases hv1
    · rw [pure_ok_iff] at hv1
      subst hv1
      refine ⟨?_, fun ha => apply_ops_alloc_failure_kept _ _ ha, ?_⟩
      · rw [emit_notifications _ _ (by simp), apply_ops_notifications]
      · intro hm
        rw [hmode] at hm
        cases hm
  · rename_i hmode
    rw [pure_ok_iff] at h
    subst h
    refine ⟨?_, fun ha => apply_ops_alloc_failure_kept _ _ ha, ?_⟩
    · simp only [service_stw_full_cycle]
      rw [emit_notifications _ _ (by simp), apply_ops_notifications]
    · intro hm
      rw [hmode] at hm
      cases hm
  · rename_i hmode
    have h := check_bind_ok _ _ _ _ _ h
    obtain ⟨v1, hv1, h⟩ := (bind_ok_iff _ _ _).mp h
    obtain ⟨b1, b2⟩ := resume_concurrent_old_cycle_alloc _ _ _ _ _ hv1
    rw [pure_ok_iff] at h
    subst h
    refine ⟨b1, b2, ?_⟩
    intro hm
    rw [hmode] at hm
    cases hm
  · cases h

/-- The updates after the `switch (_mode)` notify the allocation-failure waiters, and clear
the flag, exactly when the snapshot of the iteration saw the flag set. -/
theorem notify_and_retract_alloc (snap : Snapshot) (vm : VM) :
    alloc_failure_notifications (notify_and_retract snap vm)
        = alloc_failure_notifications vm + (if snap.alloc_failure_pending then 1 else 0)
    ∧ (snap.alloc_failure_pending = true →
        (notify_and_retract snap vm).ct.alloc_failure_gc = false) := by
  cases ha : snap.alloc_failure_pending <;>
    cases hr : (snap.explicit_gc_requested || snap.implicit_gc_requested) <;>
    simp [notify_and_retract, set_forced_counters_update, handle_force_counters_update,
      notify_alloc_failure_waiters, notify_gc_waiters, emit, alloc_failure_notifications,
      ha, hr, List.count_append] <;>
    split_ifs <;> simp

theorem run_cycle_alloc (fl : Flags) (inp : IterationInput) (snap : Snapshot) (sel : Selection)
    (age_period : Nat) (vm : VM) (r : GenerationMode × Nat × VM)
    (h : run_cycle fl inp snap sel age_period vm = Except.ok r) :
    alloc_failure_notifications r.2.2
        = alloc_failure_notifications vm + (if snap.alloc_failure_pending then 1 else 0)
    ∧ (snap.alloc_failure_pending = false → vm.ct.alloc_failure_gc = true →
        r.2.2.ct.alloc_failure_gc = true) := by
  unfold run_cycle at h
  obtain ⟨r1, hr1, h⟩ := (bind_ok_iff _ _ _).mp h
  obtain ⟨v2, hv2, h⟩ := (bind_ok_iff _ _ _).mp h
  rw [pure_ok_iff] at h
  subst h
  obtain ⟨a1, a2, _⟩ := dispatch_cycle_alloc _ _ _ _ _ _ hr1
  have e : v2 = notify_and_retract snap r1.2.2 := by
    unfold finish_cycle at hv2
    split at hv2
    · have hv2 := check_bind_ok _ _ _ _ _ hv2
      rw [pure_ok_iff] at hv2
      exact hv2.symm
    · rw [pure_ok_iff] at hv2
      exact hv2.symm
  subst e
  refine ⟨?_, ?_⟩
  · rw [(notify_and_retract_alloc snap r1.2.2).1, a1]
    rfl
  · intro hs ha
    rw [(notify_and_retract_degen snap r1.2.2).2.2 hs]
    exact a2 ha

/-- The head of an iteration leaves the trace and the allocation-failure flag as they are. -/
theorem run_selection_alloc (fl : Flags) (inp : IterationInput) (loc : Locals) (vm : VM)
    (s : Selected) (h : run_selection fl inp loc vm = Except.ok s) :
    s.vm.trace = vm.trace ∧ s.vm.ct.alloc_failure_gc = vm.ct.alloc_failure_gc := by
  unfold run_selection at h
  obtain ⟨r, hr, h⟩ := (bind_ok_iff _ _ _).mp h
  rw [pure_ok_iff] at h
  subst h
  simp only
  have hc : (check_soft_max_changed inp.SoftMaxHeapSize
      { vm with ct := { vm.ct with allocs_seen := 0 } }).2.trace = vm.trace
      ∧ (check_soft_max_changed inp.SoftMaxHeapSize
      { vm with ct := { vm.ct with allocs_seen := 0 } }).2.ct.alloc_failure_gc
        = vm.ct.alloc_failure_gc := by
    simp only [check_soft_max_changed]
    split_ifs <;> exact ⟨rfl, rfl⟩
  rw [← hc.1, ← hc.2]
  unfold select_mode at hr
  simp only at hr
  split_ifs at hr
  · cases hg : resumed_generation (set_gc_mode GCMode.none
        (check_soft_max_changed inp.SoftMaxHeapSize
          { vm with ct := { vm.ct with allocs_seen := 0 } }).2) with
    | none =>
      obtain ⟨f, hf⟩ := select_alloc_failure_null fl inp.heuristics _ hg
      rw [hf] at hr
      cases hr
    | some g =>
      rw [select_alloc_failure_eq fl inp.heuristics _ g hg, set_gc_mode_eq] at hr
      cases hr
      exact ⟨rfl, rfl⟩
  · rw [pure_ok_iff] at hr
    subst hr
    simp only [select_requested, set_gc_mode_eq, set_unload_classes]
    split_ifs <;> exact ⟨rfl, rfl⟩
  · rw [pure_ok_iff] at hr
    subst hr
    simp only [select_requested, set_gc_mode_eq, set_unload_classes]
    split_ifs <;> exact ⟨rfl, rfl⟩
  · rw [pure_ok_iff] at hr
    subst hr
    simp only [select_regulator, set_gc_mode_eq, set_unload_classes]
    split_ifs <;> exact ⟨rfl, rfl⟩

theorem run_shrink_notifications (fl : Flags) (snap : Snapshot) (soft_max_changed : Bool)
    (current last : ℚ) (vm : VM) :
    alloc_failure_notifications (run_shrink fl snap soft_max_changed current last vm).2
      = alloc_failure_notifications vm := by
  simp only [run_shrink, service_uncommit]
  split_ifs <;> first | rfl | exact emit_notifications _ _ (by simp)

theorem end_of_iteration_notifications (inp : IterationInput) (vm : VM) :
    alloc_failure_notifications (end_of_iteration inp vm) = alloc_failure_notifications vm := by
  simp only [end_of_iteration]
  rw [apply_ops_notifications]
  split_ifs
  · exact emit_notifications _ _ (by simp)
  · rfl

/-- An operation list that contains a call of `handle_alloc_failure` or of
`handle_alloc_failure_evac` leaves the flag set. -/
theorem apply_ops_sets_alloc_failure (ops : List ThreadOp) (vm : VM)
    (h : ThreadOp.handle_alloc_failure ∈ ops ∨ ThreadOp.handle_alloc_failure_evac ∈ ops) :
    (apply_ops ops vm).ct.alloc_failure_gc = true := by
  induction ops generalizing vm with
  | nil => simp at h
  | cons op ops ih =>
    have hstep : apply_ops (op :: ops) vm = apply_ops ops (apply_op op vm) := rfl
    rw [hstep]
    by_cases hop : op = ThreadOp.handle_alloc_failure ∨ op = ThreadOp.handle_alloc_failure_evac
    · apply apply_ops_alloc_failure_kept
      rcases hop with hop | hop
      · subst hop
        simp only [apply_op]
        rw [handle_alloc_failure_eq]
        split_ifs with hf
        · exact hf
        · rfl
      · subst hop
        simp only [apply_op, handle_alloc_failure_evac, try_set_alloc_failure_gc, cancel_gc]
        split_ifs with hf
        · exact hf
        · rfl
    · apply ih
      push_neg at hop
      rcases h with h | h
      · left
        rcases List.mem_cons.mp h with h | h
        · exact absurd h.symm hop.1
        · exact h
      · right
        rcases List.mem_cons.mp h with h | h
        · exact absurd h.symm hop.2
        · exact h

theorem run_selection_alloc_cause (fl : Flags) (inp : IterationInput) (loc : Locals) (vm : VM)
    (s : Selected) (h : run_selection fl inp loc vm = Except.ok s)
    (ha : s.snap.alloc_failure_pending = true) :
    s.sel.cause = Cause.allocation_failure := by
  unfold run_selection at h
  obtain ⟨r, hr, h⟩ := (bind_ok_iff _ _ _).mp h
  rw [pure_ok_iff] at h
  subst h
  simp only at ha ⊢
  unfold select_mode at hr
  simp only [ha, if_true] at hr
  cases hg : resumed_generation (set_gc_mode GCMode.none
      (check_soft_max_changed inp.SoftMaxHeapSize
        { vm with ct := { vm.ct with allocs_seen := 0 } }).2) with
  | none =>
    obtain ⟨f, hf⟩ := select_alloc_failure_null fl inp.heuristics _ hg
    rw [hf] at hr
    cases hr
  | some g =>
    rw [select_alloc_failure_eq fl inp.heuristics _ g hg] at hr
    cases hr
    rfl

/-- What the updates after the `switch (_mode)` append to the trace. -/
theorem notify_and_retract_trace (snap : Snapshot) (vm : VM) :
    (notify_and_retract snap vm).trace = vm.trace
      ++ ((if (snap.explicit_gc_requested || snap.implicit_gc_requested)
            then [Event.notify_gc_waiters] else [])
          ++ (if snap.alloc_failure_pending
            then [Event.notify_alloc_failure_waiters] else [])) := by
  have hf : ∀ v : VM, (handle_force_counters_update v).trace = v.trace := by
    intro v
    unfold handle_force_counters_update
    split_ifs <;> rfl
  simp only [notify_and_retract, set_forced_counters_update, hf]
  cases ha : snap.alloc_failure_pending <;>
    cases hr : (snap.explicit_gc_requested || snap.implicit_gc_requested) <;>
    simp [notify_alloc_failure_waiters, notify_gc_waiters, emit]

theorem apply_ops_trace_extends (ops : List ThreadOp) (vm : VM) :
    vm.trace <+: (apply_ops ops vm).trace := by
  unfold apply_ops
  induction ops generalizing vm with
  | nil => exact List.prefix_refl _
  | cons op ops ih =>
    rw [List.foldl_cons]
    refine List.IsPrefix.trans ?_ (ih _)
    cases op with
    | request_concurrent_gc generation =>
      simp only [apply_op]
      rw [request_concurrent_gc_eq]
      split_ifs
      · exact List.prefix_refl _
      · exact List.prefix_append _ _
      · exact List.prefix_append _ _
      · exact List.prefix_refl _
    | post_requested_gc cause => exact List.prefix_append _ _
    | handle_alloc_failure =>
      simp only [apply_op]
      rw [handle_alloc_failure_eq]
      split_ifs <;> exact List.prefix_refl _
    | handle_alloc_failure_evac =>
      simp only [apply_op, handle_alloc_failure_evac, try_set_alloc_failure_gc, cancel_gc]
      split_ifs <;> exact List.prefix_refl _
    | notify_heap_changed =>
      simp only [apply_op, notify_heap_changed]
      split_ifs <;> exact List.prefix_refl _
    | _ => exact List.prefix_refl _

/-- The trace of an iteration that found an allocation failure pending: the degenerated or
the full collaborator is invoked with cause allocation_failure, and the allocation-failure
waiters are notified after it. -/
theorem alloc_failure_iteration_trace (fl : Flags) (inp : IterationInput) (loc : Locals)
    (vm : VM) (r : Locals × VM) (h : run_service_iteration fl inp loc vm = Except.ok r)
    (ha : vm.ct.alloc_failure_gc = true) :
    ∃ pre mid post e, r.2.trace
        = pre ++ e :: (mid ++ Event.notify_alloc_failure_waiters :: post)
      ∧ vm.trace <+: pre
      ∧ ((∃ p g, e = Event.degen_collect p g Cause.allocation_failure)
          ∨ e = Event.full_collect Cause.allocation_failure) := by
  unfold run_service_iteration at h
  obtain ⟨s, hs, h⟩ := (bind_ok_iff _ _ _).mp h
  have hsnap : s.snap.alloc_failure_pending = true := by
    rw [run_selection_snap fl inp loc vm s hs]
    exact ha
  have hcause := run_selection_alloc_cause fl inp loc vm s hs hsnap
  have hmode := run_selection_alloc_mode fl inp loc vm s hs hsnap
  have htr := (run_selection_alloc fl inp loc vm s hs).1
  unfold run_remainder at h
  simp only at h
  have h := check_bind_ok _ _ _ _ _ h
  obtain ⟨c, hc, h⟩ := (bind_ok_iff _ _ _).mp h
  rw [pure_ok_iff] at h
  subst h
  rw [blow_soft_refs_ct, apply_ops_mode] at hc
  have hne : (s.vm.ct.mode != GCMode.none) = true := by
    rcases hmode with hm | hm <;> rw [hm] <;> decide
  rw [if_pos hne] at hc
  unfold run_cycle at hc
  obtain ⟨r1, hr1, hc⟩ := (bind_ok_iff _ _ _).mp hc
  obtain ⟨v2, hv2, hc⟩ := (bind_ok_iff _ _ _).mp hc
  rw [pure_ok_iff] at hc
  subst hc
  have e2 : v2 = notify_and_retract s.snap r1.2.2 := by
    unfold finish_cycle at hv2
    split at hv2
    · have hv2 := check_bind_ok _ _ _ _ _ hv2
      rw [pure_ok_iff] at hv2
      exact hv2.symm
    · rw [pure_ok_iff] at hv2
      exact hv2.symm
  subst e2
  have hmX : (cycle_entry fl inp s).ct.mode = s.vm.ct.mode := by
    simp only [cycle_entry, set_forced_counters_update, update_gc_id]
    rw [blow_soft_refs_ct, apply_ops_mode]
  have hpre : vm.trace <+: (cycle_entry fl inp s).trace := by
    have e : (cycle_entry fl inp s).trace = (apply_ops inp.before_cycle s.vm).trace := by
      simp only [cycle_entry, set_forced_counters_update, update_gc_id, blow_soft_refs]
      split_ifs <;> rfl
    rw [e, ← htr]
    exact apply_ops_trace_extends _ _
  change dispatch_cycle fl inp s.sel loc.age_period (cycle_entry fl inp s) = Except.ok r1
    at hr1
  -- the collaborator's event
  have hcollect : ∃ pre e, r1.2.2.trace = pre ++ [e] ∧ vm.trace <+: pre
      ∧ ((∃ p g, e = Event.degen_collect p g Cause.allocation_failure)
          ∨ e = Event.full_collect Cause.allocation_failure) := by
    unfold dispatch_cycle at hr1
    rcases hmode with hm | hm
    · rw [hmX, hm] at hr1
      simp only at hr1
      obtain ⟨d, hd, hr1⟩ := (bind_ok_iff _ _ _).mp hr1
      rw [pure_ok_iff] at hr1
      subst hr1
      unfold service_stw_degenerated_cycle at hd
      have hd := check_bind_ok _ _ _ _ _ hd
      split at hd
      · cases hd
      · rw [pure_ok_iff] at hd
        subst hd
        exact ⟨_, _, rfl, hpre.trans (apply_ops_trace_extends _ _),
          Or.inl ⟨s.sel.degen_point, _, congrArg _ hcause⟩⟩
    · rw [hmX, hm] at hr1
      simp only at hr1
      rw [pure_ok_iff] at hr1
      subst hr1
      exact ⟨_, _, rfl, hpre.trans (apply_ops_trace_extends _ _),
        Or.inr (congrArg _ hcause)⟩
  obtain ⟨pre, e, he, hp, hkind⟩ := hcollect
  -- the notification
  have hnotify : ∃ mid, (notify_and_retract s.snap r1.2.2).trace
      = r1.2.2.trace ++ (mid ++ [Event.notify_alloc_failure_waiters]) := by
    refine ⟨if (s.snap.explicit_gc_requested || s.snap.implicit_gc_requested)
        then [Event.notify_gc_waiters] else [], ?_⟩
    rw [notify_and_retract_trace, hsnap]
    rfl
  obtain ⟨mid, hmid⟩ := hnotify
  -- the rest of the iteration only appends
  have hrest : (notify_and_retract s.snap r1.2.2).trace <+:
      (end_of_iteration inp (run_shrink fl s.snap s.soft_max_changed inp.current
        loc.last_shrink_time (notify_and_retract s.snap r1.2.2)).2).trace := by
    refine List.IsPrefix.trans ?_ (apply_ops_trace_extends _ _)
    have h1 : (notify_and_retract s.snap r1.2.2).trace <+:
        (run_shrink fl s.snap s.soft_max_changed inp.current
          loc.last_shrink_time (notify_and_retract s.snap r1.2.2)).2.trace := by
      simp only [run_shrink, service_uncommit, emit]
      split_ifs <;> first | exact List.prefix_refl _ | exact List.prefix_append _ _
    refine List.IsPrefix.trans h1 ?_
    split_ifs
    · exact List.prefix_append _ _
    · exact List.prefix_refl _
  obtain ⟨post, hpost⟩ := hrest
  refine ⟨pre, mid, post, e, ?_, hp, hkind⟩
  simp only
  rw [← hpost, hmid, he]
  simp

/-- C28: an iteration that completes notifies the allocation-failure waiters, which is the
only way the control loop clears `_alloc_failure_gc`, exactly once when its snapshot saw the
flag set and never otherwise.  When the snapshot saw the flag set, the iteration selected
stw_degenerated or stw_full, and the notification comes after the degenerated or full
collaborator was invoked with cause allocation_failure.  When the snapshot saw the flag
clear, a flag set later in the iteration is still set at its end: set before the cycle
starts, set while the concurrent collaborator runs, or set during the wait. -/
theorem C28_alloc_failure_cleared_once (fl : Flags) (inp : IterationInput) (loc : Locals)
    (vm : VM) (r : Locals × VM) (h : run_service_iteration fl inp loc vm = Except.ok r) :
    (∀ v : VM, (notify_alloc_failure_waiters v).ct.alloc_failure_gc = false)
    ∧ ∃ s, run_selection fl inp loc vm = Except.ok s
      ∧ s.snap.alloc_failure_pending = vm.ct.alloc_failure_gc
      ∧ alloc_failure_notifications r.2
          = alloc_failure_notifications vm + (if vm.ct.alloc_failure_gc then 1 else 0)
      ∧ (vm.ct.alloc_failure_gc = true →
          (s.vm.ct.mode = GCMode.stw_degenerated ∨ s.vm.ct.mode = GCMode.stw_full)
          ∧ ∃ pre mid post e, r.2.trace
              = pre ++ e :: (mid ++ Event.notify_alloc_failure_waiters :: post)
            ∧ vm.trace <+: pre
            ∧ ((∃ p g, e = Event.degen_collect p g Cause.allocation_failure)
                ∨ e = Event.full_collect Cause.allocation_failure))
      ∧ (vm.ct.alloc_failure_gc = false →
          ((apply_ops inp.before_cycle s.vm).ct.alloc_failure_gc = true →
            r.2.ct.alloc_failure_gc = true)
          ∧ (s.vm.ct.mode = GCMode.concurrent_normal →
              (cycle_entry fl inp s).heap.cancelled_gc = false →
              (collect_exit fl inp loc s).ct.alloc_failure_gc = true →
              r.2.ct.alloc_failure_gc = true)
          ∧ ((ThreadOp.handle_alloc_failure ∈ inp.during_wait
                ∨ ThreadOp.handle_alloc_failure_evac ∈ inp.during_wait) →
              r.2.ct.alloc_failure_gc = true)) := by
  refine ⟨fun _ => rfl, ?_⟩
  have htrace := alloc_failure_iteration_trace fl inp loc vm r h
  unfold run_service_iteration at h
  obtain ⟨s, hs, h⟩ := (bind_ok_iff _ _ _).mp h
  have hsnap : s.snap.alloc_failure_pending = vm.ct.alloc_failure_gc := by
    rw [run_selection_snap fl inp loc vm s hs]
    rfl
  obtain ⟨htr, _⟩ := run_selection_alloc fl inp loc vm s hs
  unfold run_remainder at h
  simp only at h
  have h := check_bind_ok _ _ _ _ _ h
  obtain ⟨c, hc, h⟩ := (bind_ok_iff _ _ _).mp h
  rw [pure_ok_iff] at h
  subst h
  rw [blow_soft_refs_ct, apply_ops_mode] at hc
  have hblow : alloc_failure_notifications
      (blow_soft_refs fl s.snap s.sel (apply_ops inp.before_cycle s.vm))
      = alloc_failure_notifications vm := by
    have e : (blow_soft_refs fl s.snap s.sel (apply_ops inp.before_cycle s.vm)).trace
        = (apply_ops inp.before_cycle s.vm).trace := by
      unfold blow_soft_refs
      split_ifs <;> rfl
    have e2 := apply_ops_notifications inp.before_cycle s.vm
    simp only [alloc_failure_notifications] at e2 ⊢
    rw [e, e2, htr]
  refine ⟨s, hs, hsnap, ?_, ?_, ?_⟩
  · simp only
    rw [end_of_iteration_notifications, run_shrink_notifications]
    by_cases hm : (s.vm.ct.mode != GCMode.none) = true
    · rw [if_pos hm] at hc
      rw [(run_cycle_alloc _ _ _ _ _ _ _ hc).1, hblow, hsnap]
    · rw [if_neg hm, pure_ok_iff] at hc
      subst hc
      simp only
      rw [hblow]
      cases ha : vm.ct.alloc_failure_gc
      · simp
      · exfalso
        rcases run_selection_alloc_mode fl inp loc vm s hs (hsnap.trans ha) with h1 | h1 <;>
          rw [h1] at hm <;> exact hm (by decide)
  · intro ha
    exact ⟨run_selection_alloc_mode fl inp loc vm s hs (hsnap.trans ha), htrace ha⟩
  · intro ha
    have hsf : s.snap.alloc_failure_pending = false := hsnap.trans ha
    have htail : c.2.2.ct.alloc_failure_gc = true →
        (end_of_iteration inp (run_shrink fl s.snap s.soft_max_changed inp.current
          loc.last_shrink_time c.2.2).2).ct.alloc_failure_gc = true := by
      intro hx
      apply (end_of_iteration_degen inp _).2.2
      rw [(run_shrink_ct _ _ _ _ _ _).1]
      exact hx
    refine ⟨?_, ?_, ?_⟩
    · intro hx
      apply htail
      by_cases hm : (s.vm.ct.mode != GCMode.none) = true
      · rw [if_pos hm] at hc
        exact (run_cycle_alloc _ _ _ _ _ _ _ hc).2 hsf (by rw [blow_soft_refs_ct]; exact hx)
      · rw [if_neg hm, pure_ok_iff] at hc
        subst hc
        simp only
        rw [blow_soft_refs_ct]
        exact hx
    · intro hm hentry hx
      apply htail
      rw [hm, if_pos (by decide)] at hc
      unfold run_cycle at hc
      obtain ⟨r1, hr1, hc⟩ := (bind_ok_iff _ _ _).mp hc
      obtain ⟨v2, hv2, hc⟩ := (bind_ok_iff _ _ _).mp hc
      rw [pure_ok_iff] at hc
      subst hc
      change dispatch_cycle fl inp s.sel loc.age_period (cycle_entry fl inp s) = Except.ok r1
        at hr1
      have hmX : (cycle_entry fl inp s).ct.mode = GCMode.concurrent_normal := by
        simp only [cycle_entry, set_forced_counters_update, update_gc_id]
        rw [blow_soft_refs_ct, apply_ops_mode, hm]
      have k := (dispatch_cycle_alloc _ _ _ _ _ _ hr1).2.2 hmX hentry hx
      simp only
      rw [(finish_cycle_degen _ _ _ _ _ hv2).2.2 hsf]
      exact k
    · intro hx
      simp only [end_of_iteration]
      exact apply_ops_sets_alloc_failure _ _ hx

/-- C28 at the two iterations of the second scenario of the specification: the young cycle is
cancelled by an allocation failure raised while its collaborator runs; that iteration, whose
snapshot saw the flag clear, leaves the flag set and notifies nobody; the next iteration,
whose snapshot sees the flag set, runs the degenerated cycle and then clears the flag and
notifies the waiters once. -/
theorem C28_alloc_failure_cleared_once_witness :
    ∃ r1 r2, run_service_iteration Flags.no_uncommit IterationInput.cancelled_by_alloc_failure
          (Locals.init 0) VM.young_requested = Except.ok r1
      ∧ VM.young_requested.ct.alloc_failure_gc = false
      ∧ r1.2.ct.alloc_failure_gc = true
      ∧ alloc_failure_notifications r1.2 = 0
      ∧ run_service_iteration Flags.no_uncommit IterationInput.quiet r1.1 r1.2 = Except.ok r2
      ∧ r2.2.ct.alloc_failure_gc = false
      ∧ alloc_failure_notifications r2.2 = 0 + 1 := by
  have T1 := C28_alloc_failure_cleared_once Flags.no_uncommit
    IterationInput.cancelled_by_alloc_failure (Locals.init 0) VM.young_requested _ rfl
  obtain ⟨_, s1, _, _, n1, _, _⟩ := T1
  have T2 := C28_alloc_failure_cleared_once Flags.no_uncommit IterationInput.quiet
    { generation := GenerationMode.YOUNG, last_shrink_time := 0, age_period := 0 }
    (iteration_state Flags.no_uncommit IterationInput.cancelled_by_alloc_failure
      (Locals.init 0) VM.young_requested) _ rfl
  obtain ⟨_, s2, _, _, n2, _, _⟩ := T2
  exact ⟨_, _, rfl, rfl, rfl, n1, rfl, rfl, n2⟩

/-! ### A preemption request left pending by the allocation-failure exit -/

/-- C34 (the allocation-failure exit leaves the preemption request pending): when a
preemption and an allocation failure were both raised for one cancellation,
`check_cancellation_or_degen` returns true through its allocation-failure exit, which does
not unset `_preemption_requested` as the preemption exit does.  The flag is still set after
the allocation failure has been served by a degenerated cycle and after the young cycle that
follows, and from then on `request_concurrent_gc` rejects every request. -/
theorem C34_preemption_left_pending :
    (∃ v, check_cancellation_or_degen Flags.sample
          ShenandoahDegenPoint.degenerated_outside_cycle
          (apply_ops [ThreadOp.request_concurrent_gc GenerationMode.YOUNG,
                      ThreadOp.handle_alloc_failure] VM.old_marking_armed)
          = Except.ok (true, v)
      ∧ in_graceful_shutdown v = false
      ∧ v.ct.preemption_requested = true)
    ∧ (∃ r, run_service Flags.no_uncommit
          [IterationInput.old_preempted_then_alloc_failure,
           IterationInput.degenerated_clears_cancellation,
           IterationInput.quiet]
          (Locals.init 0) VM.old_mark_in_progress = Except.ok r
      ∧ r.2.trace =
          [Event.notify_control_thread,
           Event.old_collect Cause.shenandoah_concurrent_gc false,
           Event.degen_collect ShenandoahDegenPoint.degenerated_outside_cycle
             GenerationMode.YOUNG Cause.allocation_failure,
           Event.notify_alloc_failure_waiters,
           Event.control_wait,
           Event.concurrent_collect GenerationMode.YOUNG false
             Cause.shenandoah_concurrent_gc true,
           Event.control_wait]
      ∧ r.2.ct.alloc_failure_gc = false
      ∧ r.2.ct.gc_requested = false
      ∧ r.2.heap.cancelled_gc = false
      ∧ r.2.ct.preemption_requested = true
      ∧ ∀ g, request_concurrent_gc g r.2 = (false, r.2)) :=
  ⟨⟨_, rfl, rfl, rfl⟩, ⟨_, rfl, rfl, rfl, rfl, rfl, rfl, fun g => by cases g <;> rfl⟩⟩

/-! ### The old cycle: young bootstrap, then old marking -/

theorem emit_collector_runs (e : Event) (vm : VM) :
    collector_runs (emit e vm) = collector_runs vm ++ (if is_collect e then [e] else []) := by
  unfold collector_runs emit
  simp only [List.filter_append, List.filter_cons, List.filter_nil]

theorem apply_op_collector_runs (op : ThreadOp) (vm : VM) :
    collector_runs (apply_op op vm) = collector_runs vm := by
  have hn : ∀ v : VM, collector_runs (emit Event.notify_control_thread v) = collector_runs v := by
    intro v
    rw [emit_collector_runs]
    simp [is_collect]
  cases op with
  | request_concurrent_gc generation =>
    simp only [apply_op]
    rw [request_concurrent_gc_eq]
    split_ifs
    · rfl
    · exact hn _
    · exact hn _
    · rfl
  | post_requested_gc cause => exact hn _
  | handle_alloc_failure =>
    simp only [apply_op]
    rw [handle_alloc_failure_eq]
    split_ifs <;> rfl
  | handle_alloc_failure_evac =>
    simp only [apply_op, handle_alloc_failure_evac, try_set_alloc_failure_gc, cancel_gc]
    split_ifs <;> rfl
  | notify_heap_changed =>
    simp only [apply_op, notify_heap_changed]
    split_ifs <;> rfl
  | _ => rfl

theorem apply_ops_collector_runs (ops : List ThreadOp) (vm : VM) :
    collector_runs (apply_ops ops vm) = collector_runs vm := by
  unfold apply_ops
  induction ops generalizing vm with
  | nil => rfl
  | cons op ops ih => rw [List.foldl_cons, ih, apply_op_collector_runs]

/-- A successful call of `check_cancellation_or_degen` reports whether the heap was cancelled
and leaves the trace alone. -/
theorem check_cancellation_or_degen_trace (fl : Flags) (point : ShenandoahDegenPoint)
    (vm : VM) (r : Bool × VM)
    (h : check_cancellation_or_degen fl point vm = Except.ok r) :
    r.1 = vm.heap.cancelled_gc ∧ r.2.trace = vm.trace := by
  rw [check_cancellation_or_degen_eq] at h
  cases hc : vm.heap.cancelled_gc
  · rw [if_pos hc] at h
    cases h
    exact ⟨rfl, rfl⟩
  · rw [if_neg (by simp [hc])] at h
    split_ifs at h <;> cases h <;> exact ⟨rfl, rfl⟩

/-- The collaborator runs recorded by `service_concurrent_cycle`: none when the heap is
cancelled on entry, the one run of `ShenandoahConcurrentGC` otherwise. -/
theorem service_concurrent_cycle_runs (fl : Flags) (generation : GenerationMode)
    (cause : Cause) (bootstrap : Bool) (run : ConcurrentGCRun) (vm vm' : VM)
    (h : service_concurrent_cycle fl generation cause bootstrap run vm = Except.ok vm') :
    collector_runs vm' = collector_runs vm ++
      (if vm.heap.cancelled_gc then []
       else [Event.concurrent_collect generation bootstrap cause run.completed]) := by
  unfold service_concurrent_cycle at h
  obtain ⟨r, hr, h⟩ := (bind_ok_iff _ _ _).mp h
  obtain ⟨e1, e2⟩ := check_cancellation_or_degen_trace _ _ _ _ hr
  have e3 : collector_runs r.2 = collector_runs vm := by
    unfold collector_runs; rw [e2]
  rw [← e1]
  split_ifs at h with h1 h2
  · rw [pure_ok_iff] at h; subst h
    simp [e3, h1]
  · rw [pure_ok_iff] at h; subst h
    rw [emit_collector_runs, apply_ops_collector_runs, e3]
    simp [is_collect, h1]
  · have h := check_bind_ok _ _ _ _ _ h
    obtain ⟨r2, hr2, h⟩ := (bind_ok_iff _ _ _).mp h
    obtain ⟨_, e5⟩ := check_cancellation_or_degen_trace _ _ _ _ hr2
    have h := check_bind_ok _ _ _ _ _ h
    rw [pure_ok_iff] at h; subst h
    show collector_runs r2.2 = _
    have e7 : collector_runs r2.2 = collector_runs
        (emit (Event.concurrent_collect generation bootstrap cause run.completed)
          (apply_ops run.during r.2)) := by
      unfold collector_runs; rw [e5]
    rw [e7, emit_collector_runs, apply_ops_collector_runs, e3]
    simp [is_collect, h1]

/-- The collaborator runs recorded by `resume_concurrent_old_cycle`: the one run of
`ShenandoahOldGC`. -/
theorem resume_concurrent_old_cycle_runs (fl : Flags) (cause : Cause) (run : OldGCRun)
    (vm vm' : VM) (h : resume_concurrent_old_cycle fl cause run vm = Except.ok vm') :
    collector_runs vm' = collector_runs vm ++ [Event.old_collect cause run.completed] := by
  unfold resume_concurrent_old_cycle at h
  have h := check_bind_ok _ _ _ _ _ h
  simp only at h
  have e0 : collector_runs (emit (Event.old_collect cause run.completed)
      (apply_ops run.during vm))
      = collector_runs vm ++ [Event.old_collect cause run.completed] := by
    rw [emit_collector_runs, apply_ops_collector_runs]
    simp [is_collect]
  split_ifs at h
  · obtain ⟨r, hr, h⟩ := (bind_ok_iff _ _ _).mp h
    obtain ⟨_, e2⟩ := check_cancellation_or_degen_trace _ _ _ _ hr
    rw [pure_ok_iff] at h; subst h
    rw [← e0]
    unfold collector_runs; rw [e2]
  · rw [pure_ok_iff] at h; subst h
    exact e0

/-- An assertion that holds, or is compiled out, lets the code go on. -/
theorem check_passes (fl : Flags) (c : Bool) (f : Fault) (h : fl.ASSERT = true → c = true) :
    check fl c f = Except.ok () := by
  unfold check
  cases hA : fl.ASSERT
  · rfl
  · rw [h hA]; rfl

/-- C32: called in mode concurrent_normal (in a debug build: with no old mark in progress, as
its first assertion demands), `service_concurrent_old_cycle` is decided by the young
generation's cycle it runs first, in bootstrap mode: a fault of that cycle is its fault; when
that cycle returns, it has run `ShenandoahConcurrentGC` on YOUNG with the bootstrap flag
(unless the heap was cancelled on entry) and left the mode concurrent_normal.  If the heap is
not cancelled then, the result is that of `resume_concurrent_old_cycle` entered with the
degen point reset to outside_cycle and the mode marking_old, and every state it returns has
mode marking_old and one more collaborator run, that of `ShenandoahOldGC`.  If the heap is
cancelled, the function returns the state the young cycle left: old marking is not resumed,
the degen point is not reset, and the mode is still concurrent_normal. -/
theorem C32_old_cycle_bootstrap (fl : Flags) (cause : Cause) (inp : IterationInput) (vm : VM)
    (hmode : vm.ct.mode = GCMode.concurrent_normal)
    (hold : fl.ASSERT = true → vm.heap.concurrent_old_mark_in_progress = false) :
    (∀ f, service_concurrent_cycle fl GenerationMode.YOUNG cause true inp.concurrent_gc vm
          = Except.error f →
        service_concurrent_old_cycle fl cause inp vm = Except.error f)
    ∧ ∀ vm1, service_concurrent_cycle fl GenerationMode.YOUNG cause true inp.concurrent_gc vm
          = Except.ok vm1 →
        collector_runs vm1 = collector_runs vm ++
            (if vm.heap.cancelled_gc then []
             else [Event.concurrent_collect GenerationMode.YOUNG true cause
                     inp.concurrent_gc.completed])
        ∧ vm1.ct.mode = GCMode.concurrent_normal
        ∧ (vm1.heap.cancelled_gc = false →
            service_concurrent_old_cycle fl cause inp vm
              = resume_concurrent_old_cycle fl cause inp.old_gc
                  { vm1 with ct := { vm1.ct with
                      degen_point := ShenandoahDegenPoint.degenerated_outside_cycle
                      mode := GCMode.marking_old } }
            ∧ ∀ vm', service_concurrent_old_cycle fl cause inp vm = Except.ok vm' →
                vm'.ct.mode = GCMode.marking_old
                ∧ collector_runs vm' = collector_runs vm1
                    ++ [Event.old_collect cause inp.old_gc.completed])
        ∧ (vm1.heap.cancelled_gc = true →
            service_concurrent_old_cycle fl cause inp vm = Except.ok vm1) := by
  have hcheck : check fl (!vm.heap.concurrent_old_mark_in_progress)
      Fault.assert_old_already_in_progress = Except.ok () :=
    check_passes _ _ _ (fun hA => by rw [hold hA]; rfl)
  have hdef : service_concurrent_old_cycle fl cause inp vm =
      (service_concurrent_cycle fl GenerationMode.YOUNG cause true inp.concurrent_gc vm >>=
        fun v => if (!v.heap.cancelled_gc) = true then
            resume_concurrent_old_cycle fl cause inp.old_gc
              (set_gc_mode GCMode.marking_old
                { v with ct := { v.ct with
                    degen_point := ShenandoahDegenPoint.degenerated_outside_cycle } })
          else pure v) := by
    unfold service_concurrent_old_cycle
    rw [hcheck]
    rfl
  refine ⟨fun f hf => by rw [hdef, hf]; rfl, fun vm1 h1 => ?_⟩
  have hm1 : vm1.ct.mode = GCMode.concurrent_normal := by
    rw [service_concurrent_cycle_mode _ _ _ _ _ _ _ h1, hmode]
  refine ⟨service_concurrent_cycle_runs _ _ _ _ _ _ _ h1, hm1, fun hc => ?_, fun hc => ?_⟩
  · have heq : service_concurrent_old_cycle fl cause inp vm
        = resume_concurrent_old_cycle fl cause inp.old_gc
            { vm1 with ct := { vm1.ct with
                degen_point := ShenandoahDegenPoint.degenerated_outside_cycle
                mode := GCMode.marking_old } } := by
      rw [hdef, h1]
      simp only [bind, Except.bind, hc, Bool.not_false, if_true, set_gc_mode_eq]
    refine ⟨heq, fun vm' h' => ?_⟩
    rw [heq] at h'
    exact ⟨by rw [resume_concurrent_old_cycle_mode _ _ _ _ _ h'],
           by rw [resume_concurrent_old_cycle_runs _ _ _ _ _ h']; rfl⟩
  · rw [hdef, h1]
    simp only [bind, Except.bind, hc, Bool.not_true, Bool.false_eq_true, if_false]
    rfl

/-- C32 at concrete inputs.  From the state in which the `switch` is entered for the
regulator's OLD request: when the young bootstrap cycle completes, the old collaborator runs
next and the mode is marking_old on return; when the bootstrap cycle is cancelled by an
allocation failure, the function returns with the old collaborator not run and the mode
still concurrent_normal. -/
theorem C32_old_cycle_bootstrap_witness :
    (∃ vm', service_concurrent_old_cycle Flags.sample Cause.shenandoah_concurrent_gc
          IterationInput.bootstrap (set_gc_mode GCMode.concurrent_normal VM.old_requested)
          = Except.ok vm'
      ∧ vm'.ct.mode = GCMode.marking_old
      ∧ collector_runs vm' =
          [Event.concurrent_collect GenerationMode.YOUNG true Cause.shenandoah_concurrent_gc
             true,
           Event.old_collect Cause.shenandoah_concurrent_gc true])
    ∧ (∃ vm1, service_concurrent_old_cycle Flags.sample Cause.shenandoah_concurrent_gc
          IterationInput.cancelled_by_alloc_failure
          (set_gc_mode GCMode.concurrent_normal VM.old_requested) = Except.ok vm1
      ∧ vm1.ct.mode = GCMode.concurrent_normal
      ∧ vm1.ct.degen_point = ShenandoahDegenPoint.degenerated_mark
      ∧ collector_runs vm1 =
          [Event.concurrent_collect GenerationMode.YOUNG true Cause.shenandoah_concurrent_gc
             false]) := by
  have T1 := (C32_old_cycle_bootstrap Flags.sample Cause.shenandoah_concurrent_gc
    IterationInput.bootstrap (set_gc_mode GCMode.concurrent_normal VM.old_requested)
    rfl (fun _ => rfl)).2 _ rfl
  have T2 := (C32_old_cycle_bootstrap Flags.sample Cause.shenandoah_concurrent_gc
    IterationInput.cancelled_by_alloc_failure
    (set_gc_mode GCMode.concurrent_normal VM.old_requested) rfl (fun _ => rfl)).2 _ rfl
  exact ⟨⟨_, rfl, (T1.2.2.1 rfl).2 _ rfl |>.1, rfl⟩, ⟨_, T2.2.2.2 rfl, T2.2.1, rfl, rfl⟩⟩

/-! ### The aging-cycle counter -/

theorem round_half_even_le (m : ℚ) (k : ℤ) (h : m ≤ k) : round_half_even m ≤ k := by
  have hf : (⌊m⌋ : ℚ) ≤ m := Int.floor_le m
  have hfk : ⌊m⌋ ≤ k := by exact_mod_cast hf.trans h
  have hstep : ¬ (m - ⌊m⌋ < 1 / 2) → ⌊m⌋ + 1 ≤ k := by
    intro hn
    have h1 : (⌊m⌋ : ℚ) < k := by linarith
    have h2 : ⌊m⌋ < k := by exact_mod_cast h1
    omega
  unfold round_half_even
  split_ifs with h1 h2 h3
  · exact hfk
  · exact hstep h1
  · exact hfk
  · exact hstep h1

theorem le_round_half_even (m : ℚ) (k : ℤ) (h : (k : ℚ) ≤ m) : k ≤ round_half_even m := by
  have hfk : k ≤ ⌊m⌋ := Int.le_floor.mpr h
  unfold round_half_even
  split_ifs <;> omega

theorem lt_round_half_even (m : ℚ) (k : ℤ) (h : (k : ℚ) + 1 / 2 < m) :
    k < round_half_even m := by
  have hfk : k ≤ ⌊m⌋ := Int.le_floor.mpr (by linarith)
  have hstay : m - ⌊m⌋ ≤ 1 / 2 → k < ⌊m⌋ := by
    intro hle
    have h1 : (k : ℚ) < ⌊m⌋ := by linarith
    exact_mod_cast h1
  unfold round_half_even
  split_ifs with h1 h2 h3
  · exact hstay (le_of_lt h1)
  · omega
  · exact hstay (not_lt.mp h2)
  · omega

theorem two_zpow_log_le (x : ℚ) (hx : 0 < x) : (2 : ℚ) ^ Int.log 2 x ≤ x := by
  have h := Int.zpow_log_le_self (b := 2) (r := x) (by norm_num) hx
  simpa using h

theorem lt_two_zpow_log_succ (x : ℚ) : x < (2 : ℚ) ^ (Int.log 2 x + 1) := by
  have h := Int.lt_zpow_succ_log_self (b := 2) (by norm_num) x
  simpa using h

theorem log_lt_of_lt_two_zpow (x : ℚ) (hx : 0 < x) (k : ℤ) (h : x < (2 : ℚ) ^ k) :
    Int.log 2 x < k := by
  have h2 := (Int.lt_zpow_iff_log_lt (b := 2) (by norm_num) (x := k) hx).mp (by simpa using h)
  exact h2

theorem le_log_of_two_zpow_le (x : ℚ) (hx : 0 < x) (k : ℤ) (h : (2 : ℚ) ^ k ≤ x) :
    k ≤ Int.log 2 x := by
  have h2 := (Int.zpow_le_iff_le_log (b := 2) (by norm_num) (x := k) hx).mp (by simpa using h)
  exact h2

/-- The exponent of the binade of `x`, from bounds on `x`. -/
theorem log_eq_of_bounds (x : ℚ) (e : ℤ) (h1 : (2 : ℚ) ^ e ≤ x)
    (h2 : x < (2 : ℚ) ^ (e + 1)) : Int.log 2 x = e := by
  have hx : 0 < x := lt_of_lt_of_le (by positivity) h1
  have a := le_log_of_two_zpow_le x hx e h1
  have b := log_lt_of_lt_two_zpow x hx (e + 1) h2
  omega

/-- A positive rational rounds to a positive `float`: the significand is at least
`2 ^ 23`. -/
theorem to_float_pos_pos (x : ℚ) (hx : 0 < x) : 0 < to_float_pos x := by
  unfold to_float_pos
  have hu : (0 : ℚ) < 2 ^ (Int.log 2 x - 23) := by positivity
  have hm : ((2 ^ 23 : ℤ) : ℚ) ≤ x / 2 ^ (Int.log 2 x - 23) := by
    rw [le_div_iff₀ hu]
    have h1 := two_zpow_log_le x hx
    have h2 : ((2 ^ 23 : ℤ) : ℚ) * 2 ^ (Int.log 2 x - 23) = 2 ^ Int.log 2 x := by
      rw [zpow_sub₀ (by norm_num : (2 : ℚ) ≠ 0)]
      norm_num
      ring
    rw [h2]
    exact h1
  have hR := le_round_half_even _ _ hm
  have hR2 : (0 : ℚ) < round_half_even (x / 2 ^ (Int.log 2 x - 23)) := by
    have : (0 : ℤ) < round_half_even (x / 2 ^ (Int.log 2 x - 23)) := by
      have : (0 : ℤ) < 2 ^ 23 := by norm_num
      omega
    exact_mod_cast this
  exact mul_pos hR2 hu

/-- Below `2 ^ 24` the spacing of the `float`s is a power of two not above 1, so the
integers are multiples of it. -/
theorem ulp_inverse (e : ℤ) (he : e ≤ 23) : ∃ j : ℕ, (2 : ℚ) ^ (e - 23) * 2 ^ j = 1 := by
  obtain ⟨j, hj⟩ := Int.eq_ofNat_of_zero_le (show 0 ≤ 23 - e by omega)
  refine ⟨j, ?_⟩
  have h : e - 23 = -(j : ℤ) := by omega
  rw [h, zpow_neg, zpow_natCast]
  exact inv_mul_cancel₀ (by positivity)

/-- Rounding to `float` does not cross an integer from below, in the binades under
`2 ^ 24`. -/
theorem to_float_pos_le_int (x : ℚ) (n : ℤ) (hlog : Int.log 2 x ≤ 23)
    (h : x ≤ n) : to_float_pos x ≤ n := by
  unfold to_float_pos
  obtain ⟨j, hj⟩ := ulp_inverse _ hlog
  have hu : (0 : ℚ) < 2 ^ (Int.log 2 x - 23) := by positivity
  have hn : (n : ℚ) = ((n * 2 ^ j : ℤ) : ℚ) * 2 ^ (Int.log 2 x - 23) := by
    push_cast
    rw [mul_assoc, mul_comm ((2 : ℚ) ^ j), hj, mul_one]
  have hm : x / 2 ^ (Int.log 2 x - 23) ≤ ((n * 2 ^ j : ℤ) : ℚ) := by
    rw [div_le_iff₀ hu, ← hn]
    exact h
  have hR := round_half_even_le _ _ hm
  have hR2 : (round_half_even (x / 2 ^ (Int.log 2 x - 23)) : ℚ) ≤ ((n * 2 ^ j : ℤ) : ℚ) := by
    exact_mod_cast hR
  calc (round_half_even (x / 2 ^ (Int.log 2 x - 23)) : ℚ) * 2 ^ (Int.log 2 x - 23)
      ≤ ((n * 2 ^ j : ℤ) : ℚ) * 2 ^ (Int.log 2 x - 23) :=
        mul_le_mul_of_nonneg_right hR2 (le_of_lt hu)
    _ = n := hn.symm

/-- Rounding to `float` does not cross an integer from above, in the binades under
`2 ^ 24`. -/
theorem int_le_to_float_pos (x : ℚ) (n : ℤ) (hlog : Int.log 2 x ≤ 23)
    (h : (n : ℚ) ≤ x) : (n : ℚ) ≤ to_float_pos x := by
  unfold to_float_pos
  obtain ⟨j, hj⟩ := ulp_inverse _ hlog
  have hu : (0 : ℚ) < 2 ^ (Int.log 2 x - 23) := by positivity
  have hn : (n : ℚ) = ((n * 2 ^ j : ℤ) : ℚ) * 2 ^ (Int.log 2 x - 23) := by
    push_cast
    rw [mul_assoc, mul_comm ((2 : ℚ) ^ j), hj, mul_one]
  have hm : ((n * 2 ^ j : ℤ) : ℚ) ≤ x / 2 ^ (Int.log 2 x - 23) := by
    rw [le_div_iff₀ hu, ← hn]
    exact h
  have hR := le_round_half_even _ _ hm
  have hR2 : ((n * 2 ^ j : ℤ) : ℚ) ≤ (round_half_even (x / 2 ^ (Int.log 2 x - 23)) : ℚ) := by
    exact_mod_cast hR
  calc (n : ℚ) = ((n * 2 ^ j : ℤ) : ℚ) * 2 ^ (Int.log 2 x - 23) := hn
    _ ≤ (round_half_even (x / 2 ^ (Int.log 2 x - 23)) : ℚ) * 2 ^ (Int.log 2 x - 23) :=
        mul_le_mul_of_nonneg_right hR2 (le_of_lt hu)

/-- A rational that exceeds an integer by more than half the spacing of its binade rounds to
a `float` above that integer. -/
theorem int_lt_to_float_pos (x : ℚ) (n : ℤ) (hlog : Int.log 2 x ≤ 23)
    (h : (n : ℚ) + 2 ^ (Int.log 2 x - 24) < x) : (n : ℚ) < to_float_pos x := by
  unfold to_float_pos
  obtain ⟨j, hj⟩ := ulp_inverse _ hlog
  have hu : (0 : ℚ) < 2 ^ (Int.log 2 x - 23) := by positivity
  have hn : (n : ℚ) = ((n * 2 ^ j : ℤ) : ℚ) * 2 ^ (Int.log 2 x - 23) := by
    push_cast
    rw [mul_assoc, mul_comm ((2 : ℚ) ^ j), hj, mul_one]
  have hhalf : (2 : ℚ) ^ (Int.log 2 x - 24) = 1 / 2 * 2 ^ (Int.log 2 x - 23) := by
    have : Int.log 2 x - 24 = (Int.log 2 x - 23) - 1 := by omega
    rw [this, zpow_sub₀ (by norm_num : (2 : ℚ) ≠ 0)]
    norm_num
    ring
  have hm : ((n * 2 ^ j : ℤ) : ℚ) + 1 / 2 < x / 2 ^ (Int.log 2 x - 23) := by
    rw [lt_div_iff₀ hu, add_mul, ← hn, ← hhalf]
    exact h
  have hR := lt_round_half_even _ _ hm
  have hR2 : ((n * 2 ^ j : ℤ) : ℚ) < (round_half_even (x / 2 ^ (Int.log 2 x - 23)) : ℚ) := by
    exact_mod_cast hR
  calc (n : ℚ) = ((n * 2 ^ j : ℤ) : ℚ) * 2 ^ (Int.log 2 x - 23) := hn
    _ < (round_half_even (x / 2 ^ (Int.log 2 x - 23)) : ℚ) * 2 ^ (Int.log 2 x - 23) :=
        mul_lt_mul_of_pos_right hR2 hu

/-- An `int` between 1 and `2 ^ 24` converts to `float` exactly. -/
theorem to_float_int (n : ℤ) (h0 : 0 < n) (h1 : n < 2 ^ 24) : to_float (n : ℚ) = n := by
  have hx : (0 : ℚ) < n := by exact_mod_cast h0
  have hlt : (n : ℚ) < (2 : ℚ) ^ (24 : ℤ) := by
    have h2 : n < 16777216 := by omega
    have h3 : (n : ℚ) < 16777216 := by exact_mod_cast h2
    rw [show (2 : ℚ) ^ (24 : ℤ) = 16777216 by norm_num]
    exact h3
  have hlog : Int.log 2 (n : ℚ) ≤ 23 := by
    have := log_lt_of_lt_two_zpow _ hx 24 hlt
    omega
  unfold to_float
  rw [if_pos hx]
  exact le_antisymm (to_float_pos_le_int _ _ hlog le_rfl) (int_le_to_float_pos _ _ hlog le_rfl)

/-- The quotient of two `int`s between 1 and `2 ^ 24`, computed in `float`, has the ceiling
of the exact quotient. -/
theorem ceil_to_float_div (q p : ℤ) (hq : 0 < q) (hq2 : q < 2 ^ 24) (hp : 0 < p) :
    ⌈to_float ((q : ℚ) / p)⌉ = ⌈(q : ℚ) / p⌉ := by
  have hqQ : (0 : ℚ) < q := by exact_mod_cast hq
  have hpQ : (0 : ℚ) < p := by exact_mod_cast hp
  have hp1 : (1 : ℚ) ≤ p := by exact_mod_cast hp
  have hx : (0 : ℚ) < (q : ℚ) / p := div_pos hqQ hpQ
  have hq24 : (q : ℚ) < (2 : ℚ) ^ (24 : ℤ) := by
    have h2 : q < 16777216 := by omega
    have h3 : (q : ℚ) < 16777216 := by exact_mod_cast h2
    rw [show (2 : ℚ) ^ (24 : ℤ) = 16777216 by norm_num]
    exact h3
  have hxlt : (q : ℚ) / p < (2 : ℚ) ^ (24 : ℤ) := by
    rw [div_lt_iff₀ hpQ]
    calc (q : ℚ) < 2 ^ (24 : ℤ) := hq24
      _ ≤ 2 ^ (24 : ℤ) * p := le_mul_of_one_le_right (by positivity) hp1
  have hlog : Int.log 2 ((q : ℚ) / p) ≤ 23 := by
    have := log_lt_of_lt_two_zpow _ hx 24 hxlt
    omega
  unfold to_float
  rw [if_pos hx, Int.ceil_eq_iff]
  refine ⟨?_, to_float_pos_le_int _ _ hlog (Int.le_ceil _)⟩
  have hgap : ((⌈(q : ℚ) / p⌉ - 1 : ℤ) : ℚ) + 2 ^ (Int.log 2 ((q : ℚ) / p) - 24)
      < (q : ℚ) / p := by
    -- the exact quotient exceeds the integer below its ceiling by at least `1 / p`
    have hc : ((⌈(q : ℚ) / p⌉ - 1 : ℤ) : ℚ) < (q : ℚ) / p := by
      have := Int.ceil_lt_add_one ((q : ℚ) / p)
      push_cast
      linarith
    have hc2 : ((⌈(q : ℚ) / p⌉ - 1) * p : ℤ) < q := by
      have : (((⌈(q : ℚ) / p⌉ - 1) * p : ℤ) : ℚ) < q := by
        rw [lt_div_iff₀ hpQ] at hc
        exact_mod_cast hc
      exact_mod_cast this
    have hc3 : ((⌈(q : ℚ) / p⌉ - 1) * p : ℤ) + 1 ≤ q := by omega
    have hc4 : ((⌈(q : ℚ) / p⌉ - 1 : ℤ) : ℚ) + 1 / p ≤ (q : ℚ) / p := by
      rw [le_div_iff₀ hpQ, add_mul, one_div, inv_mul_cancel₀ (ne_of_gt hpQ)]
      exact_mod_cast hc3
    -- and half the spacing is below `1 / p`
    have hpow : (2 : ℚ) ^ Int.log 2 ((q : ℚ) / p) * p ≤ q := by
      have := two_zpow_log_le _ hx
      rwa [le_div_iff₀ hpQ] at this
    have hsmall : (2 : ℚ) ^ (Int.log 2 ((q : ℚ) / p) - 24) < 1 / p := by
      rw [zpow_sub₀ (by norm_num : (2 : ℚ) ≠ 0), div_lt_div_iff₀ (by positivity) hpQ, one_mul]
      calc (2 : ℚ) ^ Int.log 2 ((q : ℚ) / p) * p ≤ q := hpow
        _ < 2 ^ (24 : ℤ) := hq24
    linarith
  have := int_lt_to_float_pos _ _ hlog hgap
  push_cast at this ⊢
  exact this

theorem to_float_zero : to_float 0 = 0 := by
  unfold to_float
  simp

theorem to_float_pos_of_pos (x : ℚ) (hx : 0 < x) : 0 < to_float x := by
  unfold to_float
  rw [if_pos hx]
  exact to_float_pos_pos x hx

/-- The conversion to `int` of a `float` that holds an integer. -/
theorem float_to_int_int (c : ℤ) :
    float_to_int (c : ℚ) =
      if -2 ^ 31 ≤ c ∧ c < 2 ^ 31 then Except.ok c
      else Except.error CgroupFault.float_to_int_out_of_range := by
  unfold float_to_int
  simp only [Int.floor_intCast, Int.ceil_intCast, ite_self]

/-- What `processor_count` computes for a positive number of host CPUs: the host count when
the quota is not positive or the period is not positive; otherwise the ceiling of the
quotient computed in `float`, capped by the host count, when that ceiling is an `int`. -/
theorem processor_count_eq (fl : Flags) (cpu_ctrl : CgroupCpuController) (host_cpus : Int)
    (hhost : 0 < host_cpus) :
    CgroupUtil.processor_count fl cpu_ctrl host_cpus =
      if 0 < cpu_ctrl.cpu_quota ∧ 0 < cpu_ctrl.cpu_period then
        if ⌈to_float (to_float cpu_ctrl.cpu_quota / to_float cpu_ctrl.cpu_period)⌉ < 2 ^ 31 then
          Except.ok (min host_cpus
            ⌈to_float (to_float cpu_ctrl.cpu_quota / to_float cpu_ctrl.cpu_period)⌉)
        else Except.error CgroupFault.float_to_int_out_of_range
      else Except.ok host_cpus := by
  have hassert : (fl.ASSERT && !decide (host_cpus > 0)) = false := by
    simp [hhost]
  unfold CgroupUtil.processor_count
  rw [hassert]
  simp only [Bool.false_eq_true, if_false]
  by_cases hq : 0 < cpu_ctrl.cpu_quota
  · by_cases hp : 0 < cpu_ctrl.cpu_period
    · have hcond : cpu_ctrl.cpu_quota > -1 ∧ cpu_ctrl.cpu_period > 0 := ⟨by omega, hp⟩
      rw [if_pos hcond, if_pos ⟨hq, hp⟩]
      have hqf : (0 : ℚ) < to_float cpu_ctrl.cpu_quota :=
        to_float_pos_of_pos _ (by exact_mod_cast hq)
      have hpf : (0 : ℚ) < to_float cpu_ctrl.cpu_period :=
        to_float_pos_of_pos _ (by exact_mod_cast hp)
      have hc : 0 < ⌈to_float (to_float cpu_ctrl.cpu_quota / to_float cpu_ctrl.cpu_period)⌉ :=
        Int.ceil_pos.mpr (to_float_pos_of_pos _ (div_pos hqf hpf))
      unfold ceilf
      rw [float_to_int_int]
      by_cases h31 :
          ⌈to_float (to_float cpu_ctrl.cpu_quota / to_float cpu_ctrl.cpu_period)⌉ < 2 ^ 31
      · rw [if_pos ⟨by omega, h31⟩, if_pos h31]
        simp only [bind, Except.bind, pure, Except.pure]
        rw [if_pos (by omega)]
      · rw [if_neg (fun h => h31 h.2), if_neg h31]
        rfl
    · have hcond : ¬ (cpu_ctrl.cpu_quota > -1 ∧ cpu_ctrl.cpu_period > 0) := fun h => hp h.2
      have hrhs : ¬ (0 < cpu_ctrl.cpu_quota ∧ 0 < cpu_ctrl.cpu_period) := fun h => hp h.2
      rw [if_neg hcond, if_neg hrhs]
      simp [bind, Except.bind, pure, Except.pure]
  · have hrhs : ¬ (0 < cpu_ctrl.cpu_quota ∧ 0 < cpu_ctrl.cpu_period) := fun h => hq h.1
    rw [if_neg hrhs]
    by_cases hcond : cpu_ctrl.cpu_quota > -1 ∧ cpu_ctrl.cpu_period > 0
    · have hq0 : cpu_ctrl.cpu_quota = 0 := by omega
      rw [if_pos hcond, hq0]
      simp only [Int.cast_zero, to_float_zero, zero_div]
      have : ceilf 0 = ((0 : ℤ) : ℚ) := by simp [ceilf]
      rw [this, float_to_int_int]
      simp [bind, Except.bind, pure, Except.pure]
    · rw [if_neg hcond]
      simp [bind, Except.bind, pure, Except.pure]

/-- C35 as stated fails: with a quota of 17000001 and a period of 1000000 on a host of 64
CPUs, `(float)17000001` is 17000000 (a `float` holds 24 significant bits, and 17000001 lies
between `2 ^ 24` and `2 ^ 25`, where only even integers are `float`s), the quotient is 17 and
the function returns 17; the ceiling of the exact quotient is 18. -/
theorem C35_processor_count_counterexample :
    CgroupUtil.processor_count Flags.sample
        { cpu_quota := 17000001, cpu_period := 1000000 } 64 = Except.ok 17
    ∧ min (64 : ℤ) ⌈((17000001 : ℤ) : ℚ) / ((1000000 : ℤ) : ℚ)⌉ = 18 := by
  have e1 : to_float ((17000001 : ℤ) : ℚ) = 17000000 := by
    unfold to_float to_float_pos
    rw [if_pos (by norm_num), log_eq_of_bounds _ 24 (by norm_num) (by norm_num)]
    unfold round_half_even
    norm_num
  have e2 : to_float ((1000000 : ℤ) : ℚ) = 1000000 := by
    have := to_float_int 1000000 (by norm_num) (by norm_num)
    exact_mod_cast this
  have e3 : to_float (17 : ℚ) = 17 := by
    have := to_float_int 17 (by norm_num) (by norm_num)
    exact_mod_cast this
  have e4 : ⌈to_float (to_float ((17000001 : ℤ) : ℚ) / to_float ((1000000 : ℤ) : ℚ))⌉ = 17 := by
    rw [e1, e2, show (17000000 : ℚ) / 1000000 = 17 by norm_num, e3]
    norm_num
  refine ⟨?_, ?_⟩
  · rw [processor_count_eq _ _ _ (by norm_num)]
    simp only [e4]
    norm_num
  · have : ⌈((17000001 : ℤ) : ℚ) / ((1000000 : ℤ) : ℚ)⌉ = 18 := by
      rw [Int.ceil_eq_iff]
      norm_num
    rw [this]
    norm_num

/-- C35 (as amended): for every positive number of host CPUs and every quota and period,
`processor_count` returns the host count when the quota is negative or zero or the period is
not positive; whatever it returns lies between 1 and the host count; with a positive quota
and period it returns the smaller of the host count and the ceiling of the quotient as
computed in `float` (the conversion of that ceiling to `int` is undefined from `2 ^ 31` on);
and when quota and period are both below `2 ^ 24`, so that both are `float`s, this is the
smaller of the host count and the ceiling of the exact quotient. -/
theorem C35_processor_count (fl : Flags) (cpu_ctrl : CgroupCpuController) (host_cpus : Int)
    (hhost : 0 < host_cpus) :
    ((cpu_ctrl.cpu_quota < 0 ∨ cpu_ctrl.cpu_quota = 0 ∨ cpu_ctrl.cpu_period ≤ 0) →
        CgroupUtil.processor_count fl cpu_ctrl host_cpus = Except.ok host_cpus)
    ∧ (∀ r, CgroupUtil.processor_count fl cpu_ctrl host_cpus = Except.ok r →
        1 ≤ r ∧ r ≤ host_cpus)
    ∧ (0 < cpu_ctrl.cpu_quota → 0 < cpu_ctrl.cpu_period →
        (⌈to_float (to_float cpu_ctrl.cpu_quota / to_float cpu_ctrl.cpu_period)⌉ < 2 ^ 31 →
          CgroupUtil.processor_count fl cpu_ctrl host_cpus = Except.ok (min host_cpus
            ⌈to_float (to_float cpu_ctrl.cpu_quota / to_float cpu_ctrl.cpu_period)⌉))
        ∧ (2 ^ 31 ≤ ⌈to_float (to_float cpu_ctrl.cpu_quota / to_float cpu_ctrl.cpu_period)⌉ →
          CgroupUtil.processor_count fl cpu_ctrl host_cpus
            = Except.error CgroupFault.float_to_int_out_of_range))
    ∧ (0 < cpu_ctrl.cpu_quota → cpu_ctrl.cpu_quota < 2 ^ 24 →
        0 < cpu_ctrl.cpu_period → cpu_ctrl.cpu_period < 2 ^ 24 →
        CgroupUtil.processor_count fl cpu_ctrl host_cpus = Except.ok (min host_cpus
          ⌈(cpu_ctrl.cpu_quota : ℚ) / (cpu_ctrl.cpu_period : ℚ)⌉)) := by
  have heq := processor_count_eq fl cpu_ctrl host_cpus hhost
  refine ⟨?_, ?_, ?_, ?_⟩
  · intro h
    have hrhs : ¬ (0 < cpu_ctrl.cpu_quota ∧ 0 < cpu_ctrl.cpu_period) := by
      intro hc
      omega
    rw [heq, if_neg hrhs]
  · intro r hr
    rw [heq] at hr
    split_ifs at hr with h1 h2
    · cases hr
      have hqf : (0 : ℚ) < to_float cpu_ctrl.cpu_quota :=
        to_float_pos_of_pos _ (by exact_mod_cast h1.1)
      have hpf : (0 : ℚ) < to_float cpu_ctrl.cpu_period :=
        to_float_pos_of_pos _ (by exact_mod_cast h1.2)
      have hc : 0 < ⌈to_float (to_float cpu_ctrl.cpu_quota / to_float cpu_ctrl.cpu_period)⌉ :=
        Int.ceil_pos.mpr (to_float_pos_of_pos _ (div_pos hqf hpf))
      exact ⟨le_min (by omega) (by omega), min_le_left _ _⟩
    · cases hr
      exact ⟨by omega, le_rfl⟩
  · intro hq hp
    refine ⟨fun h31 => ?_, fun h31 => ?_⟩
    · rw [heq, if_pos ⟨hq, hp⟩, if_pos h31]
    · rw [heq, if_pos ⟨hq, hp⟩, if_neg (by omega)]
  · intro hq hq2 hp hp2
    have e1 := to_float_int _ hq hq2
    have e2 := to_float_int _ hp hp2
    have e3 := ceil_to_float_div _ _ hq hq2 hp
    have h31 : ⌈(cpu_ctrl.cpu_quota : ℚ) / (cpu_ctrl.cpu_period : ℚ)⌉ < 2 ^ 31 := by
      have hpQ : (0 : ℚ) < cpu_ctrl.cpu_period := by exact_mod_cast hp
      have hp1 : (1 : ℚ) ≤ cpu_ctrl.cpu_period := by exact_mod_cast hp
      have hqQ : (0 : ℚ) ≤ cpu_ctrl.cpu_quota := by exact_mod_cast le_of_lt hq
      have hle : (cpu_ctrl.cpu_quota : ℚ) / (cpu_ctrl.cpu_period : ℚ)
          ≤ ((cpu_ctrl.cpu_quota : ℤ) : ℚ) := by
        rw [div_le_iff₀ hpQ]
        exact le_mul_of_one_le_right hqQ hp1
      have := Int.ceil_le.mpr hle
      omega
    rw [heq, if_pos ⟨hq, hp⟩, e1, e2, e3, if_pos h31]

/-- C35 at concrete inputs on a host of 64 CPUs: a quota of 150000 with a period of 100000
gives 2, and no quota (a quota of -1) gives 64. -/
theorem C35_processor_count_witness :
    (0 : ℤ) < 64
    ∧ CgroupUtil.processor_count Flags.sample { cpu_quota := 150000, cpu_period := 100000 } 64
        = Except.ok 2
    ∧ CgroupUtil.processor_count Flags.sample { cpu_quota := -1, cpu_period := 100000 } 64
        = Except.ok 64 := by
  have T1 := (C35_processor_count Flags.sample { cpu_quota := 150000, cpu_period := 100000 }
    64 (by decide)).2.2.2 (by decide) (by decide) (by decide) (by decide)
  have T2 := (C35_processor_count Flags.sample { cpu_quota := -1, cpu_period := 100000 }
    64 (by decide)).1 (Or.inl (by decide))
  have hc : ⌈((150000 : ℤ) : ℚ) / ((100000 : ℤ) : ℚ)⌉ = 2 := by
    rw [Int.ceil_eq_iff]
    norm_num
  refine ⟨by decide, ?_, T2⟩
  rw [T1]
  simp only [hc]
  rfl

/-! ### The heap-shrink step in `double` arithmetic -/

/-- Below `2 ^ 53` the spacing of the `double`s is a power of two not above 1, so the
integers are multiples of it. -/
theorem ulp_inverse_double (e : ℤ) (he : e ≤ 52) : ∃ j : ℕ, (2 : ℚ) ^ (e - 52) * 2 ^ j = 1 := by
  obtain ⟨j, hj⟩ := Int.eq_ofNat_of_zero_le (show 0 ≤ 52 - e by omega)
  refine ⟨j, ?_⟩
  have h : e - 52 = -(j : ℤ) := by omega
  rw [h, zpow_neg, zpow_natCast]
  exact inv_mul_cancel₀ (by positivity)

theorem to_double_pos_le_int (x : ℚ) (n : ℤ) (hlog : Int.log 2 x ≤ 52)
    (h : x ≤ n) : to_double_pos x ≤ n := by
  unfold to_double_pos
  obtain ⟨j, hj⟩ := ulp_inverse_double _ hlog
  have hu : (0 : ℚ) < 2 ^ (Int.log 2 x - 52) := by positivity
  have hn : (n : ℚ) = ((n * 2 ^ j : ℤ) : ℚ) * 2 ^ (Int.log 2 x - 52) := by
    push_cast
    rw [mul_assoc, mul_comm ((2 : ℚ) ^ j), hj, mul_one]
  have hm : x / 2 ^ (Int.log 2 x - 52) ≤ ((n * 2 ^ j : ℤ) : ℚ) := by
    rw [div_le_iff₀ hu, ← hn]
    exact h
  have hR := round_half_even_le _ _ hm
  have hR2 : (round_half_even (x / 2 ^ (Int.log 2 x - 52)) : ℚ)
      ≤ ((n * 2 ^ j : ℤ) : ℚ) := by
    exact_mod_cast hR
  calc (round_half_even (x / 2 ^ (Int.log 2 x - 52)) : ℚ) * 2 ^ (Int.log 2 x - 52)
      ≤ ((n * 2 ^ j : ℤ) : ℚ) * 2 ^ (Int.log 2 x - 52) :=
        mul_le_mul_of_nonneg_right hR2 (le_of_lt hu)
    _ = n := hn.symm

theorem int_le_to_double_pos (x : ℚ) (n : ℤ) (hlog : Int.log 2 x ≤ 52)
    (h : (n : ℚ) ≤ x) : (n : ℚ) ≤ to_double_pos x := by
  unfold to_double_pos
  obtain ⟨j, hj⟩ := ulp_inverse_double _ hlog
  have hu : (0 : ℚ) < 2 ^ (Int.log 2 x - 52) := by positivity
  have hn : (n : ℚ) = ((n * 2 ^ j : ℤ) : ℚ) * 2 ^ (Int.log 2 x - 52) := by
    push_cast
    rw [mul_assoc, mul_comm ((2 : ℚ) ^ j), hj, mul_one]
  have hm : ((n * 2 ^ j : ℤ) : ℚ) ≤ x / 2 ^ (Int.log 2 x - 52) := by
    rw [le_div_iff₀ hu, ← hn]
    exact h
  have hR := le_round_half_even _ _ hm
  have hR2 : ((n * 2 ^ j : ℤ) : ℚ)
      ≤ (round_half_even (x / 2 ^ (Int.log 2 x - 52)) : ℚ) := by
    exact_mod_cast hR
  calc (n : ℚ) = ((n * 2 ^ j : ℤ) : ℚ) * 2 ^ (Int.log 2 x - 52) := hn
    _ ≤ (round_half_even (x / 2 ^ (Int.log 2 x - 52)) : ℚ) * 2 ^ (Int.log 2 x - 52) :=
        mul_le_mul_of_nonneg_right hR2 (le_of_lt hu)

/-- An integer of magnitude below `2 ^ 53` is a `double`. -/
theorem to_double_int (n : ℤ) (h0 : -2 ^ 53 < n) (h1 : n < 2 ^ 53) : to_double (n : ℚ) = n := by
  have key : ∀ k : ℤ, 0 < k → k < 2 ^ 53 → to_double_pos (k : ℚ) = k := by
    intro k hk0 hk1
    have hx : (0 : ℚ) < k := by exact_mod_cast hk0
    have hlt : (k : ℚ) < (2 : ℚ) ^ (53 : ℤ) := by
      have h2 : k < 9007199254740992 := by omega
      have h3 : (k : ℚ) < 9007199254740992 := by exact_mod_cast h2
      rw [show (2 : ℚ) ^ (53 : ℤ) = 9007199254740992 by norm_num]
      exact h3
    have hlog : Int.log 2 (k : ℚ) ≤ 52 := by
      have := log_lt_of_lt_two_zpow _ hx 53 hlt
      omega
    exact le_antisymm (to_double_pos_le_int _ _ hlog le_rfl)
      (int_le_to_double_pos _ _ hlog le_rfl)
  unfold to_double
  rcases lt_trichotomy n 0 with hn | hn | hn
  · have hx : (n : ℚ) < 0 := by exact_mod_cast hn
    rw [if_neg (not_lt.mpr (le_of_lt hx)), if_pos hx]
    have := key (-n) (by omega) (by omega)
    push_cast at this
    rw [this, neg_neg]
  · subst hn
    simp
  · have hx : (0 : ℚ) < n := by exact_mod_cast hn
    rw [if_pos hx]
    exact key n hn h1

/-- The shrink step, as a case distinction on the test the code makes. -/
theorem run_shrink_eq (fl : Flags) (snap : Snapshot) (soft_max_changed : Bool)
    (current last_shrink_time : ℚ) (vm : VM) :
    (shrink_due_rounded fl snap.explicit_gc_requested soft_max_changed current
        last_shrink_time →
      run_shrink fl snap soft_max_changed current last_shrink_time vm =
        (current,
         service_uncommit
          (if snap.explicit_gc_requested = true ∨ soft_max_changed = true then current
           else to_double
            (current - to_double (to_double fl.ShenandoahUncommitDelay / 1000)))
          (if soft_max_changed = true then vm.heap.soft_max_capacity
           else vm.heap.min_capacity) vm))
    ∧ (¬ shrink_due_rounded fl snap.explicit_gc_requested soft_max_changed current
          last_shrink_time →
        run_shrink fl snap soft_max_changed current last_shrink_time vm
          = (last_shrink_time, vm)) := by
  have hdue : shrink_due_rounded fl snap.explicit_gc_requested soft_max_changed current
      last_shrink_time ↔
      (fl.ShenandoahUncommit && (snap.explicit_gc_requested || soft_max_changed
        || decide (to_double (current - last_shrink_time) > shrink_period fl))) = true := by
    simp only [shrink_due_rounded, Bool.and_eq_true, Bool.or_eq_true, decide_eq_true_eq,
      gt_iff_lt, or_assoc]
  refine ⟨?_, ?_⟩
  · intro h
    unfold run_shrink
    rw [if_pos (hdue.mp h)]
    cases he : snap.explicit_gc_requested <;> cases hs : soft_max_changed <;> simp
  · intro h
    unfold run_shrink
    rw [if_neg (fun hh => h (hdue.mpr hh))]

/-- C21 as stated fails: with an uncommit delay of one second the shrink period is the
`double` 0.1, which is above one tenth.  When the clock reads that same `double` and the
last shrink was at time 0, more than one tenth of the delay has elapsed, yet the test
`current - last_shrink_time > shrink_period` compares the `double` with itself and the
shrink step does nothing. -/
theorem C21_shrink_subtask_counterexample :
    to_double (1 / 10) = double_tenth
    ∧ shrink_period Flags.uncommit_after_a_second = double_tenth
    ∧ shrink_due Flags.uncommit_after_a_second
        (take_snapshot VM.with_empty_region).explicit_gc_requested false double_tenth 0
    ∧ run_shrink Flags.uncommit_after_a_second (take_snapshot VM.with_empty_region) false
        double_tenth 0 VM.with_empty_region = (0, VM.with_empty_region) := by
  have e1 : to_double (1 / 10) = double_tenth := by
    unfold to_double to_double_pos double_tenth
    rw [if_pos (by norm_num), log_eq_of_bounds _ (-4) (by norm_num) (by norm_num)]
    unfold round_half_even
    norm_num
  have e2 : to_double double_tenth = double_tenth := by
    unfold to_double to_double_pos double_tenth
    rw [if_pos (by norm_num), log_eq_of_bounds _ (-4) (by norm_num) (by norm_num)]
    unfold round_half_even
    norm_num
  have e3 : to_double (1000 : ℚ) = 1000 := by
    have := to_double_int 1000 (by norm_num) (by norm_num)
    exact_mod_cast this
  have e4 : to_double (1 : ℚ) = 1 := by
    have := to_double_int 1 (by norm_num) (by norm_num)
    exact_mod_cast this
  have e5 : shrink_period Flags.uncommit_after_a_second = double_tenth := by
    show to_double (to_double (to_double ((1000 : ℕ) : ℚ) / 1000) / 10) = double_tenth
    rw [show ((1000 : ℕ) : ℚ) = 1000 by norm_num, e3,
      show (1000 : ℚ) / 1000 = 1 by norm_num, e4, e1]
  refine ⟨e1, e5, ?_, ?_⟩
  · refine ⟨rfl, Or.inr (Or.inr ?_)⟩
    show ((1000 : ℕ) : ℚ) / 1000 / 10 < double_tenth - 0
    unfold double_tenth
    norm_num
  · refine (run_shrink_eq _ _ _ _ _ _).2 ?_
    rintro ⟨_, h | h | h⟩
    · cases h
    · cases h
    · rw [e5, sub_zero, e2] at h
      exact lt_irrefl _ h

/-- C21 (as amended): the shrink step of an iteration calls `service_uncommit` exactly when
uncommit is enabled and an explicit GC was requested, or the soft max changed, or the time
since the last shrink, the `double` difference `current - last_shrink_time`, exceeds the
shrink period, the `double` `(double)ShenandoahUncommitDelay / 1000 / 10`; it then records
the time as that of the last shrink.  shrink_before is the current time when explicit or
soft-max-changed and the `double` `current - ShenandoahUncommitDelay / 1000.0` otherwise;
shrink_until is the soft max capacity when the soft max changed and the min capacity
otherwise.  Where the delay, its thousandth and ten-thousandth and the two differences are
`double`s, these are the exact quantities: more than one tenth of the delay has elapsed, and
the current time minus the delay.  Every iteration that completes runs this step once, with
its own snapshot, after its cycle. -/
theorem C21_shrink_subtask (fl : Flags) (snap : Snapshot) (soft_max_changed : Bool)
    (current last_shrink_time : ℚ) (vm : VM) :
    (shrink_due_rounded fl snap.explicit_gc_requested soft_max_changed current
        last_shrink_time →
      run_shrink fl snap soft_max_changed current last_shrink_time vm =
        (current,
         service_uncommit
          (if snap.explicit_gc_requested = true ∨ soft_max_changed = true then current
           else to_double
            (current - to_double (to_double fl.ShenandoahUncommitDelay / 1000)))
          (if soft_max_changed = true then vm.heap.soft_max_capacity
           else vm.heap.min_capacity) vm))
    ∧ (¬ shrink_due_rounded fl snap.explicit_gc_requested soft_max_changed current
          last_shrink_time →
        run_shrink fl snap soft_max_changed current last_shrink_time vm
          = (last_shrink_time, vm))
    ∧ (fl.ShenandoahUncommit = true → snap.explicit_gc_requested = true →
        soft_max_changed = false →
        run_shrink fl snap soft_max_changed current last_shrink_time vm
          = (current, service_uncommit current vm.heap.min_capacity vm))
    ∧ (is_double fl.ShenandoahUncommitDelay →
        is_double ((fl.ShenandoahUncommitDelay : ℚ) / 1000) →
        is_double ((fl.ShenandoahUncommitDelay : ℚ) / 1000 / 10) →
        is_double (current - last_shrink_time) →
        is_double (current - (fl.ShenandoahUncommitDelay : ℚ) / 1000) →
        (shrink_due_rounded fl snap.explicit_gc_requested soft_max_changed current
            last_shrink_time
          ↔ shrink_due fl snap.explicit_gc_requested soft_max_changed current
              last_shrink_time)
        ∧ to_double (current - to_double (to_double fl.ShenandoahUncommitDelay / 1000))
            = current - (fl.ShenandoahUncommitDelay : ℚ) / 1000)
    ∧ (∀ (inp : IterationInput) (loc : Locals) (vm0 : VM) (r : Locals × VM),
        run_service_iteration fl inp loc vm0 = Except.ok r →
        ∃ s c, run_selection fl inp loc vm0 = Except.ok s
          ∧ r.1.last_shrink_time
              = (run_shrink fl s.snap s.soft_max_changed inp.current
                  loc.last_shrink_time c).1
          ∧ r.2 = end_of_iteration inp
              (run_shrink fl s.snap s.soft_max_changed inp.current
                loc.last_shrink_time c).2) := by
  have heq := run_shrink_eq fl snap soft_max_changed current last_shrink_time vm
  refine ⟨heq.1, heq.2, ?_, ?_, run_service_iteration_shrink fl⟩
  · intro hu he hs
    rw [heq.1 ⟨hu, Or.inl he⟩]
    simp [he, hs]
  · intro h1 h2 h3 h4 h5
    unfold is_double at h1 h2 h3 h4 h5
    refine ⟨?_, ?_⟩
    · unfold shrink_due_rounded shrink_due shrink_period
      rw [h1, h2, h3, h4]
    · rw [h1, h2, h5]

/-- C21 at the sample configuration (uncommit delay 300 s, so a period of 30 s), on a heap of
8 GiB committed with a region that has been empty since time 5: 1000 s after the last shrink
the periodic shrink invokes the heap's uncommit with shrink_before 700 and the min capacity;
one second after the last shrink nothing runs; an explicit request shrinks at once, towards
the min capacity, with shrink_before the current time. -/
theorem C21_shrink_subtask_witness :
    (∃ v, run_shrink Flags.sample (take_snapshot VM.with_empty_region) false 1000 0
          VM.with_empty_region = (1000, v)
      ∧ uncommit_invoked 700 (2 * 2 ^ 30) VM.with_empty_region v)
    ∧ run_shrink Flags.sample (take_snapshot VM.with_empty_region) false 1 0
        VM.with_empty_region = (0, VM.with_empty_region)
    ∧ (∃ v, run_shrink Flags.sample
          (take_snapshot (post_requested_gc Cause.user_requested VM.with_empty_region))
          false 10 0 VM.with_empty_region = (10, v)
      ∧ uncommit_invoked 10 (2 * 2 ^ 30) VM.with_empty_region v) := by
  have d1 : to_double ((Flags.sample.ShenandoahUncommitDelay : ℕ) : ℚ) = 300000 := by
    have := to_double_int 300000 (by norm_num) (by norm_num)
    exact_mod_cast this
  have d2 : to_double (300 : ℚ) = 300 := by
    have := to_double_int 300 (by norm_num) (by norm_num)
    exact_mod_cast this
  have d3 : to_double (30 : ℚ) = 30 := by
    have := to_double_int 30 (by norm_num) (by norm_num)
    exact_mod_cast this
  have d4 : to_double (1000 : ℚ) = 1000 := by
    have := to_double_int 1000 (by norm_num) (by norm_num)
    exact_mod_cast this
  have d5 : to_double (700 : ℚ) = 700 := by
    have := to_double_int 700 (by norm_num) (by norm_num)
    exact_mod_cast this
  have d6 : to_double (1 : ℚ) = 1 := by
    have := to_double_int 1 (by norm_num) (by norm_num)
    exact_mod_cast this
  have hp : shrink_period Flags.sample = 30 := by
    unfold shrink_period
    rw [d1, show (300000 : ℚ) / 1000 = 300 by norm_num, d2,
      show (300 : ℚ) / 10 = 30 by norm_num, d3]
  have hsnap : (take_snapshot VM.with_empty_region).explicit_gc_requested = false := rfl
  refine ⟨?_, ?_, ?_⟩
  · have h := (C21_shrink_subtask Flags.sample (take_snapshot VM.with_empty_region) false
      1000 0 VM.with_empty_region).1
      ⟨rfl, Or.inr (Or.inr (by rw [hp, sub_zero, d4]; norm_num))⟩
    refine ⟨_, h, ?_⟩
    rw [d1, show (300000 : ℚ) / 1000 = 300 by norm_num, d2,
      show (1000 : ℚ) - 300 = 700 by norm_num, d5]
    simp only [hsnap, Bool.false_eq_true, or_self, if_false]
    simp [uncommit_invoked, service_uncommit, emit, VM.with_empty_region, VM.init,
      ShenandoahHeap.idle]
    norm_num
  · exact (C21_shrink_subtask Flags.sample (take_snapshot VM.with_empty_region) false
      1 0 VM.with_empty_region).2.1
      (by
        rintro ⟨_, h | h | h⟩
        · cases h
        · cases h
        · rw [hp, sub_zero, d6] at h
          norm_num at h)
  · have h := (C21_shrink_subtask Flags.sample
      (take_snapshot (post_requested_gc Cause.user_requested VM.with_empty_region)) false
      10 0 VM.with_empty_region).2.2.1 rfl rfl rfl
    refine ⟨_, h, ?_⟩
    simp [uncommit_invoked, service_uncommit, emit, VM.with_empty_region, VM.init,
      ShenandoahHeap.idle]
    norm_num

/-- A call of `pacing_notify_alloc` that returns leaves the state of the operation
`ThreadOp.pacing_notify_alloc`; it returns in a product build and whenever pacing is
enabled. -/
theorem pacing_notify_alloc_returns (fl : Flags) (words : Nat) (vm : VM) :
    (∀ v, pacing_notify_alloc fl words vm = Except.ok v →
        v = apply_op (ThreadOp.pacing_notify_alloc words) vm)
    ∧ ((fl.ASSERT = true → fl.ShenandoahPacing = true) →
        pacing_notify_alloc fl words vm
          = Except.ok (apply_op (ThreadOp.pacing_notify_alloc words) vm)) := by
  refine ⟨fun v h => ?_, fun h => ?_⟩
  · unfold pacing_notify_alloc at h
    have h := check_bind_ok _ _ _ _ _ h
    rw [pure_ok_iff] at h
    exact h.symm
  · unfold pacing_notify_alloc
    rw [check_passes _ _ _ h]
    rfl

end Shenandoah
